import Mathlib

/-!
# PBS reservation layer (`src/pbs.cpp`)

A shallow embedding of the path-based-signalling support routines: the
reservation query and mutation API, the reservation follower, the vehicle
locator, and theorems about them.

Conventions.
* `TileIndex` is a 32-bit unsigned machine integer, modelled as `Nat` with an
  explicit `% 2 ^ 32` where the source does arithmetic on it.
* `Track`, `TrackBits`, `Trackdir`, `TrackdirBits` are small bit-set enums,
  modelled as `Nat` with the bitwise operators of `Nat`.
* The map array is a function from tile index to a decoded tile record; the
  functions of `pbs.cpp` that write the map return the new world.
* Code that `pbs.cpp` calls but that lives in other files of the repository
  (the track follower, the signal queries, the vehicle hash, table lookups)
  is a field of `Env`, so every theorem holds for every implementation of it.
* `assert` lines are preconditions: the functions are total and the theorems
  state the precondition as a hypothesis where they need it.
-/

namespace PBS

/-! ## Value types -/

abbrev TileIndex := Nat
abbrev TileIndexDiff := Int
abbrev Track := Nat
abbrev TrackBits := Nat
abbrev Trackdir := Nat
abbrev TrackdirBits := Nat
abbrev VehicleID := Nat
abbrev Owner := Nat
abbrev RailTypes := Nat

/-- The `(TileIndex)-1` marker of "no tile". -/
def INVALID_TILE : TileIndex := 2 ^ 32 - 1

def TRACK_BIT_NONE : TrackBits := 0

def TRACKDIR_BIT_NONE : TrackdirBits := 0

/-- Unsigned 32-bit `tile + diff` (what `TILE_ADD(tile, diff)` and `tile += diff` compute). -/
def TILE_ADD (tile : TileIndex) (diff : TileIndexDiff) : TileIndex :=
  (((tile : Int) + diff) % (2 ^ 32 : Int)).toNat

/-- Unsigned 32-bit `tile - diff` (what `tile -= diff` computes). -/
def TILE_SUB (tile : TileIndex) (diff : TileIndexDiff) : TileIndex :=
  (((tile : Int) - diff) % (2 ^ 32 : Int)).toNat

/-- The tile classes `pbs.cpp` switches on; `TT_OTHER` stands for every class
that falls into a `default:` branch. -/
inductive TileType where
  | TT_RAILWAY
  | TT_MISC
  | TT_STATION
  | TT_OTHER
  deriving DecidableEq, Repr

/-- The subtypes of a `TT_MISC` tile; `TT_MISC_OTHER` stands for every subtype
that falls into a `default:` branch. -/
inductive TileSubtype where
  | TT_MISC_CROSSING
  | TT_MISC_TUNNEL
  | TT_MISC_DEPOT
  | TT_MISC_OTHER
  deriving DecidableEq, Repr

inductive TransportType where
  | TRANSPORT_RAIL
  | TRANSPORT_ROAD
  deriving DecidableEq, Repr

inductive DiagDirection where
  | DIAGDIR_NE
  | DIAGDIR_SE
  | DIAGDIR_SW
  | DIAGDIR_NW
  deriving DecidableEq, Repr

inductive Axis where
  | AXIS_X
  | AXIS_Y
  deriving DecidableEq, Repr

inductive SignalType where
  | SIGTYPE_NORMAL
  | SIGTYPE_ENTRY
  | SIGTYPE_EXIT
  | SIGTYPE_COMBO
  | SIGTYPE_PBS
  | SIGTYPE_PBS_ONEWAY
  deriving DecidableEq, Repr

inductive VehicleType where
  | VEH_TRAIN
  | VEH_ROAD
  | VEH_SHIP
  | VEH_AIRCRAFT
  deriving DecidableEq, Repr

/-! ## The map -/

/-- The reservation bits a tile stores: the reserved track bits of a plain rail
tile, one flag for each single-track feature, and the flag of the hidden middle
part of a tunnel or bridge (recorded on the head tile). -/
structure TileReservation where
  rail : TrackBits
  crossing : Bool
  tunnel_head : Bool
  depot : Bool
  station : Bool
  wormhole : Bool
  deriving DecidableEq, Repr

/-- A decoded map cell: what the tile accessors used by `pbs.cpp` read. -/
structure Tile where
  /-- `GetTileType` -/
  type : TileType
  /-- `GetTileSubtype` -/
  subtype : TileSubtype
  /-- `GetTunnelTransportType` -/
  transport : TransportType
  /-- `IsRailDepot` -/
  rail_depot : Bool
  /-- `HasStationRail` -/
  station_rail : Bool
  /-- `IsRailStation` (a true station, not a waypoint) -/
  rail_station : Bool
  /-- The rail tracks laid on the tile. -/
  railbits : TrackBits
  /-- `IsCrossingBarred` -/
  barred : Bool
  /-- The reservation bits. -/
  res : TileReservation
  deriving DecidableEq, Repr

/-- The mutable state `pbs.cpp` works on: the map, and the two logs of
notifications it sends out (redraw requests and station randomisation
triggers). -/
structure World where
  tiles : TileIndex → Tile
  dirty : List TileIndex
  triggers : List TileIndex

/-- Position on the rail network (`PFPos`): a tile and a track direction, and
for a position inside a tunnel or bridge the wormhole tile. -/
structure PFPos where
  tile : TileIndex
  td : Trackdir
  wormhole : TileIndex
  deriving DecidableEq, Repr

/-- Position reported by the track follower (`PFNewPos`): a position together
with the set of track directions that can be taken there. -/
structure PFNewPos where
  pos : PFPos
  trackdirs : TrackdirBits
  deriving DecidableEq, Repr

/-- The `m_flag` of the track follower. -/
inductive TileFlag where
  | TF_NONE
  | TF_STATION
  | TF_TUNNEL
  | TF_BRIDGE
  deriving DecidableEq, Repr

/-- What one step of `CFollowTrackRail` leaves in the follower object. -/
structure FollowResult where
  m_new : PFNewPos
  m_flag : TileFlag
  m_exitdir : DiagDirection
  m_tiles_skipped : Int
  deriving DecidableEq, Repr

/-- A vehicle as the locator callbacks see it. `first` is the index of the
vehicle `First()` returns, the front of the chain this vehicle belongs to. -/
structure Vehicle where
  index : VehicleID
  type : VehicleType
  vehstatus : Nat
  tile : TileIndex
  trackdir : Trackdir
  first : VehicleID
  deriving DecidableEq, Repr

/-- The crashed bit of `vehstatus`. -/
def VS_CRASHED : Nat := 0x80

/-- The collaborators of `pbs.cpp` that live in other files, taken as
parameters. None of them writes a reservation bit; the ones that read the map
read only parts the reservation layer never writes, so they do not take the
world. -/
structure Env where
  /-- `_settings_client.gui.show_track_reservation` -/
  show_track_reservation : Bool
  /-- `TracksOverlap`: whether a set of track bits contains two tracks that
  cross each other. -/
  TracksOverlap : TrackBits → Bool
  /-- The barred state `UpdateLevelCrossing` computes for a crossing. -/
  crossing_state : (TileIndex → Tile) → TileIndex → Bool
  /-- `TileOffsByDiagDir` -/
  TileOffsByDiagDir : DiagDirection → TileIndexDiff
  /-- `GetRailStationAxis` -/
  GetRailStationAxis : TileIndex → Axis
  /-- `IsCompatibleTrainStationTile(test_tile, station_tile)` -/
  IsCompatibleTrainStationTile : TileIndex → TileIndex → Bool
  /-- `TrackdirToTrack` -/
  TrackdirToTrack : Trackdir → Track
  /-- `TrackToTrackdir` -/
  TrackToTrackdir : Track → Trackdir
  /-- `ReverseTrackdir` -/
  ReverseTrackdir : Trackdir → Trackdir
  /-- `TrackdirToExitdir` -/
  TrackdirToExitdir : Trackdir → DiagDirection
  /-- `TrackBitsToTrackdirBits` -/
  TrackBitsToTrackdirBits : TrackBits → TrackdirBits
  /-- `FindFirstTrackdir` -/
  FindFirstTrackdir : TrackdirBits → Trackdir
  /-- The trackdir value of a train inside a tunnel or on a bridge. -/
  TRACKDIR_WORMHOLE : Trackdir
  /-- `GetOtherTunnelBridgeEnd` -/
  GetOtherTunnelBridgeEnd : TileIndex → TileIndex
  /-- One step of `CFollowTrackRail(o, true, rts)` from a position:
  `none` when the follower reports that the track cannot be followed. -/
  Follow : Owner → RailTypes → PFPos → Option FollowResult
  /-- `HasOnewaySignalBlockingPos` -/
  HasOnewaySignalBlockingPos : PFPos → Bool
  /-- `HasSignalAlongPos` -/
  HasSignalAlongPos : PFPos → Bool
  /-- `GetSignalType` at a position -/
  GetSignalType : PFPos → SignalType
  /-- `HasOnewaySignalBlockingTrackdir` -/
  HasOnewaySignalBlockingTrackdir : TileIndex → Trackdir → Bool
  /-- `HasPbsSignalOnTrackdir` -/
  HasPbsSignalOnTrackdir : TileIndex → Trackdir → Bool
  /-- `GetRailTypeInfo(GetRailType(tile, track))->compatible_railtypes` -/
  compatible_railtypes : TileIndex → Track → RailTypes
  /-- `GetTileOwner` -/
  GetTileOwner : TileIndex → Owner
  /-- One step of `CFollowTrackRail(v, allow_90deg, true)` for a train from a
  position: `none` when the follower reports that the track cannot be followed. -/
  FollowVehicle : Vehicle → Bool → PFPos → Option FollowResult
  /-- `HasSignalAgainstPos` -/
  HasSignalAgainstPos : PFPos → Bool
  /-- `GetGroundDepotDirection`, the direction in which a depot is left. -/
  GetGroundDepotDirection : TileIndex → DiagDirection
  /-- `DiagDirToDiagTrackdir` -/
  DiagDirToDiagTrackdir : DiagDirection → Trackdir
  /-- `TrackOverlapsTracks(tracks, track)`: whether the track is one of the
  tracks or crosses one of them. -/
  TrackOverlapsTracks : TrackBits → Track → Bool

/-! ## Tile accessors -/

def GetTileType (w : World) (t : TileIndex) : TileType := (w.tiles t).type

def GetTileSubtype (w : World) (t : TileIndex) : TileSubtype := (w.tiles t).subtype

def GetTunnelTransportType (w : World) (t : TileIndex) : TransportType := (w.tiles t).transport

def IsRailDepot (w : World) (t : TileIndex) : Bool := (w.tiles t).rail_depot

/-- Modelled from the spec: `IsRailDepotTile` (depot_map.h, not under src/), "the
candidate is a rail depot tile": a depot tile whose depot is a rail depot. -/
def IsRailDepotTile (w : World) (t : TileIndex) : Bool :=
  GetTileType w t == TileType.TT_MISC && GetTileSubtype w t == TileSubtype.TT_MISC_DEPOT &&
    IsRailDepot w t

def HasStationRail (w : World) (t : TileIndex) : Bool := (w.tiles t).station_rail

def IsRailStation (w : World) (t : TileIndex) : Bool := (w.tiles t).rail_station

/-- Modelled from the spec: `IsRailStationTile` (station_map.h, not under src/), a
station tile that is a true rail station cell. -/
def IsRailStationTile (w : World) (t : TileIndex) : Bool :=
  GetTileType w t == TileType.TT_STATION && IsRailStation w t

/-- Modelled from the spec: `GetTileRailwayStatus` (not under src/), "the tile's
rail state": the rail tracks present on the tile. -/
def GetTileRailwayStatus (w : World) (t : TileIndex) : TrackBits := (w.tiles t).railbits

/-- Modelled from the spec: `TrackToTrackBits` (track_func.h, not under src/), the
one-element bit set of a track, `1 << track`. -/
def TrackToTrackBits (t : Track) : TrackBits := 1 <<< t

def HasCrossingReservation (w : World) (t : TileIndex) : Bool := (w.tiles t).res.crossing

def HasTunnelHeadReservation (w : World) (t : TileIndex) : Bool := (w.tiles t).res.tunnel_head

def HasDepotReservation (w : World) (t : TileIndex) : Bool := (w.tiles t).res.depot

def HasStationReservation (w : World) (t : TileIndex) : Bool := (w.tiles t).res.station

def GetRailReservationTrackBits (w : World) (t : TileIndex) : TrackBits := (w.tiles t).res.rail

/-- Modelled from the spec: the reservation accessors of the single-track
features (road_map.h, tunnel_map.h, depot_map.h, station_map.h, not under src/):
the reservation "degenerates to a boolean", reported as the tile's own track
when the flag is set and as nothing otherwise. -/
def GetCrossingReservationTrackBits (w : World) (t : TileIndex) : TrackBits :=
  if HasCrossingReservation w t then (w.tiles t).railbits else TRACK_BIT_NONE

/-- Modelled from the spec: see `GetCrossingReservationTrackBits`. -/
def GetTunnelReservationTrackBits (w : World) (t : TileIndex) : TrackBits :=
  if HasTunnelHeadReservation w t then (w.tiles t).railbits else TRACK_BIT_NONE

/-- Modelled from the spec: see `GetCrossingReservationTrackBits`. -/
def GetDepotReservationTrackBits (w : World) (t : TileIndex) : TrackBits :=
  if HasDepotReservation w t then (w.tiles t).railbits else TRACK_BIT_NONE

/-- Modelled from the spec: see `GetCrossingReservationTrackBits`. -/
def GetStationReservationTrackBits (w : World) (t : TileIndex) : TrackBits :=
  if HasStationReservation w t then (w.tiles t).railbits else TRACK_BIT_NONE

/-! ## Tile writers -/

/-- Replace the reservation bits of one tile. -/
def setRes (w : World) (t : TileIndex) (f : TileReservation → TileReservation) : World :=
  let old := w.tiles t
  { w with tiles := Function.update w.tiles t { old with res := f old.res } }

def SetCrossingReservation (w : World) (t : TileIndex) (b : Bool) : World :=
  setRes w t (fun r => { r with crossing := b })

def SetTunnelHeadReservation (w : World) (t : TileIndex) (b : Bool) : World :=
  setRes w t (fun r => { r with tunnel_head := b })

def SetDepotReservation (w : World) (t : TileIndex) (b : Bool) : World :=
  setRes w t (fun r => { r with depot := b })

def SetRailStationReservation (w : World) (t : TileIndex) (b : Bool) : World :=
  setRes w t (fun r => { r with station := b })

def SetTrackReservation (w : World) (t : TileIndex) (bits : TrackBits) : World :=
  setRes w t (fun r => { r with rail := bits })

def MarkTileDirtyByTile (w : World) (t : TileIndex) : World :=
  { w with dirty := t :: w.dirty }

def TriggerStationRandomisation (w : World) (t : TileIndex) : World :=
  { w with triggers := t :: w.triggers }

/-- Modelled from the spec: `BarCrossing` (road_map.h, not under src/), which
"bars the crossing (closes it to road traffic)". -/
def BarCrossing (w : World) (t : TileIndex) : World :=
  let old := w.tiles t
  { w with tiles := Function.update w.tiles t { old with barred := true } }

/-- Modelled from the spec: `UpdateLevelCrossing` (train_cmd.cpp, not under src/),
the "re-evaluation of the crossing's barred/open state"; the state it arrives at
is the parameter `Env.crossing_state`. -/
def UpdateLevelCrossing (env : Env) (w : World) (t : TileIndex) : World :=
  let old := w.tiles t
  { w with tiles := Function.update w.tiles t { old with barred := env.crossing_state w.tiles t } }

/-- Modelled from the spec: `TryReserveTrack` (rail_map.h, not under src/), the
"underlying per-track reservation bit" of a plain rail tile, a test-and-set. The
docstring of `TryReserveRailTrack` adds that the track must not "cross any other
reserved tracks"; that test is the parameter `Env.TracksOverlap`. -/
def TryReserveTrack (env : Env) (w : World) (tile : TileIndex) (t : Track) : World × Bool :=
  let bits := TrackToTrackBits t
  let res := GetRailReservationTrackBits w tile
  if (res &&& bits) != TRACK_BIT_NONE then (w, false)
  else
    let res := res ||| bits
    if env.TracksOverlap res then (w, false)
    else (SetTrackReservation w tile res, true)

/-- Modelled from the spec: `UnreserveTrack` (rail_map.h, not under src/), which
"clears the reservation bit" of the track, `res & ~bits`. -/
def UnreserveTrack (w : World) (tile : TileIndex) (t : Track) : World :=
  let res := GetRailReservationTrackBits w tile
  SetTrackReservation w tile (res ^^^ (res &&& TrackToTrackBits t))

/-! ## `pbs.cpp`: reservation query and mutation -/

/-- Reserved track bits of any tile (`GetReservedTrackbits`, lines 25-53). -/
def GetReservedTrackbits (w : World) (t : TileIndex) : TrackBits :=
  match GetTileType w t with
  | TileType.TT_RAILWAY => GetRailReservationTrackBits w t
  | TileType.TT_MISC =>
    match GetTileSubtype w t with
    | TileSubtype.TT_MISC_CROSSING => GetCrossingReservationTrackBits w t
    | TileSubtype.TT_MISC_TUNNEL =>
      if GetTunnelTransportType w t == TransportType.TRANSPORT_RAIL then
        GetTunnelReservationTrackBits w t
      else TRACK_BIT_NONE
    | TileSubtype.TT_MISC_DEPOT =>
      if IsRailDepot w t then GetDepotReservationTrackBits w t else TRACK_BIT_NONE
    | _ => TRACK_BIT_NONE
  | TileType.TT_STATION =>
    if HasStationRail w t then GetStationReservationTrackBits w t else TRACK_BIT_NONE
  | _ => TRACK_BIT_NONE

/-- Modelled from the spec: `HasReservedTrack` (pbs.h, not under src/): the track
is among the reserved track bits of the tile. -/
def HasReservedTrack (w : World) (tile : TileIndex) (t : Track) : Bool :=
  (GetReservedTrackbits w tile &&& TrackToTrackBits t) != TRACK_BIT_NONE

/-- The `show_track_reservation` prologue shared by the two mutators
(lines 102-105 and 163-165). -/
def showReservation (env : Env) (w : World) (tile : TileIndex) : World :=
  if env.show_track_reservation then MarkTileDirtyByTile w tile else w

/-- Try to reserve a track on a tile (`TryReserveRailTrack`, lines 98-152);
returns the new world and the result. -/
def TryReserveRailTrack (env : Env) (w : World) (tile : TileIndex) (t : Track)
    (trigger_stations : Bool) : World × Bool :=
  let w := showReservation env w tile
  match GetTileType w tile with
  | TileType.TT_RAILWAY => TryReserveTrack env w tile t
  | TileType.TT_MISC =>
    match GetTileSubtype w tile with
    | TileSubtype.TT_MISC_CROSSING =>
      if HasCrossingReservation w tile then (w, false)
      else
        let w := SetCrossingReservation w tile true
        let w := BarCrossing w tile
        let w := MarkTileDirtyByTile w tile
        (w, true)
    | TileSubtype.TT_MISC_TUNNEL =>
      if GetTunnelTransportType w tile == TransportType.TRANSPORT_RAIL &&
          !HasTunnelHeadReservation w tile then
        (SetTunnelHeadReservation w tile true, true)
      else (w, false)
    | TileSubtype.TT_MISC_DEPOT =>
      if IsRailDepotTile w tile && !HasDepotReservation w tile then
        let w := SetDepotReservation w tile true
        let w := MarkTileDirtyByTile w tile
        (w, true)
      else (w, false)
    | _ => (w, false)
  | TileType.TT_STATION =>
    if HasStationRail w tile && !HasStationReservation w tile then
      let w := SetRailStationReservation w tile true
      let w := if trigger_stations && IsRailStation w tile then
        TriggerStationRandomisation w tile else w
      let w := MarkTileDirtyByTile w tile
      (w, true)
    else (w, false)
  | _ => (w, false)

/-- Lift the reservation of a track on a tile (`UnreserveRailTrack`, lines 159-205). -/
def UnreserveRailTrack (env : Env) (w : World) (tile : TileIndex) (t : Track) : World :=
  let w := showReservation env w tile
  match GetTileType w tile with
  | TileType.TT_RAILWAY => UnreserveTrack w tile t
  | TileType.TT_MISC =>
    match GetTileSubtype w tile with
    | TileSubtype.TT_MISC_CROSSING =>
      let w := SetCrossingReservation w tile false
      UpdateLevelCrossing env w tile
    | TileSubtype.TT_MISC_TUNNEL =>
      if GetTunnelTransportType w tile == TransportType.TRANSPORT_RAIL then
        SetTunnelHeadReservation w tile false
      else w
    | TileSubtype.TT_MISC_DEPOT =>
      if IsRailDepot w tile then
        let w := SetDepotReservation w tile false
        MarkTileDirtyByTile w tile
      else w
    | _ => w
  | TileType.TT_STATION =>
    if HasStationRail w tile then
      let w := SetRailStationReservation w tile false
      MarkTileDirtyByTile w tile
    else w
  | _ => w

/-- The body of the `do ... while` of `SetRailStationPlatformReservation`
(lines 70-74), run for at most `fuel` rounds; `none` when the fuel runs out
before a tile that is not compatible with `start` is reached. -/
def platformLoop (env : Env) (start : TileIndex) (diff : TileIndexDiff) (b : Bool) :
    Nat → World → TileIndex → Option World
  | 0, _, _ => none
  | fuel + 1, w, tile =>
    let w := SetRailStationReservation w tile b
    let w := MarkTileDirtyByTile w tile
    let tile := TILE_ADD tile diff
    if env.IsCompatibleTrainStationTile tile start then platformLoop env start diff b fuel w tile
    else some w

/-- Set the reservation of a complete station platform
(`SetRailStationPlatformReservation`, lines 62-75). -/
def SetRailStationPlatformReservation (env : Env) (fuel : Nat) (w : World)
    (start : TileIndex) (dir : DiagDirection) (b : Bool) : Option World :=
  platformLoop env start (env.TileOffsByDiagDir dir) b fuel w start

/-! ## `pbs.cpp`: following a reservation -/

/-- The empty position of the default constructor `PFPos()`. -/
def PFPos.invalid : PFPos := { tile := INVALID_TILE, td := 0xFF, wormhole := INVALID_TILE }

/-- The constructor `PFPos(tile, trackdir)` of a position on a tile. -/
def PFPos.onTile (tile : TileIndex) (td : Trackdir) : PFPos :=
  { tile := tile, td := td, wormhole := INVALID_TILE }

/-- Whether the position is inside a tunnel or on a bridge (`PFPos::InWormhole`). -/
def PFPos.InWormhole (p : PFPos) : Bool := p.wormhole != INVALID_TILE

/-- Modelled from the spec: `HasReservedPos` (pbs.h, not under src/): a wormhole
position is reserved when the "wormhole interior is itself marked reserved", a
tile position when its track is among the reserved track bits of the tile. -/
def HasReservedPos (env : Env) (w : World) (pos : PFPos) : Bool :=
  if pos.InWormhole then (w.tiles pos.wormhole).res.wormhole
  else HasReservedTrack w pos.tile (env.TrackdirToTrack pos.td)

/-- Modelled from the spec: `IsPbsSignal` (signal_type.h, not under src/): the two
PBS signal types, as opposed to the "classic block signals". -/
def IsPbsSignal (s : SignalType) : Bool :=
  s == SignalType.SIGTYPE_PBS || s == SignalType.SIGTYPE_PBS_ONEWAY

/-- The inner `while` of lines 230-236: walk back over the skipped station
tiles, at most `n` of them, to the first one that is reserved. -/
def stationBackscan (w : World) (diff : TileIndexDiff) : Nat → PFPos → Option PFPos
  | 0, _ => none
  | n + 1, p =>
    let p := { p with tile := TILE_SUB p.tile diff }
    if HasStationReservation w p.tile then some p else stationBackscan w diff n p

/-- Line 223: the track directions offered by the follower at its new tile that
lie on a reserved track of that tile. -/
def reservedTrackdirs (env : Env) (w : World) (ft : FollowResult) : TrackdirBits :=
  ft.m_new.trackdirs &&& env.TrackBitsToTrackdirBits (GetReservedTrackbits w ft.m_new.pos.tile)

/-- Lines 220-243 of the loop body. `Sum.inl r`: the loop is left by a `break`
with `cur` holding `r`. `Sum.inr c`: the follower position `ft.m_new`, narrowed
to the reserved track direction, with which the body goes on. -/
def reservedCandidate (env : Env) (w : World) (cur : PFPos) (ft : FollowResult) :
    PFPos ⊕ PFPos :=
  if ft.m_new.pos.InWormhole then
    if !HasReservedPos env w ft.m_new.pos then Sum.inl cur else Sum.inr ft.m_new.pos
  else
    let trackdirs := reservedTrackdirs env w ft
    if trackdirs == TRACKDIR_BIT_NONE then
      if ft.m_flag == TileFlag.TF_STATION then
        match stationBackscan w (env.TileOffsByDiagDir ft.m_exitdir)
            ft.m_tiles_skipped.toNat ft.m_new.pos with
        | some p => Sum.inl p
        | none => Sum.inl cur
      else Sum.inl cur
    else Sum.inr { ft.m_new.pos with td := env.FindFirstTrackdir trackdirs }

/-- Outcome of one round of the `while` loop of `FollowReservation`. -/
inductive LoopStep where
  | stop (r : PFPos)
  | next (cur start : PFPos)
  deriving DecidableEq, Repr

/-- Lines 261-264: the depot and non-PBS signal tests on the new `cur`. -/
def terminalChecks (env : Env) (w : World) (cur start : PFPos) : LoopStep :=
  if !cur.InWormhole && IsRailDepotTile w cur.tile then LoopStep.stop cur
  else if env.HasSignalAlongPos cur && !IsPbsSignal (env.GetSignalType cur) then
    LoopStep.stop cur
  else LoopStep.next cur start

/-- One round of the `while` loop of `FollowReservation` (lines 219-265) from
the loop state `(cur, start)`. The follower object always holds `cur` when
`FollowNext` is called: it is set to `pos` before the loop, and a round that
does not leave the loop ends with `cur = ft.m_new`. -/
def FollowReservationStep (env : Env) (w : World) (o : Owner) (rts : RailTypes)
    (ignore_oneway : Bool) (cur start : PFPos) : LoopStep :=
  match env.Follow o rts cur with
  | none => LoopStep.stop cur
  | some ft =>
    match reservedCandidate env w cur ft with
    | Sum.inl r => LoopStep.stop r
    | Sum.inr m_new =>
      if !ignore_oneway && env.HasOnewaySignalBlockingPos m_new then LoopStep.stop cur
      else
        let cur := m_new
        if start.tile == INVALID_TILE then terminalChecks env w cur cur
        else if cur == start then LoopStep.stop cur
        else terminalChecks env w cur start

/-- The `while` loop of `FollowReservation`, run for at most `fuel` rounds;
`none` when the fuel runs out before the loop is left. -/
def FollowReservationLoop (env : Env) (w : World) (o : Owner) (rts : RailTypes)
    (ignore_oneway : Bool) : Nat → PFPos → PFPos → Option PFPos
  | 0, _, _ => none
  | fuel + 1, cur, start =>
    match FollowReservationStep env w o rts ignore_oneway cur start with
    | LoopStep.stop r => some r
    | LoopStep.next cur start => FollowReservationLoop env w o rts ignore_oneway fuel cur start

/-- Follow a reservation from a position to its end (`FollowReservation`,
lines 209-268). -/
def FollowReservation (env : Env) (w : World) (fuel : Nat) (o : Owner) (rts : RailTypes)
    (pos : PFPos) (ignore_oneway : Bool) : Option PFPos :=
  FollowReservationLoop env w o rts ignore_oneway fuel pos PFPos.invalid

/-! ## `pbs.cpp`: locating the train at the end of a reservation -/

/-- Helper struct of the locator (`FindTrainOnTrackInfo`, lines 273-279). The
pointer `best` is the index of the vehicle it points to, `none` for `NULL`. -/
structure FindTrainOnTrackInfo where
  pos : PFPos
  best : Option VehicleID
  deriving DecidableEq, Repr

/-- Line 294 and line 311: keep the lower index. -/
def recordBest (t : VehicleID) (info : FindTrainOnTrackInfo) : FindTrainOnTrackInfo :=
  match info.best with
  | none => { info with best := some t }
  | some b => if t < b then { info with best := some t } else info

/-- Callback finding a train on a track (`FindTrainOnTrackEnum`, lines 282-296):
the returned pointer and the updated info. -/
def FindTrainOnTrackEnum (env : Env) (v : Vehicle) (info : FindTrainOnTrackInfo) :
    Option VehicleID × FindTrainOnTrackInfo :=
  if v.type != VehicleType.VEH_TRAIN || (v.vehstatus &&& VS_CRASHED) != 0 then (none, info)
  else if env.TrackdirToTrack v.trackdir != env.TrackdirToTrack info.pos.td then (none, info)
  else
    let t := v.first
    (some t, recordBest t info)

/-- Callback finding a train in a wormhole (`FindTrainInWormholeEnum`,
lines 299-313): the returned pointer and the updated info. -/
def FindTrainInWormholeEnum (env : Env) (v : Vehicle) (info : FindTrainOnTrackInfo) :
    Option VehicleID × FindTrainOnTrackInfo :=
  if v.type != VehicleType.VEH_TRAIN || (v.vehstatus &&& VS_CRASHED) != 0 then (none, info)
  else if v.trackdir != env.TRACKDIR_WORMHOLE then (none, info)
  else
    let t := v.first
    (some t, recordBest t info)

/-- Modelled from the spec: `FindVehicleOnPos` (vehicle.cpp, not under src/), the
"vehicle-registry scan capability (enumerate vehicles overlapping a tile or
wormhole)": the callback is run on every vehicle of the registry `vs` that is
on the tile, in the order of the registry. -/
def FindVehicleOnPos (vs : List Vehicle) (tile : TileIndex) (info : FindTrainOnTrackInfo)
    (proc : Vehicle → FindTrainOnTrackInfo → Option VehicleID × FindTrainOnTrackInfo) :
    FindTrainOnTrackInfo :=
  (vs.filter (fun v => v.tile == tile)).foldl (fun acc v => (proc v acc).2) info

/-- The `for` loop of lines 329-332 over the platform, run for at most `fuel`
rounds; `none` when the fuel runs out first. -/
def platformScan (env : Env) (vs : List Vehicle) (diff : TileIndexDiff) :
    Nat → TileIndex → FindTrainOnTrackInfo → Option FindTrainOnTrackInfo
  | 0, _, _ => none
  | fuel + 1, tile, ftoti =>
    if env.IsCompatibleTrainStationTile tile ftoti.pos.tile then
      let ftoti := FindVehicleOnPos vs tile ftoti (FindTrainOnTrackEnum env)
      if ftoti.best != none then some ftoti
      else platformScan env vs diff fuel (TILE_ADD tile diff) ftoti
    else some ftoti

/-- Find a train on a reserved path end (`FindTrainOnPathEnd`, lines 316-335). -/
def FindTrainOnPathEnd (env : Env) (w : World) (vs : List Vehicle) (fuel : Nat)
    (ftoti : FindTrainOnTrackInfo) : Option FindTrainOnTrackInfo :=
  if ftoti.pos.InWormhole then
    let ftoti := FindVehicleOnPos vs ftoti.pos.wormhole ftoti (FindTrainInWormholeEnum env)
    if ftoti.best != none then some ftoti
    else some (FindVehicleOnPos vs (env.GetOtherTunnelBridgeEnd ftoti.pos.wormhole) ftoti
      (FindTrainInWormholeEnum env))
  else
    let ftoti := FindVehicleOnPos vs ftoti.pos.tile ftoti (FindTrainOnTrackEnum env)
    if ftoti.best != none then some ftoti
    else if IsRailStationTile w ftoti.pos.tile then
      let diff := env.TileOffsByDiagDir
        (env.TrackdirToExitdir (env.ReverseTrackdir ftoti.pos.td))
      platformScan env vs diff fuel (TILE_ADD ftoti.pos.tile diff) ftoti
    else some ftoti

/-- One round of the `for` loop of `GetTrainForReservation` (lines 383-393) for
the track direction `trackdir`: `none` when the fuel runs out, `some none` when
the round ends without a `return`, `some (some v)` when it returns `v`. -/
def reservationProbe (env : Env) (w : World) (vs : List Vehicle) (fuel : Nat)
    (tile : TileIndex) (rts : RailTypes) (trackdir : Trackdir) : Option (Option VehicleID) :=
  if env.HasOnewaySignalBlockingTrackdir tile (env.ReverseTrackdir trackdir) &&
      !env.HasPbsSignalOnTrackdir tile trackdir then some none
  else
    match FollowReservation env w fuel (env.GetTileOwner tile) rts
        (PFPos.onTile tile trackdir) true with
    | none => none
    | some pos =>
      match FindTrainOnPathEnd env w vs fuel { pos := pos, best := none } with
      | none => none
      | some ftoti => some ftoti.best

/-- Find the train which has reserved a path (`GetTrainForReservation`,
lines 373-396): `none` when the fuel runs out, otherwise the returned pointer. -/
def GetTrainForReservation (env : Env) (w : World) (vs : List Vehicle) (fuel : Nat)
    (tile : TileIndex) (track : Track) : Option (Option VehicleID) :=
  let trackdir := env.TrackToTrackdir track
  let rts := env.compatible_railtypes tile track
  match reservationProbe env w vs fuel tile rts trackdir with
  | none => none
  | some (some v) => some (some v)
  | some none =>
    match reservationProbe env w vs fuel tile rts (env.ReverseTrackdir trackdir) with
    | none => none
    | some (some v) => some (some v)
    | some none => some none

/-! ## `pbs.cpp`: analysing a waiting position -/

/-- The `INVALID_TRACKDIR` marker of "no single track direction". -/
def INVALID_TRACKDIR : Trackdir := 0xFF

/-- Result of `CheckWaitingPosition` (`PBSPositionState`). -/
inductive PBSPositionState where
  | PBS_UNSAFE
  | PBS_BUSY
  | PBS_FREE
  deriving DecidableEq, Repr

/-- Checking behaviour of `CheckWaitingPosition` (`PBSCheckingBehaviour`). -/
inductive PBSCheckingBehaviour where
  | PBS_CHECK_FULL
  | PBS_CHECK_SAFE
  | PBS_CHECK_FREE
  | PBS_CHECK_SAFE_FREE
  deriving DecidableEq, Repr

/-- An `assert` that was evaluated: its source line and the value of its
condition. -/
structure Assertion where
  line : Nat
  holds : Bool
  deriving DecidableEq, Repr

/-- What a call of `CheckWaitingPosition` yields: the state it returns when no
assertion stops it, and the assertions it evaluates on the way, in program
order. -/
structure Checked where
  state : PBSPositionState
  asserts : List Assertion
  deriving DecidableEq, Repr

/-- Modelled from the spec: `ReverseDiagDir` (direction_func.h, not under src/),
the opposite diagonal direction. -/
def ReverseDiagDir : DiagDirection → DiagDirection
  | DiagDirection.DIAGDIR_NE => DiagDirection.DIAGDIR_SW
  | DiagDirection.DIAGDIR_SE => DiagDirection.DIAGDIR_NW
  | DiagDirection.DIAGDIR_SW => DiagDirection.DIAGDIR_NE
  | DiagDirection.DIAGDIR_NW => DiagDirection.DIAGDIR_SE

/-- Modelled from the spec: `IsStationTile` (tile_map.h, not under src/), a tile of
the station class. -/
def IsStationTile (w : World) (t : TileIndex) : Bool := GetTileType w t == TileType.TT_STATION

/-- Modelled from the spec: `PFNewPos::IsTrackdirSet` (pathfinder/pos.h, not under
src/): the position resolves to "exactly one resolvable track direction". -/
def PFNewPos.IsTrackdirSet (p : PFNewPos) : Bool := p.pos.td != INVALID_TRACKDIR

/-- Modelled from the spec: `HasSignalOnPos` (not under src/): there is a signal
at the position, in either direction ("no signal at all in either direction" is
its negation). -/
def HasSignalOnPos (env : Env) (p : PFPos) : Bool :=
  env.HasSignalAlongPos p || env.HasSignalAgainstPos p

/-- Lines 419-446, the occupancy of the position itself. `Sum.inl r`: the
function returns `r` at once. `Sum.inr state`: it goes on to the next tile with
the candidate `state`. -/
def waitingOccupancy (env : Env) (w : World) (pos : PFPos) (cb : PBSCheckingBehaviour) :
    PBSPositionState ⊕ PBSPositionState :=
  if pos.InWormhole then
    if cb != PBSCheckingBehaviour.PBS_CHECK_SAFE && HasReservedPos env w pos then
      if cb != PBSCheckingBehaviour.PBS_CHECK_FULL then Sum.inl PBSPositionState.PBS_BUSY
      else Sum.inr PBSPositionState.PBS_BUSY
    else Sum.inr PBSPositionState.PBS_FREE
  else
    if IsRailDepotTile w pos.tile && pos.td == env.DiagDirToDiagTrackdir
        (ReverseDiagDir (env.GetGroundDepotDirection pos.tile)) then
      Sum.inl (if HasDepotReservation w pos.tile then PBSPositionState.PBS_BUSY
        else PBSPositionState.PBS_FREE)
    else if env.HasSignalAlongPos pos && !IsPbsSignal (env.GetSignalType pos) then
      if cb == PBSCheckingBehaviour.PBS_CHECK_SAFE then Sum.inl PBSPositionState.PBS_FREE
      else Sum.inl (if HasReservedTrack w pos.tile (env.TrackdirToTrack pos.td) then
        PBSPositionState.PBS_BUSY else PBSPositionState.PBS_FREE)
    else if cb != PBSCheckingBehaviour.PBS_CHECK_SAFE &&
        env.TrackOverlapsTracks (GetReservedTrackbits w pos.tile)
          (env.TrackdirToTrack pos.td) then
      if cb != PBSCheckingBehaviour.PBS_CHECK_FULL then Sum.inl PBSPositionState.PBS_BUSY
      else Sum.inr PBSPositionState.PBS_BUSY
    else Sum.inr PBSPositionState.PBS_FREE

/-- Lines 458-469: the tests on the next position that end in
`return PBS_UNSAFE`. -/
def successorUnsafe (env : Env) (m_new : PFNewPos) : Bool :=
  if !m_new.IsTrackdirSet then true
  else if env.HasSignalAlongPos m_new.pos then
    !IsPbsSignal (env.GetSignalType m_new.pos)
  else if env.HasSignalAgainstPos m_new.pos then
    env.GetSignalType m_new.pos != SignalType.SIGTYPE_PBS_ONEWAY
  else true

/-- Lines 448-482, the check of the next tile, entered with the candidate
`state`. -/
def waitingLookahead (env : Env) (w : World) (v : Vehicle) (pos : PFPos) (forbid_90deg : Bool)
    (cb : PBSCheckingBehaviour) (state : PBSPositionState) : Checked :=
  match env.FollowVehicle v (!forbid_90deg) pos with
  | none => { state := state, asserts := [] }
  | some ft =>
    let a454 : Assertion := { line := 454, holds := ft.m_new.trackdirs != TRACKDIR_BIT_NONE }
    let a455 : Assertion := { line := 455, holds := state == PBSPositionState.PBS_FREE ||
      cb == PBSCheckingBehaviour.PBS_CHECK_FULL }
    let a480 : Assertion := { line := 480, holds := state == PBSPositionState.PBS_FREE }
    let last : PBSPositionState :=
      if HasReservedPos env w ft.m_new.pos then PBSPositionState.PBS_BUSY
      else PBSPositionState.PBS_FREE
    if cb != PBSCheckingBehaviour.PBS_CHECK_FREE then
      if successorUnsafe env ft.m_new then
        { state := PBSPositionState.PBS_UNSAFE, asserts := [a454, a455] }
      else if cb == PBSCheckingBehaviour.PBS_CHECK_SAFE then
        { state := PBSPositionState.PBS_FREE, asserts := [a454, a455] }
      else if state != PBSPositionState.PBS_FREE then
        { state := PBSPositionState.PBS_BUSY, asserts := [a454, a455] }
      else { state := last, asserts := [a454, a455, a480] }
    else if !IsStationTile w pos.tile then
      { state := last,
        asserts := [a454, a455,
          { line := 475, holds := ft.m_new.IsTrackdirSet },
          { line := 476, holds := HasSignalOnPos env ft.m_new.pos },
          { line := 477, holds := IsPbsSignal (env.GetSignalType ft.m_new.pos) },
          a480] }
    else { state := last, asserts := [a454, a455, a480] }

/-- Analyse a waiting position (`CheckWaitingPosition`, lines 416-483). The
`state` of the result is what the function returns when its assertions are
compiled out or hold; `asserts` lists the assertions it evaluates. -/
def CheckWaitingPosition (env : Env) (w : World) (v : Vehicle) (pos : PFPos)
    (forbid_90deg : Bool) (cb : PBSCheckingBehaviour) : Checked :=
  match waitingOccupancy env w pos cb with
  | Sum.inl r => { state := r, asserts := [] }
  | Sum.inr state => waitingLookahead env w v pos forbid_90deg cb state

/-! ## Statement vocabulary -/

/-- The tile kinds on which a track can be reserved: plain rail, level crossing,
rail tunnel head, rail depot, rail station. -/
def ReservableKind (w : World) (tile : TileIndex) : Prop :=
  GetTileType w tile = TileType.TT_RAILWAY ∨
  (GetTileType w tile = TileType.TT_MISC ∧
    GetTileSubtype w tile = TileSubtype.TT_MISC_CROSSING) ∨
  (GetTileType w tile = TileType.TT_MISC ∧ GetTileSubtype w tile = TileSubtype.TT_MISC_TUNNEL ∧
    GetTunnelTransportType w tile = TransportType.TRANSPORT_RAIL) ∨
  (GetTileType w tile = TileType.TT_MISC ∧ GetTileSubtype w tile = TileSubtype.TT_MISC_DEPOT ∧
    IsRailDepot w tile = true) ∨
  (GetTileType w tile = TileType.TT_STATION ∧ HasStationRail w tile = true)

/-- The precondition asserted by `TryReserveRailTrack` and `UnreserveRailTrack`
(lines 100 and 161). -/
def HasRailTrack (w : World) (tile : TileIndex) (t : Track) : Prop :=
  (GetTileRailwayStatus w tile &&& TrackToTrackBits t) ≠ 0

instance (w : World) (tile : TileIndex) (t : Track) : Decidable (HasRailTrack w tile t) := by
  unfold HasRailTrack
  infer_instance

instance (w : World) (tile : TileIndex) : Decidable (ReservableKind w tile) := by
  unfold ReservableKind
  infer_instance

/-- Modelled from the spec: `DiagDirToAxis` (direction_func.h, not under src/), the
axis a diagonal direction runs along. -/
def DiagDirToAxis : DiagDirection → Axis
  | DiagDirection.DIAGDIR_NE => Axis.AXIS_X
  | DiagDirection.DIAGDIR_SW => Axis.AXIS_X
  | DiagDirection.DIAGDIR_SE => Axis.AXIS_Y
  | DiagDirection.DIAGDIR_NW => Axis.AXIS_Y

/-- The precondition asserted by `SetRailStationPlatformReservation`
(lines 64-65): a rail station tile whose axis is that of the direction. -/
def PlatformStart (env : Env) (w : World) (start : TileIndex) (dir : DiagDirection) : Prop :=
  IsRailStationTile w start = true ∧ env.GetRailStationAxis start = DiagDirToAxis dir

instance (env : Env) (w : World) (start : TileIndex) (dir : DiagDirection) :
    Decidable (PlatformStart env w start dir) := by
  unfold PlatformStart
  infer_instance

/-- The `k`-th tile ahead of `tile` by steps of `diff`. -/
def tileAhead (diff : TileIndexDiff) (k : Nat) (tile : TileIndex) : TileIndex :=
  (fun x => TILE_ADD x diff)^[k] tile

/-- The `k`-th tile behind `tile` by steps of `diff`. -/
def tileBehind (diff : TileIndexDiff) (k : Nat) (tile : TileIndex) : TileIndex :=
  (fun x => TILE_SUB x diff)^[k] tile

/-- The position `b` is the reserved successor of the position `a`: the follower
finds a next position from `a`, and either that position is inside a wormhole
whose interior is reserved, and is `b`; or it is on a tile, some track direction
offered there lies on a reserved track, and `b` is that position with the first
such track direction. -/
def ReservedSuccessor (env : Env) (w : World) (o : Owner) (rts : RailTypes) (a b : PFPos) :
    Prop :=
  ∃ ft, env.Follow o rts a = some ft ∧
    ((ft.m_new.pos.InWormhole = true ∧ HasReservedPos env w ft.m_new.pos = true ∧
        b = ft.m_new.pos) ∨
     (ft.m_new.pos.InWormhole = false ∧ reservedTrackdirs env w ft ≠ TRACKDIR_BIT_NONE ∧
        b = { ft.m_new.pos with td := env.FindFirstTrackdir (reservedTrackdirs env w ft) }))

/-- No successor of the position `a` is reserved: whatever next position the
follower finds from `a`, a wormhole interior is not reserved, and on a tile no
offered track direction lies on a reserved track and, when the follower has
skipped station tiles, none of the skipped tiles is reserved. -/
def NoReservedSuccessor (env : Env) (w : World) (o : Owner) (rts : RailTypes) (a : PFPos) :
    Prop :=
  ∀ ft, env.Follow o rts a = some ft →
    (ft.m_new.pos.InWormhole = true → HasReservedPos env w ft.m_new.pos = false) ∧
    (ft.m_new.pos.InWormhole = false →
      reservedTrackdirs env w ft = TRACKDIR_BIT_NONE ∧
      (ft.m_flag = TileFlag.TF_STATION → ∀ k : Nat, 1 ≤ k → (k : Int) ≤ ft.m_tiles_skipped →
        HasStationReservation w
          (tileBehind (env.TileOffsByDiagDir ft.m_exitdir) k ft.m_new.pos.tile) = false))

/-- A one-way signal blocks the candidate `c` and the caller did not ask to
ignore one-way signals (line 247). -/
def BlockedByOneway (env : Env) (ignore_oneway : Bool) (c : PFPos) : Prop :=
  ignore_oneway = false ∧ env.HasOnewaySignalBlockingPos c = true

/-- The position is on a rail depot tile, or carries a signal along the
direction of travel that is not a PBS signal (lines 262 and 264). -/
def StopsReservation (env : Env) (w : World) (c : PFPos) : Prop :=
  (c.InWormhole = false ∧ IsRailDepotTile w c.tile = true) ∨
  (env.HasSignalAlongPos c = true ∧ IsPbsSignal (env.GetSignalType c) = false)

instance (env : Env) (ignore_oneway : Bool) (c : PFPos) :
    Decidable (BlockedByOneway env ignore_oneway c) := by
  unfold BlockedByOneway
  infer_instance

instance (env : Env) (w : World) (c : PFPos) : Decidable (StopsReservation env w c) := by
  unfold StopsReservation
  infer_instance

/-- The walk adopts `c` as its current position when it stands on `a`: `c` is
the reserved successor of `a` and no one-way signal blocks it. -/
def Adopts (env : Env) (w : World) (o : Owner) (rts : RailTypes) (ignore_oneway : Bool)
    (a c : PFPos) : Prop :=
  ReservedSuccessor env w o rts a c ∧ ¬ BlockedByOneway env ignore_oneway c

/-- Lines 219-249 as a function: the position assigned to `cur` at line 249 in
a round started on `cur`, if the round gets there. -/
def adoptedCandidate (env : Env) (w : World) (o : Owner) (rts : RailTypes)
    (ignore_oneway : Bool) (cur : PFPos) : Option PFPos :=
  match env.Follow o rts cur with
  | none => none
  | some ft =>
    match reservedCandidate env w cur ft with
    | Sum.inl _ => none
    | Sum.inr m_new =>
      if !ignore_oneway && env.HasOnewaySignalBlockingPos m_new then none else some m_new

/-- The vehicle carries the crashed status. -/
def Vehicle.Crashed (v : Vehicle) : Prop := (v.vehstatus &&& VS_CRASHED) ≠ 0

instance (v : Vehicle) : Decidable v.Crashed := by
  unfold Vehicle.Crashed
  infer_instance

/-- The vehicle qualifies at the position: it is a train that is not crashed,
and either the position is inside a wormhole, the vehicle is on the wormhole
tile of the position and is itself in the wormhole, or the position is on a
tile, the vehicle is on that tile and its track is the track of the position. -/
def Qualifies (env : Env) (pos : PFPos) (v : Vehicle) : Prop :=
  v.type = VehicleType.VEH_TRAIN ∧ ¬ v.Crashed ∧
  (if pos.InWormhole then v.tile = pos.wormhole ∧ v.trackdir = env.TRACKDIR_WORMHOLE
   else v.tile = pos.tile ∧ env.TrackdirToTrack v.trackdir = env.TrackdirToTrack pos.td)

instance (env : Env) (pos : PFPos) (v : Vehicle) : Decidable (Qualifies env pos v) := by
  unfold Qualifies
  infer_instance

/-- The vehicle qualifies at the other end of the wormhole of the position: it
is a train that is not crashed, it is itself in the wormhole, and it is on the
tile at the other end of the wormhole of the position. -/
def QualifiesAtOtherEnd (env : Env) (pos : PFPos) (v : Vehicle) : Prop :=
  v.type = VehicleType.VEH_TRAIN ∧ ¬ v.Crashed ∧
  v.tile = env.GetOtherTunnelBridgeEnd pos.wormhole ∧ v.trackdir = env.TRACKDIR_WORMHOLE

instance (env : Env) (pos : PFPos) (v : Vehicle) :
    Decidable (QualifiesAtOtherEnd env pos v) := by
  unfold QualifiesAtOtherEnd
  infer_instance

/-- The vehicle is on a tile that `FindTrainOnPathEnd` may scan for the
position: the tile of the position or a platform cell compatible with it, or,
for a position inside a wormhole, either end of the wormhole. -/
def OnScannedTile (env : Env) (pos : PFPos) (v : Vehicle) : Prop :=
  if pos.InWormhole then
    v.tile = pos.wormhole ∨ v.tile = env.GetOtherTunnelBridgeEnd pos.wormhole
  else v.tile = pos.tile ∨ env.IsCompatibleTrainStationTile v.tile pos.tile = true

instance (env : Env) (pos : PFPos) (v : Vehicle) : Decidable (OnScannedTile env pos v) := by
  unfold OnScannedTile
  infer_instance

/-- The crashed status is shared by a consist: a vehicle of the registry that is
the front of another one is crashed exactly when that one is. -/
def CrashedAsConsist (vs : List Vehicle) : Prop :=
  ∀ v ∈ vs, ∀ f ∈ vs, f.index = v.first → (f.Crashed ↔ v.Crashed)

/-- A scan that records the front of every vehicle accepted by `accept`. -/
def scanBest (accept : Vehicle → Bool) (l : List Vehicle) (info : FindTrainOnTrackInfo) :
    FindTrainOnTrackInfo :=
  l.foldl (fun acc v => if accept v then recordBest v.first acc else acc) info

/-- The test of `FindTrainOnTrackEnum` (lines 286 and 289) for the track
direction `td`. -/
def acceptOnTrack (env : Env) (td : Trackdir) (v : Vehicle) : Bool :=
  !(v.type != VehicleType.VEH_TRAIN || (v.vehstatus &&& VS_CRASHED) != 0) &&
    !(env.TrackdirToTrack v.trackdir != env.TrackdirToTrack td)

/-- The test of `FindTrainInWormholeEnum` (lines 303 and 306). -/
def acceptInWormhole (env : Env) (v : Vehicle) : Bool :=
  !(v.type != VehicleType.VEH_TRAIN || (v.vehstatus &&& VS_CRASHED) != 0) &&
    !(v.trackdir != env.TRACKDIR_WORMHOLE)

/-- The position is the entrance of a rail depot: it is on a rail depot tile and
its track direction is the reverse of the direction in which the depot is left
(line 430). -/
def DepotEntrance (env : Env) (w : World) (pos : PFPos) : Prop :=
  IsRailDepotTile w pos.tile = true ∧
  pos.td = env.DiagDirToDiagTrackdir (ReverseDiagDir (env.GetGroundDepotDirection pos.tile))

instance (env : Env) (w : World) (pos : PFPos) : Decidable (DepotEntrance env w pos) := by
  unfold DepotEntrance
  infer_instance

/-- The position carries a signal along the direction of travel that is not a
PBS signal (line 432). -/
def ClassicSignalAlong (env : Env) (pos : PFPos) : Prop :=
  env.HasSignalAlongPos pos = true ∧ IsPbsSignal (env.GetSignalType pos) = false

instance (env : Env) (pos : PFPos) : Decidable (ClassicSignalAlong env pos) := by
  unfold ClassicSignalAlong
  infer_instance

/-- A position on a tile is neither a depot entrance nor on a tile with a
non-PBS signal along travel; a position inside a wormhole is not tested for
either. -/
def PlainWaitingPosition (env : Env) (w : World) (pos : PFPos) : Prop :=
  pos.InWormhole = false → ¬ DepotEntrance env w pos ∧ ¬ ClassicSignalAlong env pos

instance (env : Env) (w : World) (pos : PFPos) :
    Decidable (PlainWaitingPosition env w pos) := by
  unfold PlainWaitingPosition
  infer_instance

/-- No reservation lies on the position itself: the interior of its wormhole is
not reserved, or no reserved track of its tile overlaps its track. -/
def OwnTrackFree (env : Env) (w : World) (pos : PFPos) : Prop :=
  if pos.InWormhole then HasReservedPos env w pos = false
  else env.TrackOverlapsTracks (GetReservedTrackbits w pos.tile)
    (env.TrackdirToTrack pos.td) = false

instance (env : Env) (w : World) (pos : PFPos) : Decidable (OwnTrackFree env w pos) := by
  unfold OwnTrackFree
  infer_instance

/-- The next position makes the position before it an unsafe place to wait: it
does not resolve to exactly one track direction, or it has a signal along travel
that is not a PBS signal, or it has no signal along travel but a signal against
travel whose type is not one-way PBS, or it has no signal in either direction. -/
def UnsafeSuccessor (env : Env) (m_new : PFNewPos) : Prop :=
  m_new.IsTrackdirSet = false ∨
  (env.HasSignalAlongPos m_new.pos = true ∧ IsPbsSignal (env.GetSignalType m_new.pos) = false) ∨
  (env.HasSignalAlongPos m_new.pos = false ∧ env.HasSignalAgainstPos m_new.pos = true ∧
    env.GetSignalType m_new.pos ≠ SignalType.SIGTYPE_PBS_ONEWAY) ∨
  (env.HasSignalAlongPos m_new.pos = false ∧ env.HasSignalAgainstPos m_new.pos = false)

instance (env : Env) (m_new : PFNewPos) : Decidable (UnsafeSuccessor env m_new) := by
  unfold UnsafeSuccessor
  infer_instance

/-- The two worlds differ only in reservation bits: every tile of the second is
the tile of the first with other reservation bits. -/
def DifferOnlyInReservation (w1 w2 : World) : Prop :=
  ∀ t, { w1.tiles t with res := (w2.tiles t).res } = w2.tiles t

/-- Lines 388-392 of `GetTrainForReservation` for one track direction: follow
the reservation from the tile and look for a train at its end. `none` when the
fuel runs out, otherwise the train found. -/
def pathEndTrain (env : Env) (w : World) (vs : List Vehicle) (fuel : Nat)
    (tile : TileIndex) (rts : RailTypes) (trackdir : Trackdir) : Option (Option VehicleID) :=
  match FollowReservation env w fuel (env.GetTileOwner tile) rts
      (PFPos.onTile tile trackdir) true with
  | none => none
  | some pos =>
    match FindTrainOnPathEnd env w vs fuel { pos := pos, best := none } with
    | none => none
    | some ftoti => some ftoti.best

/-- The test of line 386: the search in the track direction is skipped. -/
def skipsDirection (env : Env) (tile : TileIndex) (trackdir : Trackdir) : Bool :=
  env.HasOnewaySignalBlockingTrackdir tile (env.ReverseTrackdir trackdir) &&
    !env.HasPbsSignalOnTrackdir tile trackdir

/-- The position is reserved in the sense of the walk: a wormhole position whose
interior is reserved, a tile position whose track is among the reserved track
bits of its tile, or a position on a station cell whose reservation flag is
set. -/
def ReservedEnd (env : Env) (w : World) (p : PFPos) : Prop :=
  HasReservedPos env w p = true ∨ (p.InWormhole = false ∧ HasStationReservation w p.tile = true)

instance (env : Env) (w : World) (p : PFPos) : Decidable (ReservedEnd env w p) := by
  unfold ReservedEnd
  infer_instance

/-- The track direction tables fit the map: whenever some track direction
offered on a tile lies on a reserved track of the tile, the first such track
direction is a direction of a reserved track. -/
def TrackdirTablesFit (env : Env) (w : World) : Prop :=
  ∀ (tile : TileIndex) (trackdirs : TrackdirBits),
    trackdirs &&& env.TrackBitsToTrackdirBits (GetReservedTrackbits w tile) ≠ 0 →
    HasReservedTrack w tile (env.TrackdirToTrack (env.FindFirstTrackdir
      (trackdirs &&& env.TrackBitsToTrackdirBits (GetReservedTrackbits w tile)))) = true

/-- A call of one of the two per-track mutators. -/
inductive ReservationCall where
  | reserve (tile : TileIndex) (t : Track) (trigger_stations : Bool)
  | release (tile : TileIndex) (t : Track)

/-- Run one call. -/
def ReservationCall.run (env : Env) (w : World) : ReservationCall → World
  | ReservationCall.reserve tile t trig => (TryReserveRailTrack env w tile t trig).1
  | ReservationCall.release tile t => UnreserveRailTrack env w tile t

/-- Run a sequence of calls, first to last. -/
def runCalls (env : Env) (w : World) (calls : List ReservationCall) : World :=
  calls.foldl (ReservationCall.run env) w

/-- A call that is not a release of the element `(tile, t)`: any reservation
attempt, a release on another tile, or a release of another track of a plain
rail tile. -/
def ReservationCall.Spares (w : World) (tile : TileIndex) (t : Track) : ReservationCall → Prop
  | ReservationCall.reserve _ _ _ => True
  | ReservationCall.release tile2 t2 =>
    tile2 ≠ tile ∨ (GetTileType w tile = TileType.TT_RAILWAY ∧ t2 ≠ t)


/-- The element `(tile, t)` is held, read off the tile record: the track bit of
a plain rail tile is set, or the flag of the single-track feature is set. -/
def TileHeld (T : Tile) (t : Track) : Prop :=
  match T.type with
  | TileType.TT_RAILWAY => (T.res.rail &&& TrackToTrackBits t) ≠ 0
  | TileType.TT_MISC =>
    match T.subtype with
    | TileSubtype.TT_MISC_CROSSING => T.res.crossing = true
    | TileSubtype.TT_MISC_TUNNEL =>
      T.transport = TransportType.TRANSPORT_RAIL ∧ T.res.tunnel_head = true
    | TileSubtype.TT_MISC_DEPOT => T.rail_depot = true ∧ T.res.depot = true
    | _ => False
  | TileType.TT_STATION => T.station_rail = true ∧ T.res.station = true
  | _ => False

instance (T : Tile) (t : Track) : Decidable (TileHeld T t) := by
  unfold TileHeld
  split
  · infer_instance
  · split <;> infer_instance
  · infer_instance
  · infer_instance

instance (w : World) (tile : TileIndex) (t : Track) (c : ReservationCall) :
    Decidable (ReservationCall.Spares w tile t c) := by
  cases c <;> unfold ReservationCall.Spares <;> infer_instance

instance (vs : List Vehicle) : Decidable (CrashedAsConsist vs) := by
  unfold CrashedAsConsist
  infer_instance

/-! ## Sample data for the closed statements -/

/-- A tile record with nothing on it and nothing reserved. -/
def emptyTile : Tile :=
  { type := TileType.TT_OTHER, subtype := TileSubtype.TT_MISC_OTHER,
    transport := TransportType.TRANSPORT_ROAD, rail_depot := false, station_rail := false,
    rail_station := false, railbits := 0, barred := false,
    res := { rail := 0, crossing := false, tunnel_head := false, depot := false,
             station := false, wormhole := false } }

/-- A plain rail tile with the tracks `railbits`, nothing reserved. -/
def railTile (railbits : TrackBits) : Tile :=
  { emptyTile with type := TileType.TT_RAILWAY, railbits := railbits }

/-- A rail station cell with the tracks `railbits`, not reserved. -/
def stationTile (railbits : TrackBits) : Tile :=
  { emptyTile with type := TileType.TT_STATION, station_rail := true, rail_station := true,
                   railbits := railbits }

/-- A rail depot tile with the tracks `railbits`, not reserved. -/
def depotTile (railbits : TrackBits) : Tile :=
  { emptyTile with type := TileType.TT_MISC, subtype := TileSubtype.TT_MISC_DEPOT,
                   rail_depot := true, railbits := railbits }

/-- A world from a map, with empty notification logs. -/
def worldOf (tiles : TileIndex → Tile) : World := { tiles := tiles, dirty := [], triggers := [] }

/-- An environment in which no tile is a compatible platform tile, there are no
signals and the follower never finds a next tile; sample environments override
the fields they need. -/
def baseEnv : Env :=
  { show_track_reservation := true
    TracksOverlap := fun _ => false
    crossing_state := fun _ _ => false
    TileOffsByDiagDir := fun _ => 1
    GetRailStationAxis := fun _ => Axis.AXIS_X
    IsCompatibleTrainStationTile := fun _ _ => false
    TrackdirToTrack := fun td => td &&& 7
    TrackToTrackdir := fun t => t
    ReverseTrackdir := fun td => td ^^^ 8
    TrackdirToExitdir := fun _ => DiagDirection.DIAGDIR_NE
    TrackBitsToTrackdirBits := fun b => b ||| (b <<< 8)
    FindFirstTrackdir := fun b => ((List.range 16).find? (fun i => b.testBit i)).getD 0xFF
    TRACKDIR_WORMHOLE := 0x40
    GetOtherTunnelBridgeEnd := fun t => t
    Follow := fun _ _ _ => none
    HasOnewaySignalBlockingPos := fun _ => false
    HasSignalAlongPos := fun _ => false
    GetSignalType := fun _ => SignalType.SIGTYPE_NORMAL
    HasOnewaySignalBlockingTrackdir := fun _ _ => false
    HasPbsSignalOnTrackdir := fun _ _ => false
    compatible_railtypes := fun _ _ => 1
    GetTileOwner := fun _ => 0
    FollowVehicle := fun _ _ _ => none
    HasSignalAgainstPos := fun _ => false
    GetGroundDepotDirection := fun _ => DiagDirection.DIAGDIR_NE
    DiagDirToDiagTrackdir := fun d =>
      match d with
      | DiagDirection.DIAGDIR_NE => 0
      | DiagDirection.DIAGDIR_SE => 1
      | DiagDirection.DIAGDIR_SW => 8
      | DiagDirection.DIAGDIR_NW => 9
    TrackOverlapsTracks := fun bits t => (bits &&& TrackToTrackBits t) != 0 }

/-- A map with a plain rail tile (tracks X and Y) at 7, a rail station cell at
10 and a rail depot at 20. -/
def sampleMap : TileIndex → Tile := fun t =>
  if t = 7 then railTile 3 else if t = 10 then stationTile 1
  else if t = 20 then depotTile 1 else emptyTile

/-- The sample map with rail station cells at 9, 10 and 11. -/
def platformMap : TileIndex → Tile := fun t =>
  if t = 9 then stationTile 1 else if t = 10 then stationTile 1
  else if t = 11 then stationTile 1 else emptyTile

/-- An environment in which the tiles 9, 10 and 11 form one platform: each of
them is compatible with each of them, and no other tile is. -/
def platformEnv : Env :=
  { baseEnv with
    IsCompatibleTrainStationTile := fun a b => decide (9 ≤ a ∧ a ≤ 11 ∧ 9 ≤ b ∧ b ≤ 11) }

/-- A follower result that lands on `tile`, offering the track directions
`trackdirs`, without having skipped a tile. -/
def landOn (tile : TileIndex) (trackdirs : TrackdirBits) : FollowResult :=
  { m_new := { pos := PFPos.onTile tile 0xFF, trackdirs := trackdirs },
    m_flag := TileFlag.TF_NONE, m_exitdir := DiagDirection.DIAGDIR_NE, m_tiles_skipped := 0 }

/-- The sample map with track X of the plain rail tile 7 and the rail depot 20
reserved. -/
def depotWorld : World :=
  SetDepotReservation (SetTrackReservation (worldOf sampleMap) 7 1) 20 true

/-- An environment whose follower leads from tile 7 into the rail depot 20 and
nowhere else. -/
def depotEnv : Env :=
  { baseEnv with
    Follow := fun _ _ p => if p.tile = 7 then some (landOn 20 1) else none }

/-- The sample map with plain rail tiles (track X) at 1, 2, 3 and 4. -/
def lineMap : TileIndex → Tile := fun t =>
  if 1 ≤ t ∧ t ≤ 4 then railTile 1 else emptyTile

/-- The line map with track X reserved on the tiles 1, 2 and 3. -/
def lineWorld : World :=
  SetTrackReservation (SetTrackReservation (SetTrackReservation (worldOf lineMap) 1 1) 2 1) 3 1

/-- An environment whose follower leads along the line 1, 2, 3, 4 and stops
after tile 4. -/
def lineEnv : Env :=
  { baseEnv with
    Follow := fun _ _ p => if 1 ≤ p.tile ∧ p.tile ≤ 3 then some (landOn (p.tile + 1) 1) else none }

/-- A map on which a reservation runs into a cycle that does not contain the
first position after its start: plain rail tiles 100, 102 and 103 with track X,
and a plain rail tile 101 with the tracks UPPER (bit 2) and RIGHT (bit 5). -/
def rhoMap : TileIndex → Tile := fun t =>
  if t = 100 then railTile 1 else if t = 101 then railTile 36
  else if t = 102 then railTile 1 else if t = 103 then railTile 1 else emptyTile

/-- Every track of the map `rhoMap` is reserved. -/
def rhoWorld : World :=
  SetTrackReservation (SetTrackReservation (SetTrackReservation
    (SetTrackReservation (worldOf rhoMap) 100 1) 101 36) 102 1) 103 1

/-- The follower of the map `rhoMap`: tile 100 leads onto track UPPER of tile 101
(track direction 2), tile 101 leads onto tile 102, tile 102 onto tile 103, and
tile 103 leads back onto track RIGHT of tile 101 (track direction 13). -/
def rhoEnv : Env :=
  { baseEnv with
    Follow := fun _ _ p =>
      if p.tile = 100 then some (landOn 101 (2 ^ 2))
      else if p.tile = 101 then some (landOn 102 1)
      else if p.tile = 102 then some (landOn 103 1)
      else if p.tile = 103 then some (landOn 101 (2 ^ 13))
      else none }

/-- The line map with track X reserved on all four tiles. -/
def ringWorld : World := SetTrackReservation lineWorld 4 1

/-- An environment whose follower leads round the ring 1, 2, 3, 4, 1. -/
def ringEnv : Env :=
  { baseEnv with
    Follow := fun _ _ p =>
      if 1 ≤ p.tile ∧ p.tile ≤ 3 then some (landOn (p.tile + 1) 1)
      else if p.tile = 4 then some (landOn 1 1) else none }

/-- The four positions of the ring. -/
def ringPositions : List PFPos :=
  [PFPos.onTile 1 0, PFPos.onTile 2 0, PFPos.onTile 3 0, PFPos.onTile 4 0]

/-- A train vehicle. -/
def train (index : VehicleID) (tile : TileIndex) (trackdir : Trackdir) (first : VehicleID)
    (vehstatus : Nat) : Vehicle :=
  { index := index, type := VehicleType.VEH_TRAIN, vehstatus := vehstatus, tile := tile,
    trackdir := trackdir, first := first }

/-- Two trains on tile 7, on the track of track direction 0, with the
identities 5 and 9, in the two orders a scan can present them. -/
def twoTrains : List Vehicle := [train 5 7 0 5 0, train 9 7 8 9 0]

/-- The registry `twoTrains` in the other order. -/
def twoTrainsSwapped : List Vehicle := [train 9 7 8 9 0, train 5 7 0 5 0]

/-- A follower result that lands on `tile` with the single track direction
`td`. -/
def arriveOn (tile : TileIndex) (td : Trackdir) : FollowResult :=
  { m_new := { pos := PFPos.onTile tile td, trackdirs := 1 <<< td },
    m_flag := TileFlag.TF_NONE, m_exitdir := DiagDirection.DIAGDIR_NE, m_tiles_skipped := 0 }

/-- An environment for waiting positions on the line map: a train on tile 1 is
led onto tile 2, where a PBS signal faces the direction of travel. -/
def waitEnv : Env :=
  { baseEnv with
    FollowVehicle := fun _ _ p => if p.tile = 1 then some (arriveOn 2 0) else none
    HasSignalAlongPos := fun p => decide (p.tile = 2)
    GetSignalType := fun p =>
      if p.tile = 2 then SignalType.SIGTYPE_PBS else SignalType.SIGTYPE_NORMAL }

/-- The environment `waitEnv` with a block signal instead of the PBS signal on
tile 2. -/
def blockSignalEnv : Env :=
  { waitEnv with GetSignalType := fun _ => SignalType.SIGTYPE_NORMAL }

/-- An environment for the owner lookup on the line map: the follower leads up
the line in the track direction 0 and down the line in the track direction 8,
and tile 2 has a one-way signal that blocks the track direction 8. -/
def onewayEnv : Env :=
  { baseEnv with
    Follow := fun _ _ p =>
      if p.td = 0 then
        if 1 ≤ p.tile ∧ p.tile ≤ 3 then some (landOn (p.tile + 1) 1) else none
      else if 1 ≤ p.tile ∧ p.tile ≤ 4 then some (landOn (p.tile - 1) 256) else none
    HasOnewaySignalBlockingTrackdir := fun t td => decide (t = 2 ∧ td = 8) }

/-- A train with identity 5 on tile 3 and a train with identity 9 on tile 1. -/
def lineTrains : List Vehicle := [train 5 3 0 5 0, train 9 1 8 9 0]

/-- An environment with a bridge whose ends are the tiles 30 and 40. -/
def bridgeEnv : Env :=
  { baseEnv with
    GetOtherTunnelBridgeEnd := fun t => if t = 30 then 40 else if t = 40 then 30 else t }

/-- A position on the bridge between the tiles 30 and 40, at the end 30. -/
def bridgePos : PFPos := { tile := 30, td := 0, wormhole := 30 }

/-- Three trains on the bridge: the trains with the identities 6 and 4 are on
the end 30, the train with the identity 2 is on the end 40. -/
def bridgeTrains : List Vehicle :=
  [train 6 30 0x40 6 0, train 4 30 0x40 4 0, train 2 40 0x40 2 0]

/-- Two trains on the bridge, both on the end 40, with the identities 8 and 2. -/
def farTrains : List Vehicle := [train 8 40 0x40 8 0, train 2 40 0x40 2 0]
/-! ## Lemmas on track bits -/

theorem and_bit_ne_zero_iff (x : Nat) (t : Track) :
    (x &&& TrackToTrackBits t) ≠ 0 ↔ x.testBit t = true := by
  unfold TrackToTrackBits
  rw [Nat.one_shiftLeft]
  constructor
  · intro h
    obtain ⟨i, hi⟩ := Nat.ne_zero_implies_bit_true h
    rw [Nat.testBit_and, Bool.and_eq_true, Nat.testBit_two_pow] at hi
    have : t = i := by simpa using hi.2
    rw [this]; exact hi.1
  · intro h h0
    have : (x &&& 2 ^ t).testBit t = true := by
      rw [Nat.testBit_and, h, Nat.testBit_two_pow_self]; rfl
    rw [h0] at this
    simp at this

theorem testBit_bit (t i : Track) : (TrackToTrackBits t).testBit i = decide (t = i) := by
  unfold TrackToTrackBits
  rw [Nat.one_shiftLeft, Nat.testBit_two_pow]

theorem testBit_clear (x : Nat) (t i : Track) :
    (x ^^^ (x &&& TrackToTrackBits t)).testBit i = (x.testBit i && !decide (t = i)) := by
  unfold TrackToTrackBits
  rw [Nat.one_shiftLeft, Nat.testBit_xor, Nat.testBit_and, Nat.testBit_two_pow]
  cases x.testBit i <;> cases decide (t = i) <;> rfl

/-! ## Reserving a track -/

/-- C2. `TryReserveRailTrack` never reserves partially: whenever it returns
false the map (hence the reservation state of every tile, the target tile
included) is what it was before the call; and on a tile that is not plain rail,
a level crossing, a rail tunnel head, a rail depot or a rail station it returns
false. -/
theorem TryReserveRailTrack_all_or_nothing (env : Env) (w : World) (tile : TileIndex)
    (t : Track) (trigger_stations : Bool) :
    ((TryReserveRailTrack env w tile t trigger_stations).2 = false →
      (TryReserveRailTrack env w tile t trigger_stations).1.tiles = w.tiles) ∧
    (¬ ReservableKind w tile →
      (TryReserveRailTrack env w tile t trigger_stations).2 = false) := by
  unfold ReservableKind
  simp only [TryReserveRailTrack, showReservation, GetTileType, GetTileSubtype,
    GetTunnelTransportType, IsRailDepot, IsRailDepotTile, HasStationRail, IsRailStation,
    TryReserveTrack, MarkTileDirtyByTile, HasCrossingReservation, HasTunnelHeadReservation,
    HasDepotReservation, HasStationReservation, GetRailReservationTrackBits]
  cases env.show_track_reservation <;> cases hty : (w.tiles tile).type <;>
    cases hsub : (w.tiles tile).subtype <;> simp [hty, hsub] <;>
    (try split) <;> (try split) <;> simp_all


/-- Witness of C2: the rail station cell 10 of the sample map, already reserved,
refuses a second reservation and the map stays as it was. -/
theorem TryReserveRailTrack_all_or_nothing_witness :
    (TryReserveRailTrack baseEnv (SetRailStationReservation (worldOf sampleMap) 10 true)
        10 0 true).2 = false ∧
    (TryReserveRailTrack baseEnv (SetRailStationReservation (worldOf sampleMap) 10 true)
        10 0 true).1.tiles = (SetRailStationReservation (worldOf sampleMap) 10 true).tiles :=
  ⟨by decide, (TryReserveRailTrack_all_or_nothing baseEnv
    (SetRailStationReservation (worldOf sampleMap) 10 true) 10 0 true).1 (by decide)⟩

/-- C3. On a level crossing, a rail tunnel head, a rail depot and a rail station
cell, `TryReserveRailTrack` returns true if and only if the tile was not
reserved before the call, and after a true return the reservation flag of the
tile is set. -/
theorem TryReserveRailTrack_single_track (env : Env) (w : World) (tile : TileIndex)
    (t : Track) (trigger_stations : Bool) :
    (GetTileType w tile = TileType.TT_MISC ∧
        GetTileSubtype w tile = TileSubtype.TT_MISC_CROSSING →
      ((TryReserveRailTrack env w tile t trigger_stations).2 = true ↔
        HasCrossingReservation w tile = false) ∧
      ((TryReserveRailTrack env w tile t trigger_stations).2 = true →
        HasCrossingReservation (TryReserveRailTrack env w tile t trigger_stations).1 tile
          = true)) ∧
    (GetTileType w tile = TileType.TT_MISC ∧
        GetTileSubtype w tile = TileSubtype.TT_MISC_TUNNEL ∧
        GetTunnelTransportType w tile = TransportType.TRANSPORT_RAIL →
      ((TryReserveRailTrack env w tile t trigger_stations).2 = true ↔
        HasTunnelHeadReservation w tile = false) ∧
      ((TryReserveRailTrack env w tile t trigger_stations).2 = true →
        HasTunnelHeadReservation (TryReserveRailTrack env w tile t trigger_stations).1 tile
          = true)) ∧
    (GetTileType w tile = TileType.TT_MISC ∧
        GetTileSubtype w tile = TileSubtype.TT_MISC_DEPOT ∧ IsRailDepot w tile = true →
      ((TryReserveRailTrack env w tile t trigger_stations).2 = true ↔
        HasDepotReservation w tile = false) ∧
      ((TryReserveRailTrack env w tile t trigger_stations).2 = true →
        HasDepotReservation (TryReserveRailTrack env w tile t trigger_stations).1 tile
          = true)) ∧
    (GetTileType w tile = TileType.TT_STATION ∧ HasStationRail w tile = true →
      ((TryReserveRailTrack env w tile t trigger_stations).2 = true ↔
        HasStationReservation w tile = false) ∧
      ((TryReserveRailTrack env w tile t trigger_stations).2 = true →
        HasStationReservation (TryReserveRailTrack env w tile t trigger_stations).1 tile
          = true)) := by
  simp only [TryReserveRailTrack, showReservation, GetTileType, GetTileSubtype,
    GetTunnelTransportType, IsRailDepot, IsRailDepotTile, HasStationRail, IsRailStation,
    TryReserveTrack, MarkTileDirtyByTile, HasCrossingReservation, HasTunnelHeadReservation,
    HasDepotReservation, HasStationReservation, GetRailReservationTrackBits,
    SetCrossingReservation, SetTunnelHeadReservation, SetDepotReservation,
    SetRailStationReservation, BarCrossing, TriggerStationRandomisation, setRes]
  refine ⟨?_, ?_, ?_, ?_⟩
  · rintro ⟨hty, hsub⟩
    cases env.show_track_reservation <;> cases hr : (w.tiles tile).res.crossing <;>
      simp [hty, hsub, hr]
  · rintro ⟨hty, hsub, htr⟩
    cases env.show_track_reservation <;> cases hr : (w.tiles tile).res.tunnel_head <;>
      simp [hty, hsub, htr, hr]
  · rintro ⟨hty, hsub, hdep⟩
    cases env.show_track_reservation <;> cases hr : (w.tiles tile).res.depot <;>
      simp [hty, hsub, hdep, hr]
  · rintro ⟨hty, hst⟩
    cases env.show_track_reservation <;> cases hr : (w.tiles tile).res.station <;>
      cases trigger_stations <;> cases hrs : (w.tiles tile).rail_station <;>
      simp [hty, hst, hr, hrs]

/-- Witness of C3: on the free rail depot 20 of the sample map the reservation
succeeds and sets the depot flag. -/
theorem TryReserveRailTrack_single_track_witness :
    (GetTileType (worldOf sampleMap) 20 = TileType.TT_MISC ∧
      GetTileSubtype (worldOf sampleMap) 20 = TileSubtype.TT_MISC_DEPOT ∧
      IsRailDepot (worldOf sampleMap) 20 = true) ∧
    ((TryReserveRailTrack baseEnv (worldOf sampleMap) 20 0 false).2 = true ↔
      HasDepotReservation (worldOf sampleMap) 20 = false) ∧
    ((TryReserveRailTrack baseEnv (worldOf sampleMap) 20 0 false).2 = true →
      HasDepotReservation (TryReserveRailTrack baseEnv (worldOf sampleMap) 20 0 false).1 20
        = true) :=
  ⟨by decide, (TryReserveRailTrack_single_track baseEnv (worldOf sampleMap) 20 0 false).2.2.1
    (by decide)⟩

/-! ### Exclusivity -/

theorem TryReserveRailTrack_tiles_other (env : Env) (w : World) (tile : TileIndex) (t : Track)
    (trig : Bool) (x : TileIndex) (h : x ≠ tile) :
    (TryReserveRailTrack env w tile t trig).1.tiles x = w.tiles x := by
  simp only [TryReserveRailTrack, showReservation, GetTileType, GetTileSubtype,
    GetTunnelTransportType, IsRailDepot, IsRailDepotTile, HasStationRail, IsRailStation,
    TryReserveTrack, MarkTileDirtyByTile, HasCrossingReservation, HasTunnelHeadReservation,
    HasDepotReservation, HasStationReservation, GetRailReservationTrackBits,
    SetCrossingReservation, SetTunnelHeadReservation, SetDepotReservation,
    SetRailStationReservation, SetTrackReservation, BarCrossing, TriggerStationRandomisation,
    setRes]
  cases env.show_track_reservation <;> cases hty : (w.tiles tile).type <;>
    cases hsub : (w.tiles tile).subtype <;> simp [hty, hsub] <;>
    (repeat' split) <;> simp_all [Function.update]

theorem UnreserveRailTrack_tiles_other (env : Env) (w : World) (tile : TileIndex) (t : Track)
    (x : TileIndex) (h : x ≠ tile) :
    (UnreserveRailTrack env w tile t).tiles x = w.tiles x := by
  simp only [UnreserveRailTrack, showReservation, GetTileType, GetTileSubtype,
    GetTunnelTransportType, IsRailDepot, HasStationRail, UnreserveTrack, UpdateLevelCrossing,
    MarkTileDirtyByTile, GetRailReservationTrackBits, SetCrossingReservation,
    SetTunnelHeadReservation, SetDepotReservation, SetRailStationReservation,
    SetTrackReservation, setRes]
  cases env.show_track_reservation <;> cases hty : (w.tiles tile).type <;>
    cases hsub : (w.tiles tile).subtype <;> simp [hty, hsub] <;>
    (repeat' split) <;> simp_all [Function.update]

theorem TryReserveRailTrack_type (env : Env) (w : World) (tile : TileIndex) (t : Track)
    (trig : Bool) (x : TileIndex) :
    ((TryReserveRailTrack env w tile t trig).1.tiles x).type = (w.tiles x).type := by
  by_cases hx : x = tile
  · subst hx
    simp only [TryReserveRailTrack, showReservation, GetTileType, GetTileSubtype,
      GetTunnelTransportType, IsRailDepot, IsRailDepotTile, HasStationRail, IsRailStation,
      TryReserveTrack, MarkTileDirtyByTile, HasCrossingReservation, HasTunnelHeadReservation,
      HasDepotReservation, HasStationReservation, GetRailReservationTrackBits,
      SetCrossingReservation, SetTunnelHeadReservation, SetDepotReservation,
      SetRailStationReservation, SetTrackReservation, BarCrossing,
      TriggerStationRandomisation, setRes]
    cases env.show_track_reservation <;> cases hty : (w.tiles x).type <;>
      cases hsub : (w.tiles x).subtype <;> simp [hty, hsub] <;>
      (repeat' split) <;> simp_all [Function.update]
  · rw [TryReserveRailTrack_tiles_other env w tile t trig x hx]

theorem UnreserveRailTrack_type (env : Env) (w : World) (tile : TileIndex) (t : Track)
    (x : TileIndex) :
    ((UnreserveRailTrack env w tile t).tiles x).type = (w.tiles x).type := by
  by_cases hx : x = tile
  · subst hx
    simp only [UnreserveRailTrack, showReservation, GetTileType, GetTileSubtype,
      GetTunnelTransportType, IsRailDepot, HasStationRail, UnreserveTrack, UpdateLevelCrossing,
      MarkTileDirtyByTile, GetRailReservationTrackBits, SetCrossingReservation,
      SetTunnelHeadReservation, SetDepotReservation, SetRailStationReservation,
      SetTrackReservation, setRes]
    cases env.show_track_reservation <;> cases hty : (w.tiles x).type <;>
      cases hsub : (w.tiles x).subtype <;> simp [hty, hsub] <;>
      (repeat' split) <;> simp_all [Function.update]
  · rw [UnreserveRailTrack_tiles_other env w tile t x hx]

theorem TryReserveRailTrack_held (env : Env) (w : World) (tile : TileIndex) (t : Track)
    (trig : Bool) (h : (TryReserveRailTrack env w tile t trig).2 = true) :
    TileHeld ((TryReserveRailTrack env w tile t trig).1.tiles tile) t := by
  revert h
  simp only [TryReserveRailTrack, showReservation, GetTileType, GetTileSubtype,
    GetTunnelTransportType, IsRailDepot, IsRailDepotTile, HasStationRail, IsRailStation,
    TryReserveTrack, MarkTileDirtyByTile, HasCrossingReservation, HasTunnelHeadReservation,
    HasDepotReservation, HasStationReservation, GetRailReservationTrackBits,
    SetCrossingReservation, SetTunnelHeadReservation, SetDepotReservation,
    SetRailStationReservation, SetTrackReservation, BarCrossing, TriggerStationRandomisation,
    setRes, TileHeld]
  cases env.show_track_reservation <;> cases hty : (w.tiles tile).type <;>
    cases hsub : (w.tiles tile).subtype <;> simp [hty, hsub] <;>
    (repeat' split) <;> simp_all [Function.update, and_bit_ne_zero_iff, testBit_bit]

theorem TryReserveRailTrack_of_held (env : Env) (w : World) (tile : TileIndex) (t : Track)
    (trig : Bool) (h : TileHeld (w.tiles tile) t) :
    (TryReserveRailTrack env w tile t trig).2 = false := by
  revert h
  simp only [TryReserveRailTrack, showReservation, GetTileType, GetTileSubtype,
    GetTunnelTransportType, IsRailDepot, IsRailDepotTile, HasStationRail, IsRailStation,
    TryReserveTrack, MarkTileDirtyByTile, HasCrossingReservation, HasTunnelHeadReservation,
    HasDepotReservation, HasStationReservation, GetRailReservationTrackBits,
    SetCrossingReservation, SetTunnelHeadReservation, SetDepotReservation,
    SetRailStationReservation, SetTrackReservation, BarCrossing, TriggerStationRandomisation,
    setRes, TileHeld, TRACK_BIT_NONE]
  cases env.show_track_reservation <;> cases hty : (w.tiles tile).type <;>
    cases hsub : (w.tiles tile).subtype <;> simp [hty, hsub] <;>
    (repeat' split) <;> simp_all [Function.update]

theorem showReservation_tiles (env : Env) (w : World) (tile : TileIndex) :
    (showReservation env w tile).tiles = w.tiles := by
  unfold showReservation
  split <;> rfl

theorem TryReserveRailTrack_keeps_held (env : Env) (w : World) (tile : TileIndex) (t : Track)
    (tile2 : TileIndex) (t2 : Track) (trig : Bool) (h : TileHeld (w.tiles tile) t) :
    TileHeld ((TryReserveRailTrack env w tile2 t2 trig).1.tiles tile) t := by
  by_cases hx : tile = tile2
  · subst hx
    rw [← showReservation_tiles env w tile] at h
    revert h
    simp only [TryReserveRailTrack]
    generalize showReservation env w tile = w1
    cases hty : (w1.tiles tile).type
    · simp only [GetTileType, hty, TryReserveTrack, GetRailReservationTrackBits,
        SetTrackReservation, setRes, TRACK_BIT_NONE]
      intro h
      split_ifs
      · exact h
      · exact h
      · simp only [TileHeld, hty, and_bit_ne_zero_iff] at h
        simp [TileHeld, Function.update, hty, and_bit_ne_zero_iff, h]
    · cases hsub : (w1.tiles tile).subtype <;>
        simp only [GetTileType, GetTileSubtype, hty, hsub] <;> intro h <;>
        (try split_ifs) <;>
        first
          | exact h
          | (simp_all [TileHeld, HasCrossingReservation, HasTunnelHeadReservation,
              HasDepotReservation, IsRailDepotTile, IsRailDepot, GetTileType, GetTileSubtype,
              GetTunnelTransportType])
    · simp only [GetTileType, hty]
      intro h
      split_ifs <;>
        first
          | exact h
          | (simp_all [TileHeld, HasStationRail, HasStationReservation])
    · simp only [GetTileType, hty]
      exact fun h => h
  · rw [TryReserveRailTrack_tiles_other env w tile2 t2 trig tile hx]
    exact h

theorem UnreserveRailTrack_keeps_held (env : Env) (w : World) (tile : TileIndex) (t : Track)
    (tile2 : TileIndex) (t2 : Track) (h : TileHeld (w.tiles tile) t)
    (hs : tile2 ≠ tile ∨ ((w.tiles tile).type = TileType.TT_RAILWAY ∧ t2 ≠ t)) :
    TileHeld ((UnreserveRailTrack env w tile2 t2).tiles tile) t := by
  by_cases hx : tile = tile2
  · subst hx
    rcases hs with hs | ⟨hty, hne⟩
    · exact absurd rfl hs
    · revert h
      simp only [UnreserveRailTrack, showReservation, GetTileType, UnreserveTrack,
        MarkTileDirtyByTile, GetRailReservationTrackBits, SetTrackReservation, setRes,
        TileHeld]
      cases env.show_track_reservation <;>
        simp [hty, Function.update, and_bit_ne_zero_iff, testBit_clear, testBit_bit, hne]
  · rw [UnreserveRailTrack_tiles_other env w tile2 t2 tile hx]
    exact h

theorem runCalls_keeps_held (env : Env) (w0 : World) (tile : TileIndex) (t : Track)
    (calls : List ReservationCall) :
    ∀ w : World, (w.tiles tile).type = (w0.tiles tile).type → TileHeld (w.tiles tile) t →
      (∀ c ∈ calls, ReservationCall.Spares w0 tile t c) →
      TileHeld ((runCalls env w calls).tiles tile) t := by
  induction calls with
  | nil => intro w _ h _; exact h
  | cons c rest ih =>
    intro w hty h hs
    have hc := hs c (List.mem_cons_self c rest)
    have hrest : ∀ d ∈ rest, ReservationCall.Spares w0 tile t d :=
      fun d hd => hs d (List.mem_cons_of_mem c hd)
    show TileHeld ((runCalls env (ReservationCall.run env w c) rest).tiles tile) t
    cases c with
    | reserve tile2 t2 trig =>
      exact ih _ (by rw [← hty]; exact TryReserveRailTrack_type env w tile2 t2 trig tile)
        (TryReserveRailTrack_keeps_held env w tile t tile2 t2 trig h) hrest
    | release tile2 t2 =>
      refine ih _ (by rw [← hty]; exact UnreserveRailTrack_type env w tile2 t2 tile)
        (UnreserveRailTrack_keeps_held env w tile t tile2 t2 h ?_) hrest
      rcases hc with hc | ⟨hc1, hc2⟩
      · exact Or.inl hc
      · exact Or.inr ⟨by rw [hty]; exact hc1, hc2⟩

/-- C1. Exclusivity: once `TryReserveRailTrack(tile, t, _)` has returned true, a
second `TryReserveRailTrack(tile, t, _)` returns false, whatever calls were made
in between, as long as none of them releases the element: reservation attempts
anywhere, releases on other tiles, releases of other tracks of a plain rail
tile. -/
theorem TryReserveRailTrack_exclusive (env : Env) (w : World) (tile : TileIndex) (t : Track)
    (trig trig2 : Bool) (calls : List ReservationCall)
    (hfirst : (TryReserveRailTrack env w tile t trig).2 = true)
    (hcalls : ∀ c ∈ calls, ReservationCall.Spares w tile t c) :
    (TryReserveRailTrack env (runCalls env (TryReserveRailTrack env w tile t trig).1 calls)
      tile t trig2).2 = false := by
  apply TryReserveRailTrack_of_held
  exact runCalls_keeps_held env w tile t calls _
    (TryReserveRailTrack_type env w tile t trig tile)
    (TryReserveRailTrack_held env w tile t trig hfirst) hcalls

/-- Witness of C1: on the plain rail tile 7 of the sample map track X is
reserved; after a successful reservation of the station cell 10, a release on
the depot 20 and a failed attempt on track Y of tile 7, track X is refused. -/
theorem TryReserveRailTrack_exclusive_witness :
    (TryReserveRailTrack baseEnv (worldOf sampleMap) 7 0 false).2 = true ∧
    (TryReserveRailTrack baseEnv
      (runCalls baseEnv (TryReserveRailTrack baseEnv (worldOf sampleMap) 7 0 false).1
        [ReservationCall.reserve 10 0 true, ReservationCall.release 20 0,
         ReservationCall.release 7 1])
      7 0 true).2 = false :=
  ⟨by decide, TryReserveRailTrack_exclusive baseEnv (worldOf sampleMap) 7 0 false true
    [ReservationCall.reserve 10 0 true, ReservationCall.release 20 0,
     ReservationCall.release 7 1] (by decide)
    (by
      intro c hc
      simp only [List.mem_cons, List.mem_singleton, List.not_mem_nil, or_false] at hc
      rcases hc with rfl | rfl | rfl
      · trivial
      · exact Or.inl (by decide)
      · exact Or.inr ⟨by decide, by decide⟩)⟩

/-! ## Releasing a track -/

theorem UnreserveRailTrack_free_res (env : Env) (w : World) (tile : TileIndex) (t : Track)
    (hpre : HasRailTrack w tile t) (hfree : HasReservedTrack w tile t = false) :
    ((UnreserveRailTrack env w tile t).tiles tile).res = (w.tiles tile).res := by
  rw [← showReservation_tiles env w tile]
  have hpre1 : ((showReservation env w tile).tiles tile).railbits &&& TrackToTrackBits t ≠ 0 := by
    rw [showReservation_tiles]; exact hpre
  have hfree1 : HasReservedTrack (showReservation env w tile) tile t = false := by
    simpa [HasReservedTrack, GetReservedTrackbits, GetTileType, GetTileSubtype,
      GetTunnelTransportType, IsRailDepot, HasStationRail, GetRailReservationTrackBits,
      GetCrossingReservationTrackBits, GetTunnelReservationTrackBits,
      GetDepotReservationTrackBits, GetStationReservationTrackBits, HasCrossingReservation,
      HasTunnelHeadReservation, HasDepotReservation, HasStationReservation,
      showReservation_tiles] using hfree
  revert hpre1 hfree1
  simp only [UnreserveRailTrack]
  generalize showReservation env w tile = w1
  intro hpre1 hfree1
  simp only [HasReservedTrack, GetReservedTrackbits, GetTileType, GetTileSubtype,
    GetTunnelTransportType, IsRailDepot, HasStationRail, GetRailReservationTrackBits,
    GetCrossingReservationTrackBits, GetTunnelReservationTrackBits,
    GetDepotReservationTrackBits, GetStationReservationTrackBits, HasCrossingReservation,
    HasTunnelHeadReservation, HasDepotReservation, HasStationReservation,
    TRACK_BIT_NONE] at hfree1
  cases hty : (w1.tiles tile).type
  · simp only [hty, bne_eq_false_iff_eq] at hfree1
    simp [GetTileType, hty, UnreserveTrack, GetRailReservationTrackBits, SetTrackReservation,
      setRes, hfree1]
  · cases hsub : (w1.tiles tile).subtype
    · cases hr : (w1.tiles tile).res.crossing
      · simp only [GetTileType, GetTileSubtype, hty, hsub, SetCrossingReservation, setRes,
          UpdateLevelCrossing, MarkTileDirtyByTile, Function.update_same, Function.update_idem]
        rw [← hr]
      · simp [hty, hsub, hr, hpre1] at hfree1
    · cases hr : (w1.tiles tile).res.tunnel_head
      · simp only [GetTileType, GetTileSubtype, GetTunnelTransportType, hty, hsub,
          SetTunnelHeadReservation, setRes]
        split_ifs
        · simp only [Function.update_same]
          rw [← hr]
        · rfl
      · cases htr : (w1.tiles tile).transport
        · simp [hty, hsub, hr, htr, hpre1] at hfree1
        · simp [GetTileType, GetTileSubtype, GetTunnelTransportType, hty, hsub, htr]
    · cases hr : (w1.tiles tile).res.depot
      · simp only [GetTileType, GetTileSubtype, IsRailDepot, hty, hsub,
          SetDepotReservation, setRes, MarkTileDirtyByTile]
        split_ifs
        · simp only [Function.update_same]
          rw [← hr]
        · rfl
      · cases hdep : (w1.tiles tile).rail_depot
        · simp [GetTileType, GetTileSubtype, IsRailDepot, hty, hsub, hdep]
        · simp [hty, hsub, hr, hdep, hpre1] at hfree1
    · simp [GetTileType, GetTileSubtype, hty, hsub]
  · cases hr : (w1.tiles tile).res.station
    · simp only [GetTileType, HasStationRail, hty, SetRailStationReservation, setRes,
        MarkTileDirtyByTile]
      split_ifs
      · simp only [Function.update_same]
        rw [← hr]
      · rfl
    · cases hst : (w1.tiles tile).station_rail
      · simp [GetTileType, HasStationRail, hty, hst]
      · simp [hty, hr, hst, hpre1] at hfree1
  · simp [GetTileType, hty]

theorem UnreserveRailTrack_railbits (env : Env) (w : World) (tile : TileIndex) (t : Track)
    (x : TileIndex) :
    ((UnreserveRailTrack env w tile t).tiles x).railbits = (w.tiles x).railbits := by
  by_cases hx : x = tile
  · subst hx
    simp only [UnreserveRailTrack, showReservation, GetTileType, GetTileSubtype,
      GetTunnelTransportType, IsRailDepot, HasStationRail, UnreserveTrack, UpdateLevelCrossing,
      MarkTileDirtyByTile, GetRailReservationTrackBits, SetCrossingReservation,
      SetTunnelHeadReservation, SetDepotReservation, SetRailStationReservation,
      SetTrackReservation, setRes]
    cases env.show_track_reservation <;> cases hty : (w.tiles x).type <;>
      cases hsub : (w.tiles x).subtype <;> simp [hty, hsub] <;>
      (repeat' split) <;> simp_all [Function.update]
  · rw [UnreserveRailTrack_tiles_other env w tile t x hx]

theorem UnreserveRailTrack_frees (env : Env) (w : World) (tile : TileIndex) (t : Track) :
    HasReservedTrack (UnreserveRailTrack env w tile t) tile t = false := by
  simp only [UnreserveRailTrack]
  generalize showReservation env w tile = w1
  cases hty : (w1.tiles tile).type
  · have h0 : ((w1.tiles tile).res.rail ^^^ ((w1.tiles tile).res.rail &&& TrackToTrackBits t))
        &&& TrackToTrackBits t = 0 := by
      by_contra hne
      have hbit := (and_bit_ne_zero_iff _ t).mp hne
      rw [testBit_clear] at hbit
      simp at hbit
    simp [HasReservedTrack, GetReservedTrackbits, GetTileType, hty, UnreserveTrack,
      GetRailReservationTrackBits, SetTrackReservation, setRes, TRACK_BIT_NONE, h0]
  · cases hsub : (w1.tiles tile).subtype
    · simp [HasReservedTrack, GetReservedTrackbits, GetTileType, GetTileSubtype, hty, hsub,
        SetCrossingReservation, setRes, UpdateLevelCrossing, MarkTileDirtyByTile,
        GetCrossingReservationTrackBits, HasCrossingReservation, TRACK_BIT_NONE]
    · cases htr : (w1.tiles tile).transport <;>
      simp [HasReservedTrack, GetReservedTrackbits, GetTileType, GetTileSubtype,
        GetTunnelTransportType, hty, hsub, htr, SetTunnelHeadReservation, setRes,
        GetTunnelReservationTrackBits, HasTunnelHeadReservation, TRACK_BIT_NONE]
    · cases hdep : (w1.tiles tile).rail_depot <;>
      simp [HasReservedTrack, GetReservedTrackbits, GetTileType, GetTileSubtype,
        IsRailDepot, hty, hsub, hdep, SetDepotReservation, setRes, MarkTileDirtyByTile,
        GetDepotReservationTrackBits, HasDepotReservation, TRACK_BIT_NONE]
    · simp [HasReservedTrack, GetReservedTrackbits, GetTileType, GetTileSubtype, hty, hsub,
        TRACK_BIT_NONE]
  · cases hst : (w1.tiles tile).station_rail <;>
    simp [HasReservedTrack, GetReservedTrackbits, GetTileType, HasStationRail, hty, hst,
      SetRailStationReservation, setRes, MarkTileDirtyByTile,
      GetStationReservationTrackBits, HasStationReservation, TRACK_BIT_NONE]
  · simp [HasReservedTrack, GetReservedTrackbits, GetTileType, hty, TRACK_BIT_NONE]

/-- C4. Release is idempotent: when the element `(tile, t)` of a tile that has
the track is free, `UnreserveRailTrack(tile, t)` leaves the reservation bits of
every tile as they were; and calling it twice in a row gives the reservation
bits that calling it once gives. -/
theorem UnreserveRailTrack_idempotent (env : Env) (w : World) (tile : TileIndex) (t : Track)
    (hpre : HasRailTrack w tile t) :
    (HasReservedTrack w tile t = false →
      ∀ x, ((UnreserveRailTrack env w tile t).tiles x).res = (w.tiles x).res) ∧
    (∀ x, ((UnreserveRailTrack env (UnreserveRailTrack env w tile t) tile t).tiles x).res =
      ((UnreserveRailTrack env w tile t).tiles x).res) := by
  have key : ∀ w1 : World, HasRailTrack w1 tile t → HasReservedTrack w1 tile t = false →
      ∀ x, ((UnreserveRailTrack env w1 tile t).tiles x).res = (w1.tiles x).res := by
    intro w1 hp hf x
    by_cases hx : x = tile
    · subst hx
      exact UnreserveRailTrack_free_res env w1 x t hp hf
    · rw [UnreserveRailTrack_tiles_other env w1 tile t x hx]
  refine ⟨key w hpre, key _ ?_ (UnreserveRailTrack_frees env w tile t)⟩
  unfold HasRailTrack GetTileRailwayStatus
  rw [UnreserveRailTrack_railbits]
  exact hpre

/-- Witness of C4: track Y of the plain rail tile 7 of the sample map is free
while track X is reserved; releasing track Y changes no reservation bit. -/
theorem UnreserveRailTrack_idempotent_witness :
    HasRailTrack (SetTrackReservation (worldOf sampleMap) 7 1) 7 1 ∧
    HasReservedTrack (SetTrackReservation (worldOf sampleMap) 7 1) 7 1 = false ∧
    ∀ x, ((UnreserveRailTrack baseEnv (SetTrackReservation (worldOf sampleMap) 7 1) 7 1).tiles
      x).res = ((SetTrackReservation (worldOf sampleMap) 7 1).tiles x).res :=
  ⟨by decide, by decide,
    (UnreserveRailTrack_idempotent baseEnv (SetTrackReservation (worldOf sampleMap) 7 1) 7 1
      (by decide)).1 (by decide)⟩

/-! ## Reserving a platform -/

theorem SetRailStationReservation_get (w : World) (t x : TileIndex) (b : Bool) :
    HasStationReservation (MarkTileDirtyByTile (SetRailStationReservation w t b) t) x =
      if x = t then b else HasStationReservation w x := by
  unfold HasStationReservation MarkTileDirtyByTile SetRailStationReservation setRes
  by_cases hx : x = t
  · subst hx; simp
  · simp [Function.update, hx]

theorem SetRailStationReservation_tiles_other (w : World) (t x : TileIndex) (b : Bool)
    (hx : x ≠ t) :
    (MarkTileDirtyByTile (SetRailStationReservation w t b) t).tiles x = w.tiles x := by
  unfold MarkTileDirtyByTile SetRailStationReservation setRes
  simp [Function.update, hx]

theorem platformLoop_run (env : Env) (start : TileIndex) (diff : TileIndexDiff) (b : Bool) :
    ∀ (n fuel : Nat) (w : World) (tile : TileIndex),
      (∀ k, 1 ≤ k → k ≤ n → env.IsCompatibleTrainStationTile (tileAhead diff k tile) start
        = true) →
      env.IsCompatibleTrainStationTile (tileAhead diff (n + 1) tile) start = false →
      n + 1 ≤ fuel →
      ∃ w2, platformLoop env start diff b fuel w tile = some w2 ∧
        (∀ x, HasStationReservation w x = b → HasStationReservation w2 x = b) ∧
        (∀ k, k ≤ n → HasStationReservation w2 (tileAhead diff k tile) = b) ∧
        (∀ x, (∀ k, k ≤ n → x ≠ tileAhead diff k tile) → w2.tiles x = w.tiles x) := by
  intro n
  induction n with
  | zero =>
    intro fuel w tile _ hend hfuel
    obtain ⟨f, rfl⟩ : ∃ f, fuel = f + 1 := ⟨fuel - 1, by omega⟩
    have hend1 : env.IsCompatibleTrainStationTile (TILE_ADD tile diff) start = false := hend
    refine ⟨_, by simp only [platformLoop, hend1]; rfl, ?_, ?_, ?_⟩
    · intro x hx
      rw [SetRailStationReservation_get]
      split_ifs <;> simp [hx]
    · intro k hk
      have : k = 0 := by omega
      subst this
      rw [SetRailStationReservation_get]
      simp [tileAhead]
    · intro x hx
      exact SetRailStationReservation_tiles_other w tile x b (hx 0 (le_refl 0))
  | succ n ih =>
    intro fuel w tile hrun hend hfuel
    obtain ⟨f, rfl⟩ : ∃ f, fuel = f + 1 := ⟨fuel - 1, by omega⟩
    have hnext : env.IsCompatibleTrainStationTile (TILE_ADD tile diff) start = true :=
      hrun 1 (le_refl 1) (by omega)
    have hshift : ∀ k, tileAhead diff k (TILE_ADD tile diff) = tileAhead diff (k + 1) tile := by
      intro k
      simp [tileAhead, Function.iterate_succ_apply]
    obtain ⟨w2, hw2, hkeep, hset, hother⟩ :=
      ih f (MarkTileDirtyByTile (SetRailStationReservation w tile b) tile)
        (TILE_ADD tile diff)
        (by intro k hk1 hk2; rw [hshift]; exact hrun (k + 1) (by omega) (by omega))
        (by rw [hshift]; exact hend) (by omega)
    refine ⟨w2, by simp only [platformLoop, hnext, if_true]; exact hw2, ?_, ?_, ?_⟩
    · intro x hx
      apply hkeep
      rw [SetRailStationReservation_get]
      split_ifs <;> simp [hx]
    · intro k hk
      cases k with
      | zero =>
        apply hkeep
        rw [SetRailStationReservation_get]
        simp [tileAhead]
      | succ j =>
        rw [← hshift]
        exact hset j (by omega)
    · intro x hx
      rw [hother x (by intro k hk; rw [hshift]; exact hx (k + 1) (by omega))]
      exact SetRailStationReservation_tiles_other w tile x b (hx 0 (Nat.zero_le _))

/-- C5, as stated, fails: on the platform made of the cells 9, 10 and 11, with
start cell 10 and the direction that leads to 11, the cell 9 is a compatible
cell of the platform of the start cell (it is the cell right behind it), and
after `SetRailStationPlatformReservation(10, dir, true)` it reports free. -/
theorem SetRailStationPlatformReservation_behind_counterexample :
    PlatformStart platformEnv (worldOf platformMap) 10 DiagDirection.DIAGDIR_NE ∧
    platformEnv.IsCompatibleTrainStationTile 9 10 = true ∧
    TILE_ADD 9 (platformEnv.TileOffsByDiagDir DiagDirection.DIAGDIR_NE) = 10 ∧
    (SetRailStationPlatformReservation platformEnv 5 (worldOf platformMap) 10
      DiagDirection.DIAGDIR_NE true).map (fun w => HasStationReservation w 9) = some false ∧
    (SetRailStationPlatformReservation platformEnv 5 (worldOf platformMap) 10
      DiagDirection.DIAGDIR_NE true).map (fun w => HasStationReservation w 11) = some true := by
  decide

/-- C5, amended. When the cells ahead of `start` in direction `dir` are
compatible with `start` for `n` steps and the next one is not, then
`SetRailStationPlatformReservation(start, dir, b)` returns, every cell from
`start` to the `n`-th cell ahead reports `b`, and every tile off that run keeps
its state (the cells of the platform behind `start` included). -/
theorem SetRailStationPlatformReservation_run (env : Env) (w : World) (start : TileIndex)
    (dir : DiagDirection) (b : Bool) (n fuel : Nat)
    (hrun : ∀ k, 1 ≤ k → k ≤ n →
      env.IsCompatibleTrainStationTile (tileAhead (env.TileOffsByDiagDir dir) k start) start
        = true)
    (hend : env.IsCompatibleTrainStationTile
      (tileAhead (env.TileOffsByDiagDir dir) (n + 1) start) start = false)
    (hfuel : n + 1 ≤ fuel) :
    ∃ w2, SetRailStationPlatformReservation env fuel w start dir b = some w2 ∧
      (∀ k, k ≤ n →
        HasStationReservation w2 (tileAhead (env.TileOffsByDiagDir dir) k start) = b) ∧
      (∀ x, (∀ k, k ≤ n → x ≠ tileAhead (env.TileOffsByDiagDir dir) k start) →
        w2.tiles x = w.tiles x) := by
  obtain ⟨w2, hw2, _, hset, hother⟩ :=
    platformLoop_run env start (env.TileOffsByDiagDir dir) b n fuel w start hrun hend hfuel
  exact ⟨w2, hw2, hset, hother⟩

/-- Witness of C5, amended: from the start cell 9 of the platform 9, 10, 11 the
run ahead has two more cells, and all three report reserved after the call. -/
theorem SetRailStationPlatformReservation_run_witness :
    ∃ w2, SetRailStationPlatformReservation platformEnv 3 (worldOf platformMap) 9
        DiagDirection.DIAGDIR_NE true = some w2 ∧
      (∀ k, k ≤ 2 → HasStationReservation w2
        (tileAhead (platformEnv.TileOffsByDiagDir DiagDirection.DIAGDIR_NE) k 9) = true) ∧
      (∀ x, (∀ k, k ≤ 2 →
          x ≠ tileAhead (platformEnv.TileOffsByDiagDir DiagDirection.DIAGDIR_NE) k 9) →
        w2.tiles x = (worldOf platformMap).tiles x) :=
  SetRailStationPlatformReservation_run platformEnv (worldOf platformMap) 9
    DiagDirection.DIAGDIR_NE true 2 3
    (by
      intro k h1 h2
      have hk : k = 1 ∨ k = 2 := by omega
      rcases hk with rfl | rfl <;> decide)
    (by decide) (by decide)

/-! ## Following a reservation -/

theorem terminalChecks_stop (env : Env) (w : World) (c s : PFPos)
    (h : StopsReservation env w c) : terminalChecks env w c s = LoopStep.stop c := by
  unfold terminalChecks
  rcases h with ⟨h1, h2⟩ | ⟨h1, h2⟩
  · simp [h1, h2]
  · simp [h1, h2]

theorem terminalChecks_next (env : Env) (w : World) (c s : PFPos)
    (h : ¬ StopsReservation env w c) : terminalChecks env w c s = LoopStep.next c s := by
  unfold StopsReservation at h
  unfold terminalChecks
  push_neg at h
  obtain ⟨h1, h2⟩ := h
  have hd : (!c.InWormhole && IsRailDepotTile w c.tile) = false := by
    cases hw : c.InWormhole
    · cases hdep : IsRailDepotTile w c.tile
      · rfl
      · exact absurd hdep (h1 hw)
    · rfl
  have hsig : (env.HasSignalAlongPos c && !IsPbsSignal (env.GetSignalType c)) = false := by
    cases hs : env.HasSignalAlongPos c
    · rfl
    · cases hp : IsPbsSignal (env.GetSignalType c)
      · exact absurd hp (h2 hs)
      · rfl
  simp [hd, hsig]

theorem stationBackscan_none (w : World) (diff : TileIndexDiff) :
    ∀ (n : Nat) (p : PFPos),
      (∀ k, 1 ≤ k → k ≤ n → HasStationReservation w (tileBehind diff k p.tile) = false) →
      stationBackscan w diff n p = none := by
  intro n
  induction n with
  | zero => intro p _; rfl
  | succ n ih =>
    intro p h
    have h1 : HasStationReservation w (TILE_SUB p.tile diff) = false := h 1 (le_refl 1) (by omega)
    simp only [stationBackscan, h1]
    apply ih
    intro k hk1 hk2
    have := h (k + 1) (by omega) (by omega)
    simpa [tileBehind, Function.iterate_succ_apply] using this

theorem adoptedCandidate_of_adopts (env : Env) (w : World) (o : Owner) (rts : RailTypes)
    (ignore_oneway : Bool) (a c : PFPos) (h : Adopts env w o rts ignore_oneway a c) :
    adoptedCandidate env w o rts ignore_oneway a = some c := by
  obtain ⟨⟨ft, hft, hcase⟩, hblock⟩ := h
  have hb : (!ignore_oneway && env.HasOnewaySignalBlockingPos c) = false := by
    unfold BlockedByOneway at hblock
    cases ignore_oneway <;> cases hh : env.HasOnewaySignalBlockingPos c <;> simp_all
  rcases hcase with ⟨hw, hres, rfl⟩ | ⟨hw, hres, rfl⟩
  · simp [adoptedCandidate, hft, reservedCandidate, hw, hres, hb]
  · have hres2 : (reservedTrackdirs env w ft == TRACKDIR_BIT_NONE) = false := by
      simpa using hres
    simp only [adoptedCandidate, hft, reservedCandidate, hw, hres2]
    simp [hb]

theorem adopts_of_adoptedCandidate (env : Env) (w : World) (o : Owner) (rts : RailTypes)
    (ignore_oneway : Bool) (a c : PFPos)
    (h : adoptedCandidate env w o rts ignore_oneway a = some c) :
    Adopts env w o rts ignore_oneway a c := by
  unfold adoptedCandidate at h
  cases hft : env.Follow o rts a with
  | none => simp [hft] at h
  | some ft =>
    simp only [hft] at h
    cases hrc : reservedCandidate env w a ft with
    | inl r => simp [hrc] at h
    | inr m =>
      simp only [hrc] at h
      split_ifs at h with hb
      have hcm : m = c := by simpa using h
      subst hcm
      refine ⟨⟨ft, hft, ?_⟩, ?_⟩
      · unfold reservedCandidate at hrc
        cases hw : ft.m_new.pos.InWormhole
        · right
          simp only [hw, Bool.false_eq_true, if_false] at hrc
          by_cases hz : reservedTrackdirs env w ft = TRACKDIR_BIT_NONE
          · exfalso
            simp only [hz, beq_self_eq_true, if_true] at hrc
            split at hrc
            · split at hrc <;> simp at hrc
            · simp at hrc
          · have hz2 : (reservedTrackdirs env w ft == TRACKDIR_BIT_NONE) = false := by
              simpa using hz
            simp only [hz2] at hrc
            refine ⟨rfl, hz, ?_⟩
            simpa using hrc.symm
        · left
          simp only [hw, if_true] at hrc
          cases hres : HasReservedPos env w ft.m_new.pos
          · simp [hres] at hrc
          · simp [hres] at hrc
            exact ⟨rfl, rfl, hrc.symm⟩
      · rintro ⟨h1, h2⟩
        simp [h1, h2] at hb

theorem step_of_adopted (env : Env) (w : World) (o : Owner) (rts : RailTypes)
    (ignore_oneway : Bool) (a c start : PFPos)
    (h : adoptedCandidate env w o rts ignore_oneway a = some c) :
    FollowReservationStep env w o rts ignore_oneway a start =
      if start.tile == INVALID_TILE then terminalChecks env w c c
      else if c == start then LoopStep.stop c else terminalChecks env w c start := by
  unfold adoptedCandidate at h
  unfold FollowReservationStep
  cases hft : env.Follow o rts a with
  | none => simp [hft] at h
  | some ft =>
    simp only [hft] at h ⊢
    cases hrc : reservedCandidate env w a ft with
    | inl r => simp [hrc] at h
    | inr m =>
      simp only [hrc] at h ⊢
      split_ifs at h with hb
      have hcm : m = c := by simpa using h
      subst hcm
      simp only [hb]
      rfl

theorem step_of_not_adopted (env : Env) (w : World) (o : Owner) (rts : RailTypes)
    (ignore_oneway : Bool) (a start : PFPos)
    (h : adoptedCandidate env w o rts ignore_oneway a = none) :
    ∃ r, FollowReservationStep env w o rts ignore_oneway a start = LoopStep.stop r := by
  unfold adoptedCandidate at h
  unfold FollowReservationStep
  cases hft : env.Follow o rts a with
  | none => exact ⟨a, rfl⟩
  | some ft =>
    simp only [hft] at h ⊢
    cases hrc : reservedCandidate env w a ft with
    | inl r => exact ⟨r, rfl⟩
    | inr m =>
      simp only [hrc] at h ⊢
      split_ifs at h with hb
      exact ⟨a, by simp [hb]⟩

/-- C8, as stated, fails: from the reserved position on tile 7 the next reserved
candidate is on the rail depot tile 20; the walk stops there, and the position
returned is the candidate on the depot tile, not the position held before it. -/
theorem FollowReservation_depot_counterexample :
    HasReservedPos depotEnv depotWorld (PFPos.onTile 7 0) = true ∧
    adoptedCandidate depotEnv depotWorld 0 1 false (PFPos.onTile 7 0)
      = some (PFPos.onTile 20 0) ∧
    IsRailDepotTile depotWorld 20 = true ∧
    FollowReservation depotEnv depotWorld 3 0 1 (PFPos.onTile 7 0) false
      = some (PFPos.onTile 20 0) ∧
    PFPos.onTile 20 0 ≠ PFPos.onTile 7 0 := by
  decide

/-- C8, amended. When the walk stands on `cur` and the candidate `c` it adopts
equals the first visited position, is on a rail depot tile, or carries a non-PBS
signal along the direction of travel, the walk stops and returns the candidate
`c` itself: the candidate is assigned to `cur` before the three tests are made. -/
theorem FollowReservation_stops_on_candidate (env : Env) (w : World) (o : Owner)
    (rts : RailTypes) (ignore_oneway : Bool) (cur start c : PFPos) (fuel : Nat)
    (hadopt : Adopts env w o rts ignore_oneway cur c)
    (hstop : (start.tile ≠ INVALID_TILE ∧ c = start) ∨ StopsReservation env w c) :
    FollowReservationLoop env w o rts ignore_oneway (fuel + 1) cur start = some c := by
  have hstep := step_of_adopted env w o rts ignore_oneway cur c start
    (adoptedCandidate_of_adopts env w o rts ignore_oneway cur c hadopt)
  have hres : FollowReservationStep env w o rts ignore_oneway cur start = LoopStep.stop c := by
    rw [hstep]
    by_cases hinv : start.tile = INVALID_TILE
    · rcases hstop with ⟨h1, _⟩ | h
      · exact absurd hinv h1
      · simp [hinv, terminalChecks_stop env w c c h]
    · have hinv2 : (start.tile == INVALID_TILE) = false := by simpa using hinv
      rw [hinv2]
      by_cases hcs : c = start
      · simp [hcs]
      · rcases hstop with ⟨_, h2⟩ | h
        · exact absurd h2 hcs
        · simp [hcs, terminalChecks_stop env w c start h]
  simp only [FollowReservationLoop, hres]

/-- Witness of C8, amended: the walk from tile 7 adopts the candidate on the rail
depot tile 20 and returns it. -/
theorem FollowReservation_stops_on_candidate_witness :
    Adopts depotEnv depotWorld 0 1 false (PFPos.onTile 7 0) (PFPos.onTile 20 0) ∧
    StopsReservation depotEnv depotWorld (PFPos.onTile 20 0) ∧
    FollowReservationLoop depotEnv depotWorld 0 1 false (2 + 1) (PFPos.onTile 7 0) PFPos.invalid
      = some (PFPos.onTile 20 0) :=
  ⟨adopts_of_adoptedCandidate _ _ _ _ _ _ _ (by decide), Or.inl (by decide),
    FollowReservation_stops_on_candidate depotEnv depotWorld 0 1 false (PFPos.onTile 7 0)
      PFPos.invalid (PFPos.onTile 20 0) 2
      (adopts_of_adoptedCandidate _ _ _ _ _ _ _ (by decide)) (Or.inr (Or.inl (by decide)))⟩

theorem step_of_end (env : Env) (w : World) (o : Owner) (rts : RailTypes)
    (ignore_oneway : Bool) (a start : PFPos) (h : NoReservedSuccessor env w o rts a) :
    FollowReservationStep env w o rts ignore_oneway a start = LoopStep.stop a := by
  unfold FollowReservationStep
  cases hft : env.Follow o rts a with
  | none => rfl
  | some ft =>
    obtain ⟨hworm, htile⟩ := h ft hft
    have hrc : reservedCandidate env w a ft = Sum.inl a := by
      unfold reservedCandidate
      cases hw : ft.m_new.pos.InWormhole
      · obtain ⟨hz, hskip⟩ := htile hw
        simp only [Bool.false_eq_true, if_false, hz, beq_self_eq_true, if_true]
        by_cases hst : ft.m_flag = TileFlag.TF_STATION
        · have hnone : stationBackscan w (env.TileOffsByDiagDir ft.m_exitdir)
              ft.m_tiles_skipped.toNat ft.m_new.pos = none := by
            apply stationBackscan_none
            intro k hk1 hk2
            exact hskip hst k hk1 (by omega)
          simp [hst, hnone]
        · simp [hst]
      · simp [hworm hw]
    simp only [hrc]

theorem step_stop_on_candidate (env : Env) (w : World) (o : Owner)
    (rts : RailTypes) (ignore_oneway : Bool) (cur start c : PFPos)
    (hadopt : Adopts env w o rts ignore_oneway cur c)
    (hstop : (start.tile ≠ INVALID_TILE ∧ c = start) ∨ StopsReservation env w c) :
    FollowReservationStep env w o rts ignore_oneway cur start = LoopStep.stop c := by
  rw [step_of_adopted env w o rts ignore_oneway cur c start
    (adoptedCandidate_of_adopts env w o rts ignore_oneway cur c hadopt)]
  by_cases hinv : start.tile = INVALID_TILE
  · rcases hstop with ⟨h1, _⟩ | h
    · exact absurd hinv h1
    · simp [hinv, terminalChecks_stop env w c c h]
  · have hinv2 : (start.tile == INVALID_TILE) = false := by simpa using hinv
    rw [hinv2]
    by_cases hcs : c = start
    · simp [hcs]
    · rcases hstop with ⟨_, h2⟩ | h
      · exact absurd h2 hcs
      · simp [hcs, terminalChecks_stop env w c start h]

theorem loop_along_chain (env : Env) (w : World) (o : Owner) (rts : RailTypes)
    (ignore_oneway : Bool) :
    ∀ (ps : List PFPos) (cur start : PFPos),
      List.Chain (fun a b => Adopts env w o rts ignore_oneway a b ∧
        ¬ StopsReservation env w b) cur ps →
      ps.Nodup →
      (start.tile = INVALID_TILE ∨ start ∉ ps) →
      ∃ s2, (start.tile ≠ INVALID_TILE → s2 = start) ∧
        ∀ f, FollowReservationLoop env w o rts ignore_oneway (ps.length + f) cur start =
          FollowReservationLoop env w o rts ignore_oneway f
            ((cur :: ps).getLast (List.cons_ne_nil cur ps)) s2 := by
  intro ps
  induction ps with
  | nil =>
    intro cur start _ _ _
    exact ⟨start, fun _ => rfl, fun f => by simp⟩
  | cons c rest ih =>
    intro cur start hchain hnodup hstart
    rw [List.chain_cons] at hchain
    obtain ⟨⟨hadopt, hgo⟩, hrest⟩ := hchain
    rw [List.nodup_cons] at hnodup
    obtain ⟨hc, hnd⟩ := hnodup
    have hstep := step_of_adopted env w o rts ignore_oneway cur c start
      (adoptedCandidate_of_adopts env w o rts ignore_oneway cur c hadopt)
    have hlast : (cur :: c :: rest).getLast (List.cons_ne_nil cur (c :: rest)) =
        (c :: rest).getLast (List.cons_ne_nil c rest) := List.getLast_cons _
    have hlen : ∀ f, (c :: rest).length + f = (rest.length + f) + 1 := by
      intro f; simp; omega
    by_cases hinv : start.tile = INVALID_TILE
    · have hs : FollowReservationStep env w o rts ignore_oneway cur start
          = LoopStep.next c c := by
        rw [hstep]
        simp [hinv, terminalChecks_next env w c c hgo]
      obtain ⟨s2, _, h2⟩ := ih c c hrest hnd (Or.inr hc)
      refine ⟨s2, fun h => absurd hinv h, fun f => ?_⟩
      rw [hlen f, hlast]
      simp only [FollowReservationLoop, hs]
      exact h2 f
    · have hne : start ∉ c :: rest := by
        rcases hstart with h | h
        · exact absurd h hinv
        · exact h
      have hcs : c ≠ start := fun h => hne (by rw [h]; exact List.mem_cons_self _ _)
      have hs : FollowReservationStep env w o rts ignore_oneway cur start
          = LoopStep.next c start := by
        rw [hstep]
        simp [hinv, hcs, terminalChecks_next env w c start hgo]
      obtain ⟨s2, h1, h2⟩ := ih c start hrest hnd
        (Or.inr (fun h => hne (List.mem_cons_of_mem _ h)))
      refine ⟨s2, h1, fun f => ?_⟩
      rw [hlen f, hlast]
      simp only [FollowReservationLoop, hs]
      exact h2 f

/-- C7. On a finite loop-free reserved chain `p0 -> p1 -> ... -> pn` (each
position the reserved successor of the one before it, none of `p1 ... pn` on a
depot tile, with a non-PBS signal along travel or behind a blocking one-way
signal) whose last position has no reserved successor, `FollowReservation`
started at `p0` returns `pn`. -/
theorem FollowReservation_chain (env : Env) (w : World) (o : Owner) (rts : RailTypes)
    (ignore_oneway : Bool) (p0 : PFPos) (ps : List PFPos) (fuel : Nat)
    (hchain : List.Chain (fun a b => Adopts env w o rts ignore_oneway a b ∧
      ¬ StopsReservation env w b) p0 ps)
    (hnodup : (p0 :: ps).Nodup)
    (hend : NoReservedSuccessor env w o rts ((p0 :: ps).getLast (List.cons_ne_nil p0 ps)))
    (hfuel : ps.length + 1 ≤ fuel) :
    FollowReservation env w fuel o rts p0 ignore_oneway
      = some ((p0 :: ps).getLast (List.cons_ne_nil p0 ps)) := by
  unfold FollowReservation
  obtain ⟨s2, _, h2⟩ := loop_along_chain env w o rts ignore_oneway ps p0 PFPos.invalid hchain
    (List.nodup_cons.mp hnodup).2 (Or.inl rfl)
  obtain ⟨f, rfl⟩ : ∃ f, fuel = ps.length + (f + 1) := ⟨fuel - ps.length - 1, by omega⟩
  rw [h2 (f + 1)]
  simp only [FollowReservationLoop, step_of_end env w o rts ignore_oneway _ s2 hend]

/-- Witness of C7: on the line 1, 2, 3, 4 with the tiles 1, 2 and 3 reserved, the
walk from tile 1 returns the position on tile 3. -/
theorem FollowReservation_chain_witness :
    FollowReservation lineEnv lineWorld 3 0 1 (PFPos.onTile 1 0) false
      = some (PFPos.onTile 3 0) :=
  FollowReservation_chain lineEnv lineWorld 0 1 false (PFPos.onTile 1 0)
    [PFPos.onTile 2 0, PFPos.onTile 3 0] 3
    (List.Chain.cons ⟨adopts_of_adoptedCandidate _ _ _ _ _ _ _ (by decide), by decide⟩
      (List.Chain.cons ⟨adopts_of_adoptedCandidate _ _ _ _ _ _ _ (by decide), by decide⟩
        List.Chain.nil))
    (by decide)
    (by
      intro ft hft
      have hft2 : ft = landOn 4 1 := by
        have h : lineEnv.Follow 0 1 (PFPos.onTile 3 0) = some (landOn 4 1) := by decide
        rw [List.getLast_cons (List.cons_ne_nil _ _), List.getLast_cons (List.cons_ne_nil _ _),
          List.getLast_singleton, h] at hft
        exact (Option.some.inj hft).symm
      subst hft2
      refine ⟨fun h => absurd h (by decide), fun _ => ⟨by decide, fun h => absurd h (by decide)⟩⟩)
    (by decide)

/-! ### Termination -/

theorem loop_succ (env : Env) (w : World) (o : Owner) (rts : RailTypes)
    (ignore_oneway : Bool) (fuel : Nat) (cur start : PFPos) :
    FollowReservationLoop env w o rts ignore_oneway (fuel + 1) cur start =
      match FollowReservationStep env w o rts ignore_oneway cur start with
      | LoopStep.stop r => some r
      | LoopStep.next cur start => FollowReservationLoop env w o rts ignore_oneway fuel cur start :=
  rfl

theorem rho_cycle_runs_forever :
    ∀ fuel : Nat,
      FollowReservationLoop rhoEnv rhoWorld 0 1 false fuel (PFPos.onTile 102 0)
        (PFPos.onTile 101 2) = none ∧
      FollowReservationLoop rhoEnv rhoWorld 0 1 false fuel (PFPos.onTile 103 0)
        (PFPos.onTile 101 2) = none ∧
      FollowReservationLoop rhoEnv rhoWorld 0 1 false fuel (PFPos.onTile 101 13)
        (PFPos.onTile 101 2) = none := by
  intro fuel
  induction fuel with
  | zero => exact ⟨rfl, rfl, rfl⟩
  | succ n ih =>
    obtain ⟨h1, h2, h3⟩ := ih
    have s1 : FollowReservationStep rhoEnv rhoWorld 0 1 false (PFPos.onTile 102 0)
        (PFPos.onTile 101 2) = LoopStep.next (PFPos.onTile 103 0) (PFPos.onTile 101 2) := by
      decide
    have s2 : FollowReservationStep rhoEnv rhoWorld 0 1 false (PFPos.onTile 103 0)
        (PFPos.onTile 101 2) = LoopStep.next (PFPos.onTile 101 13) (PFPos.onTile 101 2) := by
      decide
    have s3 : FollowReservationStep rhoEnv rhoWorld 0 1 false (PFPos.onTile 101 13)
        (PFPos.onTile 101 2) = LoopStep.next (PFPos.onTile 102 0) (PFPos.onTile 101 2) := by
      decide
    refine ⟨?_, ?_, ?_⟩
    · simp only [FollowReservationLoop, s1]; exact h2
    · simp only [FollowReservationLoop, s2]; exact h3
    · simp only [FollowReservationLoop, s3]; exact h1

/-- C6, as stated, fails: on the four-tile map `rhoMap` with every track
reserved, the walk from the reserved position on tile 100 visits (101, 2) first
and then runs round the cycle (102, 0), (103, 0), (101, 13), which never comes
back to the first visited position; the loop is not left for any number of
rounds. -/
theorem FollowReservation_cycle_counterexample :
    HasReservedPos rhoEnv rhoWorld (PFPos.onTile 100 0) = true ∧
    ∀ fuel : Nat,
      FollowReservation rhoEnv rhoWorld fuel 0 1 (PFPos.onTile 100 0) false = none := by
  refine ⟨by decide, ?_⟩
  intro fuel
  have s0 : FollowReservationStep rhoEnv rhoWorld 0 1 false (PFPos.onTile 100 0)
      PFPos.invalid = LoopStep.next (PFPos.onTile 101 2) (PFPos.onTile 101 2) := by
    decide
  have s1 : FollowReservationStep rhoEnv rhoWorld 0 1 false (PFPos.onTile 101 2)
      (PFPos.onTile 101 2) = LoopStep.next (PFPos.onTile 102 0) (PFPos.onTile 101 2) := by
    decide
  unfold FollowReservation
  cases fuel with
  | zero => rfl
  | succ n =>
    simp only [FollowReservationLoop, s0]
    cases n with
    | zero => rfl
    | succ m =>
      simp only [FollowReservationLoop, s1]
      exact (rho_cycle_runs_forever m).1

theorem loop_terminates (env : Env) (w : World) (o : Owner) (rts : RailTypes)
    (ignore_oneway : Bool) (L : List PFPos) (start : PFPos)
    (hstart : start.tile ≠ INVALID_TILE)
    (hclosed : ∀ a c, a ∈ L → Adopts env w o rts ignore_oneway a c → c ∈ L)
    (hinj : ∀ a b c, a ∈ L → b ∈ L → Adopts env w o rts ignore_oneway a c →
      Adopts env w o rts ignore_oneway b c → a = b) :
    ∀ (fuel : Nat) (visited : List PFPos) (cur : PFPos),
      visited.Nodup → (∀ x ∈ visited, x ∈ L) → cur ∈ visited →
      (∀ x ∈ visited, x ≠ start →
        ∃ y ∈ visited, y ≠ cur ∧ Adopts env w o rts ignore_oneway y x) →
      L.length + 1 ≤ visited.length + fuel →
      ∃ r, FollowReservationLoop env w o rts ignore_oneway fuel cur start = some r := by
  intro fuel
  induction fuel with
  | zero =>
    intro visited cur hnd hsub _ _ hlen
    have := (List.subperm_of_subset hnd hsub).length_le
    omega
  | succ n ih =>
    intro visited cur hnd hsub hcur hpred hlen
    cases hac : adoptedCandidate env w o rts ignore_oneway cur with
    | none =>
      obtain ⟨r, hr⟩ := step_of_not_adopted env w o rts ignore_oneway cur start hac
      exact ⟨r, by simp only [FollowReservationLoop, hr]⟩
    | some c =>
      have hadopt := adopts_of_adoptedCandidate env w o rts ignore_oneway cur c hac
      by_cases hstop : (start.tile ≠ INVALID_TILE ∧ c = start) ∨ StopsReservation env w c
      · exact ⟨c, by
          simp only [FollowReservationLoop,
            step_stop_on_candidate env w o rts ignore_oneway cur start c hadopt hstop]⟩
      · push_neg at hstop
        obtain ⟨hcs, hgo⟩ := hstop
        have hcs2 : c ≠ start := hcs hstart
        have hs : FollowReservationStep env w o rts ignore_oneway cur start
            = LoopStep.next c start := by
          rw [step_of_adopted env w o rts ignore_oneway cur c start hac]
          simp [hstart, hcs2, terminalChecks_next env w c start hgo]
        have hcnew : c ∉ visited := by
          intro hcv
          obtain ⟨y, hy, hne, hyc⟩ := hpred c hcv hcs2
          exact hne (hinj y cur c (hsub y hy) (hsub cur hcur) hyc hadopt)
        obtain ⟨r, hr⟩ := ih (c :: visited) c (List.nodup_cons.mpr ⟨hcnew, hnd⟩)
          (by
            intro x hx
            rcases List.mem_cons.mp hx with rfl | hx
            · exact hclosed cur _ (hsub cur hcur) hadopt
            · exact hsub x hx)
          (List.mem_cons_self _ _)
          (by
            intro x hx hxs
            rcases List.mem_cons.mp hx with rfl | hx
            · exact ⟨cur, List.mem_cons_of_mem _ hcur, fun h => hcnew (h ▸ hcur), hadopt⟩
            · obtain ⟨y, hy, _, hyx⟩ := hpred x hx hxs
              exact ⟨y, List.mem_cons_of_mem _ hy, fun h => hcnew (h ▸ hy), hyx⟩)
          (by simp only [List.length_cons]; omega)
        exact ⟨r, by simp only [FollowReservationLoop, hs]; exact hr⟩

/-- C6, amended. Let `L` be a finite set of positions that contains the start
position and is closed under the adoption step of the walk, in which adopted
positions have a valid tile and no position is adopted from two different
positions (as is the case when no two reserved tracks of a tile meet). Then the
loop of `FollowReservation` is left after at most `|L| + 1` rounds. And on a
reserved chain `pos -> c1 -> ... -> cn -> c1` that loops back to the first
position visited, the walk stops when it reaches that position again and
returns it. -/
theorem FollowReservation_terminates (env : Env) (w : World) (o : Owner) (rts : RailTypes)
    (ignore_oneway : Bool) (pos : PFPos) :
    (∀ L : List PFPos, pos ∈ L →
      (∀ a c, a ∈ L → Adopts env w o rts ignore_oneway a c →
        c ∈ L ∧ c.tile ≠ INVALID_TILE) →
      (∀ a b c, a ∈ L → b ∈ L → Adopts env w o rts ignore_oneway a c →
        Adopts env w o rts ignore_oneway b c → a = b) →
      ∃ r, FollowReservation env w (L.length + 1) o rts pos ignore_oneway = some r) ∧
    (∀ (c1 : PFPos) (ps : List PFPos) (fuel : Nat),
      Adopts env w o rts ignore_oneway pos c1 → ¬ StopsReservation env w c1 →
      c1.tile ≠ INVALID_TILE →
      List.Chain (fun a b => Adopts env w o rts ignore_oneway a b ∧
        ¬ StopsReservation env w b) c1 ps →
      (c1 :: ps).Nodup →
      Adopts env w o rts ignore_oneway ((c1 :: ps).getLast (List.cons_ne_nil c1 ps)) c1 →
      ps.length + 2 ≤ fuel →
      FollowReservation env w fuel o rts pos ignore_oneway = some c1) := by
  constructor
  · intro L hpos hclosed hinj
    unfold FollowReservation
    cases hac : adoptedCandidate env w o rts ignore_oneway pos with
    | none =>
      obtain ⟨r, hr⟩ := step_of_not_adopted env w o rts ignore_oneway pos PFPos.invalid hac
      exact ⟨r, by simp only [FollowReservationLoop, hr]⟩
    | some c =>
      have hadopt := adopts_of_adoptedCandidate env w o rts ignore_oneway pos c hac
      obtain ⟨hcL, hcv⟩ := hclosed pos c hpos hadopt
      by_cases hgo : StopsReservation env w c
      · exact ⟨c, by
          simp only [FollowReservationLoop,
            step_stop_on_candidate env w o rts ignore_oneway pos PFPos.invalid c hadopt
              (Or.inr hgo)]⟩
      · have hs : FollowReservationStep env w o rts ignore_oneway pos PFPos.invalid
            = LoopStep.next c c := by
          rw [step_of_adopted env w o rts ignore_oneway pos c PFPos.invalid hac]
          simp [PFPos.invalid, terminalChecks_next env w c c hgo]
        obtain ⟨r, hr⟩ := loop_terminates env w o rts ignore_oneway L c hcv
          (fun a c2 ha h => (hclosed a c2 ha h).1) hinj L.length [c] c
          (List.nodup_singleton c)
          (by intro x hx; rw [List.mem_singleton.mp hx]; exact hcL)
          (List.mem_singleton_self c)
          (by intro x hx hxs; exact absurd (List.mem_singleton.mp hx) hxs)
          (by simp; omega)
        exact ⟨r, by simp only [FollowReservationLoop, hs]; exact hr⟩
  · intro c1 ps fuel hadopt hgo hvalid hchain hnodup hback hfuel
    unfold FollowReservation
    obtain ⟨f, rfl⟩ : ∃ f, fuel = (ps.length + (f + 1)) + 1 :=
      ⟨fuel - ps.length - 2, by omega⟩
    have hs : FollowReservationStep env w o rts ignore_oneway pos PFPos.invalid
        = LoopStep.next c1 c1 := by
      rw [step_of_adopted env w o rts ignore_oneway pos c1 PFPos.invalid
        (adoptedCandidate_of_adopts env w o rts ignore_oneway pos c1 hadopt)]
      simp [PFPos.invalid, terminalChecks_next env w c1 c1 hgo]
    obtain ⟨hc1, hnd⟩ := List.nodup_cons.mp hnodup
    obtain ⟨s2, hs2, hrun⟩ := loop_along_chain env w o rts ignore_oneway ps c1 c1 hchain hnd
      (Or.inr hc1)
    have hs2e : s2 = c1 := hs2 hvalid
    subst hs2e
    rw [loop_succ, hs]
    show FollowReservationLoop env w o rts ignore_oneway (ps.length + (f + 1)) s2 s2 = some s2
    rw [hrun (f + 1), loop_succ,
      step_stop_on_candidate env w o rts ignore_oneway _ s2 s2 hback (Or.inl ⟨hvalid, rfl⟩)]

theorem adopts_closed_of_check (env : Env) (w : World) (o : Owner) (rts : RailTypes)
    (ignore_oneway : Bool) (L : List PFPos)
    (h : ∀ a ∈ L, ∀ c, adoptedCandidate env w o rts ignore_oneway a = some c →
      c ∈ L ∧ c.tile ≠ INVALID_TILE) :
    ∀ a c, a ∈ L → Adopts env w o rts ignore_oneway a c → c ∈ L ∧ c.tile ≠ INVALID_TILE :=
  fun a c ha hadopt =>
    h a ha c (adoptedCandidate_of_adopts env w o rts ignore_oneway a c hadopt)

theorem adopts_injective_of_check (env : Env) (w : World) (o : Owner) (rts : RailTypes)
    (ignore_oneway : Bool) (L : List PFPos)
    (h : ∀ a ∈ L, ∀ b ∈ L, adoptedCandidate env w o rts ignore_oneway a =
        adoptedCandidate env w o rts ignore_oneway b →
      adoptedCandidate env w o rts ignore_oneway a ≠ none → a = b) :
    ∀ a b c, a ∈ L → b ∈ L → Adopts env w o rts ignore_oneway a c →
      Adopts env w o rts ignore_oneway b c → a = b := by
  intro a b c ha hb h1 h2
  have e1 := adoptedCandidate_of_adopts env w o rts ignore_oneway a c h1
  have e2 := adoptedCandidate_of_adopts env w o rts ignore_oneway b c h2
  exact h a ha b hb (by rw [e1, e2]) (by rw [e1]; exact Option.some_ne_none c)

/-- Witness of C6, amended: on the ring 1, 2, 3, 4 with every tile reserved the
walk from tile 1 is over within five rounds, and it returns the position on
tile 2, the first one it visited, when it reaches it for the second time. -/
theorem FollowReservation_terminates_witness :
    (∃ r, FollowReservation ringEnv ringWorld (ringPositions.length + 1) 0 1
      (PFPos.onTile 1 0) false = some r) ∧
    FollowReservation ringEnv ringWorld 5 0 1 (PFPos.onTile 1 0) false
      = some (PFPos.onTile 2 0) :=
  ⟨(FollowReservation_terminates ringEnv ringWorld 0 1 false (PFPos.onTile 1 0)).1
      ringPositions (by decide)
      (adopts_closed_of_check ringEnv ringWorld 0 1 false ringPositions (by
        intro a ha c hc
        simp only [ringPositions, List.mem_cons, List.mem_singleton, List.not_mem_nil,
          or_false] at ha
        rcases ha with rfl | rfl | rfl | rfl
        · have e : c = PFPos.onTile 2 0 := Option.some.inj (hc.symm.trans (by decide))
          subst e; decide
        · have e : c = PFPos.onTile 3 0 := Option.some.inj (hc.symm.trans (by decide))
          subst e; decide
        · have e : c = PFPos.onTile 4 0 := Option.some.inj (hc.symm.trans (by decide))
          subst e; decide
        · have e : c = PFPos.onTile 1 0 := Option.some.inj (hc.symm.trans (by decide))
          subst e; decide))
      (adopts_injective_of_check ringEnv ringWorld 0 1 false ringPositions (by decide)),
    (FollowReservation_terminates ringEnv ringWorld 0 1 false (PFPos.onTile 1 0)).2
      (PFPos.onTile 2 0) [PFPos.onTile 3 0, PFPos.onTile 4 0, PFPos.onTile 1 0] 5
      (adopts_of_adoptedCandidate _ _ _ _ _ _ _ (by decide)) (by decide) (by decide)
      (List.Chain.cons ⟨adopts_of_adoptedCandidate _ _ _ _ _ _ _ (by decide), by decide⟩
        (List.Chain.cons ⟨adopts_of_adoptedCandidate _ _ _ _ _ _ _ (by decide), by decide⟩
          (List.Chain.cons ⟨adopts_of_adoptedCandidate _ _ _ _ _ _ _ (by decide), by decide⟩
            List.Chain.nil)))
      (by decide) (adopts_of_adoptedCandidate _ _ _ _ _ _ _ (by decide)) (by decide)⟩

/-! ## Locating the train -/

theorem recordBest_pos (t : VehicleID) (info : FindTrainOnTrackInfo) :
    (recordBest t info).pos = info.pos := by
  unfold recordBest
  cases info.best with
  | none => rfl
  | some b => dsimp only; split_ifs <;> rfl

theorem recordBest_comm (t1 t2 : Nat) (info : FindTrainOnTrackInfo) :
    recordBest t1 (recordBest t2 info) = recordBest t2 (recordBest t1 info) := by
  obtain ⟨pos, best⟩ := info
  cases best with
  | none =>
    have h : ∀ a b : Nat, recordBest a (recordBest b { pos := pos, best := none }) =
        { pos := pos, best := some (min a b) } := by
      intro a b
      simp only [recordBest]
      by_cases hab : a < b
      · simp [hab, Nat.min_eq_left (Nat.le_of_lt hab)]
      · simp [hab, Nat.min_eq_right (Nat.le_of_not_lt hab)]
    rw [h, h, Nat.min_comm]
  | some c =>
    have h : ∀ a b : Nat, recordBest a (recordBest b { pos := pos, best := some c }) =
        { pos := pos, best := some (min a (min b c)) } := by
      intro a b
      simp only [recordBest]
      by_cases hbc : b < c
      · simp only [hbc, if_true, Nat.min_eq_left (Nat.le_of_lt hbc)]
        by_cases hab : a < b
        · simp [hab, Nat.min_eq_left (Nat.le_of_lt hab)]
        · simp [hab, Nat.min_eq_right (Nat.le_of_not_lt hab)]
      · simp only [hbc, if_false, Nat.min_eq_right (Nat.le_of_not_lt hbc)]
        by_cases hac : a < c
        · simp [hac, Nat.min_eq_left (Nat.le_of_lt hac)]
        · simp [hac, Nat.min_eq_right (Nat.le_of_not_lt hac)]
    rw [h, h, ← Nat.min_assoc, Nat.min_comm t1 t2, Nat.min_assoc]

theorem scanBest_pos (accept : Vehicle → Bool) (l : List Vehicle) :
    ∀ info, (scanBest accept l info).pos = info.pos := by
  induction l with
  | nil => intro info; rfl
  | cons v rest ih =>
    intro info
    simp only [scanBest, List.foldl_cons]
    have := ih (if accept v then recordBest v.first info else info)
    simp only [scanBest] at this
    rw [this]
    split_ifs
    · exact recordBest_pos _ _
    · rfl

theorem scanBest_perm (accept : Vehicle → Bool) (l1 l2 : List Vehicle) (h : l1.Perm l2)
    (info : FindTrainOnTrackInfo) : scanBest accept l1 info = scanBest accept l2 info := by
  unfold scanBest
  apply List.Perm.foldl_eq' h
  intro x _ y _ z
  by_cases hx : accept x <;> by_cases hy : accept y <;> simp [hx, hy]
  exact recordBest_comm _ _ _

theorem FindVehicleOnPos_track (env : Env) (vs : List Vehicle) (tile : TileIndex)
    (info : FindTrainOnTrackInfo) :
    FindVehicleOnPos vs tile info (FindTrainOnTrackEnum env) =
      scanBest (acceptOnTrack env info.pos.td) (vs.filter (fun v => v.tile == tile)) info := by
  unfold FindVehicleOnPos scanBest
  generalize vs.filter (fun v => v.tile == tile) = l
  have key : ∀ (l : List Vehicle) (acc : FindTrainOnTrackInfo), acc.pos = info.pos →
      l.foldl (fun acc v => (FindTrainOnTrackEnum env v acc).2) acc =
      l.foldl (fun acc v => if acceptOnTrack env info.pos.td v then recordBest v.first acc
        else acc) acc := by
    intro l
    induction l with
    | nil => intro acc _; rfl
    | cons v rest ih =>
      intro acc hacc
      simp only [List.foldl_cons]
      have hstep : (FindTrainOnTrackEnum env v acc).2 =
          if acceptOnTrack env info.pos.td v then recordBest v.first acc else acc := by
        unfold FindTrainOnTrackEnum acceptOnTrack
        rw [hacc]
        by_cases h1 : (v.type != VehicleType.VEH_TRAIN || (v.vehstatus &&& VS_CRASHED) != 0)
            = true
        · simp [h1]
        · by_cases h2 : (env.TrackdirToTrack v.trackdir != env.TrackdirToTrack info.pos.td)
              = true
          · simp [h1, h2]
          · simp [h1, h2]
      rw [hstep]
      apply ih
      split_ifs
      · rw [recordBest_pos]; exact hacc
      · exact hacc
  exact key l info rfl

theorem FindVehicleOnPos_wormhole (env : Env) (vs : List Vehicle) (tile : TileIndex)
    (info : FindTrainOnTrackInfo) :
    FindVehicleOnPos vs tile info (FindTrainInWormholeEnum env) =
      scanBest (acceptInWormhole env) (vs.filter (fun v => v.tile == tile)) info := by
  unfold FindVehicleOnPos scanBest
  congr 1
  funext acc v
  unfold FindTrainInWormholeEnum acceptInWormhole
  by_cases h1 : (v.type != VehicleType.VEH_TRAIN || (v.vehstatus &&& VS_CRASHED) != 0) = true
  · simp [h1]
  · by_cases h2 : (v.trackdir != env.TRACKDIR_WORMHOLE) = true
    · simp [h1, h2]
    · simp [h1, h2]

theorem recordBest_spec (t : Nat) (info : FindTrainOnTrackInfo) :
    ∃ m, (recordBest t info).best = some m ∧ m ≤ t ∧ (m = t ∨ info.best = some m) ∧
      ∀ b, info.best = some b → m ≤ b := by
  obtain ⟨pos, best⟩ := info
  cases best with
  | none => exact ⟨t, rfl, le_refl t, Or.inl rfl, fun b hb => by simp at hb⟩
  | some c =>
    by_cases htc : t < c
    · refine ⟨t, by simp [recordBest, htc], le_refl t, Or.inl rfl, fun b hb => ?_⟩
      have hcb : c = b := by simpa using hb
      subst hcb
      exact Nat.le_of_lt htc
    · refine ⟨c, by simp [recordBest, htc], Nat.le_of_not_lt htc, Or.inr rfl, fun b hb => ?_⟩
      have hcb : c = b := by simpa using hb
      subst hcb
      exact le_refl _

theorem scanBest_spec (accept : Vehicle → Bool) (l : List Vehicle) :
    ∀ info : FindTrainOnTrackInfo,
      (∀ m, (scanBest accept l info).best = some m →
        (info.best = some m ∨ ∃ v ∈ l, accept v = true ∧ v.first = m) ∧
        (∀ v ∈ l, accept v = true → m ≤ v.first) ∧
        (∀ b, info.best = some b → m ≤ b)) ∧
      ((scanBest accept l info).best = none →
        info.best = none ∧ ∀ v ∈ l, accept v = false) := by
  induction l with
  | nil =>
    intro info
    refine ⟨fun m hm => ⟨Or.inl hm, fun v hv => by simp at hv, fun b hb => ?_⟩,
      fun h => ⟨h, fun v hv => by simp at hv⟩⟩
    have hm2 : info.best = some m := hm
    rw [hm2] at hb
    have hmb : m = b := by simpa using hb
    subst hmb
    exact le_refl _
  | cons v rest ih =>
    intro info
    have hunfold : scanBest accept (v :: rest) info =
        scanBest accept rest (if accept v then recordBest v.first info else info) := rfl
    rw [hunfold]
    cases hv : accept v
    · obtain ⟨ih1, ih2⟩ := ih info
      simp only [Bool.false_eq_true, if_false]
      refine ⟨fun m hm => ?_, fun h => ?_⟩
      · obtain ⟨h1, h2, h3⟩ := ih1 m hm
        refine ⟨?_, ?_, h3⟩
        · rcases h1 with h1 | ⟨x, hx, hax, hfx⟩
          · exact Or.inl h1
          · exact Or.inr ⟨x, List.mem_cons_of_mem _ hx, hax, hfx⟩
        · intro x hx hax
          rcases List.mem_cons.mp hx with rfl | hx
          · rw [hv] at hax; exact absurd hax (by simp)
          · exact h2 x hx hax
      · obtain ⟨h1, h2⟩ := ih2 h
        refine ⟨h1, fun x hx => ?_⟩
        rcases List.mem_cons.mp hx with rfl | hx
        · exact hv
        · exact h2 x hx
    · obtain ⟨ih1, ih2⟩ := ih (recordBest v.first info)
      obtain ⟨b1, hb1, hle, hor, hmin⟩ := recordBest_spec v.first info
      simp only [if_true]
      refine ⟨fun m hm => ?_, fun h => ?_⟩
      · obtain ⟨h1, h2, h3⟩ := ih1 m hm
        have hmb : m ≤ b1 := h3 b1 hb1
        refine ⟨?_, ?_, fun b hb => le_trans hmb (hmin b hb)⟩
        · rcases h1 with h1 | ⟨x, hx, hax, hfx⟩
          · rw [hb1] at h1
            have hmb1 : b1 = m := by simpa using h1
            subst hmb1
            rcases hor with hor | hor
            · exact Or.inr ⟨v, List.mem_cons_self _ _, hv, hor.symm⟩
            · exact Or.inl hor
          · exact Or.inr ⟨x, List.mem_cons_of_mem _ hx, hax, hfx⟩
        · intro x hx hax
          rcases List.mem_cons.mp hx with rfl | hx
          · exact le_trans hmb hle
          · exact h2 x hx hax
      · obtain ⟨h1, _⟩ := ih2 h
        rw [hb1] at h1
        exact absurd h1 (by simp)

theorem FindVehicleOnPos_track_perm (env : Env) (vs vs2 : List Vehicle) (h : vs.Perm vs2)
    (tile : TileIndex) (info : FindTrainOnTrackInfo) :
    FindVehicleOnPos vs2 tile info (FindTrainOnTrackEnum env) =
      FindVehicleOnPos vs tile info (FindTrainOnTrackEnum env) := by
  rw [FindVehicleOnPos_track, FindVehicleOnPos_track]
  exact (scanBest_perm _ _ _ (h.filter _) info).symm

theorem FindVehicleOnPos_wormhole_perm (env : Env) (vs vs2 : List Vehicle) (h : vs.Perm vs2)
    (tile : TileIndex) (info : FindTrainOnTrackInfo) :
    FindVehicleOnPos vs2 tile info (FindTrainInWormholeEnum env) =
      FindVehicleOnPos vs tile info (FindTrainInWormholeEnum env) := by
  rw [FindVehicleOnPos_wormhole, FindVehicleOnPos_wormhole]
  exact (scanBest_perm _ _ _ (h.filter _) info).symm

theorem platformScan_perm (env : Env) (vs vs2 : List Vehicle) (h : vs.Perm vs2)
    (diff : TileIndexDiff) :
    ∀ (fuel : Nat) (tile : TileIndex) (info : FindTrainOnTrackInfo),
      platformScan env vs2 diff fuel tile info = platformScan env vs diff fuel tile info := by
  intro fuel
  induction fuel with
  | zero => intro tile info; rfl
  | succ n ih =>
    intro tile info
    simp only [platformScan, FindVehicleOnPos_track_perm env vs vs2 h, ih]

theorem FindTrainOnPathEnd_perm (env : Env) (w : World) (vs vs2 : List Vehicle)
    (h : vs.Perm vs2) (fuel : Nat) (info : FindTrainOnTrackInfo) :
    FindTrainOnPathEnd env w vs2 fuel info = FindTrainOnPathEnd env w vs fuel info := by
  simp only [FindTrainOnPathEnd, FindVehicleOnPos_track_perm env vs vs2 h,
    FindVehicleOnPos_wormhole_perm env vs vs2 h, platformScan_perm env vs vs2 h]

theorem GetTrainForReservation_perm (env : Env) (w : World) (vs vs2 : List Vehicle)
    (h : vs.Perm vs2) (fuel : Nat) (tile : TileIndex) (track : Track) :
    GetTrainForReservation env w vs2 fuel tile track =
      GetTrainForReservation env w vs fuel tile track := by
  simp only [GetTrainForReservation, reservationProbe, FindTrainOnPathEnd_perm env w vs vs2 h]

theorem qualifies_on_tile (env : Env) (pos : PFPos) (v : Vehicle)
    (hw : pos.InWormhole = false) :
    Qualifies env pos v ↔ (v.tile = pos.tile ∧ acceptOnTrack env pos.td v = true) := by
  unfold Qualifies acceptOnTrack Vehicle.Crashed
  simp only [hw, Bool.false_eq_true, if_false]
  cases v.type <;> simp
  tauto

theorem qualifies_in_wormhole (env : Env) (pos : PFPos) (v : Vehicle)
    (hw : pos.InWormhole = true) :
    Qualifies env pos v ↔ (v.tile = pos.wormhole ∧ acceptInWormhole env v = true) := by
  unfold Qualifies acceptInWormhole Vehicle.Crashed
  simp only [hw, if_true]
  cases v.type <;> simp
  tauto

theorem scanBest_found (accept : Vehicle → Bool) (l : List Vehicle) (pos : PFPos)
    (h : ∃ v ∈ l, accept v = true) :
    ∃ m, scanBest accept l { pos := pos, best := none } = { pos := pos, best := some m } ∧
      (∃ v ∈ l, accept v = true ∧ v.first = m) ∧ ∀ v ∈ l, accept v = true → m ≤ v.first := by
  obtain ⟨hsome, hnone⟩ := scanBest_spec accept l { pos := pos, best := none }
  have hpos := scanBest_pos accept l { pos := pos, best := none }
  cases hb : (scanBest accept l { pos := pos, best := none }).best with
  | none =>
    obtain ⟨v, hv, hav⟩ := h
    have := (hnone hb).2 v hv
    rw [hav] at this
    exact absurd this (by simp)
  | some m =>
    obtain ⟨h1, h2, _⟩ := hsome m hb
    refine ⟨m, ?_, ?_, h2⟩
    · generalize scanBest accept l { pos := pos, best := none } = r at hpos hb
      obtain ⟨rp, rb⟩ := r
      simp only at hpos hb
      rw [hpos, hb]
    · rcases h1 with h1 | h1
      · exact absurd h1 (by simp)
      · exact h1

theorem scanBest_idle (accept : Vehicle → Bool) (l : List Vehicle)
    (h : ∀ v ∈ l, accept v = false) (info : FindTrainOnTrackInfo) :
    scanBest accept l info = info := by
  induction l with
  | nil => rfl
  | cons v rest ih =>
    have hunfold : scanBest accept (v :: rest) info =
        scanBest accept rest (if accept v then recordBest v.first info else info) := rfl
    rw [hunfold, h v (List.mem_cons_self _ _)]
    exact ih (fun x hx => h x (List.mem_cons_of_mem _ hx))

theorem qualifies_other_end (env : Env) (pos : PFPos) (v : Vehicle) :
    QualifiesAtOtherEnd env pos v ↔
      (v.tile = env.GetOtherTunnelBridgeEnd pos.wormhole ∧ acceptInWormhole env v = true) := by
  unfold QualifiesAtOtherEnd acceptInWormhole Vehicle.Crashed
  cases v.type <;> simp
  tauto

theorem pathEnd_lowest (env : Env) (w : World) (vs : List Vehicle) (fuel : Nat) (pos : PFPos)
    (h : ∃ v ∈ vs, Qualifies env pos v) :
    ∃ m, FindTrainOnPathEnd env w vs fuel { pos := pos, best := none } =
        some { pos := pos, best := some m } ∧
      (∃ v ∈ vs, Qualifies env pos v ∧ v.first = m) ∧
      ∀ v ∈ vs, Qualifies env pos v → m ≤ v.first := by
  obtain ⟨v0, hv0, hq0⟩ := h
  cases hw : pos.InWormhole
  · have hq := fun v => qualifies_on_tile env pos v hw
    obtain ⟨m, hm, ⟨x, hx, hax, hfx⟩, hmin⟩ := scanBest_found (acceptOnTrack env pos.td)
      (vs.filter (fun v => v.tile == pos.tile)) pos
      ⟨v0, List.mem_filter.mpr ⟨hv0, by simpa using ((hq v0).mp hq0).1⟩, ((hq v0).mp hq0).2⟩
    refine ⟨m, ?_, ?_, ?_⟩
    · simp only [FindTrainOnPathEnd, hw, Bool.false_eq_true, if_false, FindVehicleOnPos_track,
        hm]
      simp
    · have hx2 := List.mem_filter.mp hx
      exact ⟨x, hx2.1, (hq x).mpr ⟨by simpa using hx2.2, hax⟩, hfx⟩
    · intro v hv hqv
      exact hmin v (List.mem_filter.mpr ⟨hv, by simpa using ((hq v).mp hqv).1⟩) ((hq v).mp hqv).2
  · have hq := fun v => qualifies_in_wormhole env pos v hw
    obtain ⟨m, hm, ⟨x, hx, hax, hfx⟩, hmin⟩ := scanBest_found (acceptInWormhole env)
      (vs.filter (fun v => v.tile == pos.wormhole)) pos
      ⟨v0, List.mem_filter.mpr ⟨hv0, by simpa using ((hq v0).mp hq0).1⟩, ((hq v0).mp hq0).2⟩
    refine ⟨m, ?_, ?_, ?_⟩
    · simp only [FindTrainOnPathEnd, hw, if_true, FindVehicleOnPos_wormhole, hm]
      simp
    · have hx2 := List.mem_filter.mp hx
      exact ⟨x, hx2.1, (hq x).mpr ⟨by simpa using hx2.2, hax⟩, hfx⟩
    · intro v hv hqv
      exact hmin v (List.mem_filter.mpr ⟨hv, by simpa using ((hq v).mp hqv).1⟩) ((hq v).mp hqv).2

theorem pathEnd_other_end (env : Env) (w : World) (vs : List Vehicle) (fuel : Nat)
    (pos : PFPos) (hw : pos.InWormhole = true)
    (hnear : ∀ v ∈ vs, ¬ Qualifies env pos v)
    (hfar : ∃ v ∈ vs, QualifiesAtOtherEnd env pos v) :
    ∃ m, FindTrainOnPathEnd env w vs fuel { pos := pos, best := none } =
        some { pos := pos, best := some m } ∧
      (∃ v ∈ vs, QualifiesAtOtherEnd env pos v ∧ v.first = m) ∧
      ∀ v ∈ vs, QualifiesAtOtherEnd env pos v → m ≤ v.first := by
  obtain ⟨v0, hv0, hq0⟩ := hfar
  have hq := fun v => qualifies_other_end env pos v
  have hidle : scanBest (acceptInWormhole env) (vs.filter (fun v => v.tile == pos.wormhole))
      { pos := pos, best := none } = { pos := pos, best := none } := by
    apply scanBest_idle
    intro v hv
    have hv2 := List.mem_filter.mp hv
    cases ha : acceptInWormhole env v
    · rfl
    · exact absurd ((qualifies_in_wormhole env pos v hw).mpr ⟨by simpa using hv2.2, ha⟩)
        (hnear v hv2.1)
  obtain ⟨m, hm, ⟨x, hx, hax, hfx⟩, hmin⟩ := scanBest_found (acceptInWormhole env)
    (vs.filter (fun v => v.tile == env.GetOtherTunnelBridgeEnd pos.wormhole)) pos
    ⟨v0, List.mem_filter.mpr ⟨hv0, by simpa using ((hq v0).mp hq0).1⟩, ((hq v0).mp hq0).2⟩
  refine ⟨m, ?_, ?_, ?_⟩
  · simp only [FindTrainOnPathEnd, hw, if_true, FindVehicleOnPos_wormhole, hidle, hm]
    simp
  · have hx2 := List.mem_filter.mp hx
    exact ⟨x, hx2.1, (hq x).mpr ⟨by simpa using hx2.2, hax⟩, hfx⟩
  · intro v hv hqv
    exact hmin v (List.mem_filter.mpr ⟨hv, by simpa using ((hq v).mp hqv).1⟩) ((hq v).mp hqv).2

theorem probe_lowest (env : Env) (w : World) (vs : List Vehicle) (fuel : Nat)
    (tile : TileIndex) (rts : RailTypes) (trackdir : Trackdir) (pos : PFPos)
    (hskip : skipsDirection env tile trackdir = false)
    (hwalk : FollowReservation env w fuel (env.GetTileOwner tile) rts
      (PFPos.onTile tile trackdir) true = some pos)
    (h : ∃ v ∈ vs, Qualifies env pos v) :
    ∃ m, reservationProbe env w vs fuel tile rts trackdir = some (some m) ∧
      (∃ v ∈ vs, Qualifies env pos v ∧ v.first = m) ∧
      ∀ v ∈ vs, Qualifies env pos v → m ≤ v.first := by
  obtain ⟨m, hm, hex, hmin⟩ := pathEnd_lowest env w vs fuel pos h
  refine ⟨m, ?_, hex, hmin⟩
  unfold skipsDirection at hskip
  simp only [reservationProbe, hskip, Bool.false_eq_true, if_false, hwalk, hm]

/-- C9, as stated, fails: three trains that are not crashed are in the wormhole
of the bridge between the tiles 30 and 40, the trains 6 and 4 on the end 30 and
the train 2 on the end 40. At the position on the end 30 the scan of that end
finds a train, the other end is not scanned, and the train recorded as best is
4 and not 2, for both orders of the two ends in the registry. -/
theorem FindTrainOnPathEnd_lowest_index_counterexample :
    (∀ v ∈ bridgeTrains, v.type = VehicleType.VEH_TRAIN ∧ ¬ v.Crashed ∧
      v.trackdir = bridgeEnv.TRACKDIR_WORMHOLE ∧ OnScannedTile bridgeEnv bridgePos v) ∧
    (∃ v ∈ bridgeTrains, v.first = 2) ∧
    FindTrainOnPathEnd bridgeEnv (worldOf sampleMap) bridgeTrains 0
      { pos := bridgePos, best := none } = some { pos := bridgePos, best := some 4 } ∧
    FindTrainOnPathEnd bridgeEnv (worldOf sampleMap) bridgeTrains.reverse 0
      { pos := bridgePos, best := none } = some { pos := bridgePos, best := some 4 } := by
  decide

/-- C9, amended. For every registry of vehicles and every order in which the
scan presents it, `FindTrainOnPathEnd` and `GetTrainForReservation` give the same
result. Whenever some vehicle qualifies at the end position (a train that is not
crashed, on the tile and track of the position, or in the wormhole and on the
wormhole end of the position), `FindTrainOnPathEnd` returns and records as best
the front vehicle with the lowest index among the fronts of these vehicles.
Trains in the wormhole that are on its other end are compared only when no
vehicle qualifies at the position, and then the lowest front index among them is
recorded. `GetTrainForReservation` returns the lowest front index among the
vehicles that qualify at the end of the forward direction when that direction
is not skipped, and likewise at the end of the reverse direction when the
forward direction gave no vehicle. -/
theorem FindTrainOnPathEnd_lowest_index (env : Env) (w : World) (vs vs2 : List Vehicle)
    (fuel : Nat) (hperm : vs.Perm vs2) :
    (∀ pos, FindTrainOnPathEnd env w vs2 fuel { pos := pos, best := none } =
      FindTrainOnPathEnd env w vs fuel { pos := pos, best := none }) ∧
    (∀ tile track, GetTrainForReservation env w vs2 fuel tile track =
      GetTrainForReservation env w vs fuel tile track) ∧
    (∀ pos, (∃ v ∈ vs, Qualifies env pos v) →
      ∃ m, FindTrainOnPathEnd env w vs fuel { pos := pos, best := none } =
          some { pos := pos, best := some m } ∧
        (∃ v ∈ vs, Qualifies env pos v ∧ v.first = m) ∧
        ∀ v ∈ vs, Qualifies env pos v → m ≤ v.first) ∧
    (∀ pos, pos.InWormhole = true → (∀ v ∈ vs, ¬ Qualifies env pos v) →
      (∃ v ∈ vs, QualifiesAtOtherEnd env pos v) →
      ∃ m, FindTrainOnPathEnd env w vs fuel { pos := pos, best := none } =
          some { pos := pos, best := some m } ∧
        (∃ v ∈ vs, QualifiesAtOtherEnd env pos v ∧ v.first = m) ∧
        ∀ v ∈ vs, QualifiesAtOtherEnd env pos v → m ≤ v.first) ∧
    (∀ tile track pos, skipsDirection env tile (env.TrackToTrackdir track) = false →
      FollowReservation env w fuel (env.GetTileOwner tile) (env.compatible_railtypes tile track)
        (PFPos.onTile tile (env.TrackToTrackdir track)) true = some pos →
      (∃ v ∈ vs, Qualifies env pos v) →
      ∃ m, GetTrainForReservation env w vs fuel tile track = some (some m) ∧
        (∃ v ∈ vs, Qualifies env pos v ∧ v.first = m) ∧
        ∀ v ∈ vs, Qualifies env pos v → m ≤ v.first) ∧
    (∀ tile track pos,
      reservationProbe env w vs fuel tile (env.compatible_railtypes tile track)
        (env.TrackToTrackdir track) = some none →
      skipsDirection env tile (env.ReverseTrackdir (env.TrackToTrackdir track)) = false →
      FollowReservation env w fuel (env.GetTileOwner tile) (env.compatible_railtypes tile track)
        (PFPos.onTile tile (env.ReverseTrackdir (env.TrackToTrackdir track))) true = some pos →
      (∃ v ∈ vs, Qualifies env pos v) →
      ∃ m, GetTrainForReservation env w vs fuel tile track = some (some m) ∧
        (∃ v ∈ vs, Qualifies env pos v ∧ v.first = m) ∧
        ∀ v ∈ vs, Qualifies env pos v → m ≤ v.first) := by
  refine ⟨fun pos => FindTrainOnPathEnd_perm env w vs vs2 hperm fuel _,
    fun tile track => GetTrainForReservation_perm env w vs vs2 hperm fuel tile track,
    fun pos h => pathEnd_lowest env w vs fuel pos h,
    fun pos hw hnear hfar => pathEnd_other_end env w vs fuel pos hw hnear hfar, ?_, ?_⟩
  · intro tile track pos hskip hwalk h
    obtain ⟨m, hm, hex, hmin⟩ := probe_lowest env w vs fuel tile _ _ pos hskip hwalk h
    refine ⟨m, ?_, hex, hmin⟩
    simp only [GetTrainForReservation, hm]
  · intro tile track pos hfwd hskip hwalk h
    obtain ⟨m, hm, hex, hmin⟩ := probe_lowest env w vs fuel tile _ _ pos hskip hwalk h
    refine ⟨m, ?_, hex, hmin⟩
    simp only [GetTrainForReservation, hfwd, hm]

/-- Witness of C9, amended: with two trains of identities 5 and 9 on the end
tile, the train found is 5 for both scan orders; and with no train on the end 30
of the bridge and the trains 8 and 2 on its end 40, the train found at the
position on the end 30 is 2. -/
theorem FindTrainOnPathEnd_lowest_index_witness :
    twoTrains.Perm twoTrainsSwapped ∧
    FindTrainOnPathEnd baseEnv (worldOf sampleMap) twoTrains 0
      { pos := PFPos.onTile 7 0, best := none } =
        some { pos := PFPos.onTile 7 0, best := some 5 } ∧
    FindTrainOnPathEnd baseEnv (worldOf sampleMap) twoTrainsSwapped 0
      { pos := PFPos.onTile 7 0, best := none } =
        some { pos := PFPos.onTile 7 0, best := some 5 } ∧
    (∃ m, FindTrainOnPathEnd baseEnv (worldOf sampleMap) twoTrains 0
        { pos := PFPos.onTile 7 0, best := none } =
          some { pos := PFPos.onTile 7 0, best := some m } ∧
      (∃ v ∈ twoTrains, Qualifies baseEnv (PFPos.onTile 7 0) v ∧ v.first = m) ∧
      ∀ v ∈ twoTrains, Qualifies baseEnv (PFPos.onTile 7 0) v → m ≤ v.first) ∧
    FindTrainOnPathEnd bridgeEnv (worldOf sampleMap) farTrains 0
      { pos := bridgePos, best := none } = some { pos := bridgePos, best := some 2 } ∧
    ∃ m, FindTrainOnPathEnd bridgeEnv (worldOf sampleMap) farTrains 0
        { pos := bridgePos, best := none } = some { pos := bridgePos, best := some m } ∧
      (∃ v ∈ farTrains, QualifiesAtOtherEnd bridgeEnv bridgePos v ∧ v.first = m) ∧
      ∀ v ∈ farTrains, QualifiesAtOtherEnd bridgeEnv bridgePos v → m ≤ v.first :=
  ⟨List.Perm.swap _ _ _, by decide, by decide,
    (FindTrainOnPathEnd_lowest_index baseEnv (worldOf sampleMap) twoTrains twoTrainsSwapped 0
      (List.Perm.swap _ _ _)).2.2.1 (PFPos.onTile 7 0) (by decide),
    by decide,
    (FindTrainOnPathEnd_lowest_index bridgeEnv (worldOf sampleMap) farTrains farTrains 0
      (List.Perm.refl _)).2.2.2.1 bridgePos (by decide) (by decide) (by decide)⟩

/-! ### Crashed vehicles -/

theorem acceptOnTrack_sound (env : Env) (td : Trackdir) (v : Vehicle)
    (h : acceptOnTrack env td v = true) : v.type = VehicleType.VEH_TRAIN ∧ ¬ v.Crashed := by
  unfold acceptOnTrack at h
  unfold Vehicle.Crashed
  cases hty : v.type <;> simp [hty] at h ⊢
  exact h.1

theorem acceptInWormhole_sound (env : Env) (v : Vehicle)
    (h : acceptInWormhole env v = true) : v.type = VehicleType.VEH_TRAIN ∧ ¬ v.Crashed := by
  unfold acceptInWormhole at h
  unfold Vehicle.Crashed
  cases hty : v.type <;> simp [hty] at h ⊢
  exact h.1

theorem acceptOnTrack_crashed (env : Env) (td : Trackdir) (v : Vehicle) (h : v.Crashed) :
    acceptOnTrack env td v = false := by
  cases ha : acceptOnTrack env td v
  · rfl
  · exact absurd h (acceptOnTrack_sound env td v ha).2

theorem acceptInWormhole_crashed (env : Env) (v : Vehicle) (h : v.Crashed) :
    acceptInWormhole env v = false := by
  cases ha : acceptInWormhole env v
  · rfl
  · exact absurd h (acceptInWormhole_sound env v ha).2

theorem scan_track_origin (env : Env) (vs : List Vehicle) (tile : TileIndex)
    (info : FindTrainOnTrackInfo) (hinfo : info.best = none) (b : VehicleID)
    (hb : (FindVehicleOnPos vs tile info (FindTrainOnTrackEnum env)).best = some b) :
    ∃ v ∈ vs, v.type = VehicleType.VEH_TRAIN ∧ ¬ v.Crashed ∧ v.first = b := by
  rw [FindVehicleOnPos_track] at hb
  obtain ⟨h1, _, _⟩ := (scanBest_spec _ _ info).1 b hb
  rcases h1 with h1 | ⟨v, hv, hav, hfv⟩
  · rw [hinfo] at h1; exact absurd h1 (by simp)
  · obtain ⟨ht, hc⟩ := acceptOnTrack_sound env _ v hav
    exact ⟨v, (List.mem_filter.mp hv).1, ht, hc, hfv⟩

theorem scan_wormhole_origin (env : Env) (vs : List Vehicle) (tile : TileIndex)
    (info : FindTrainOnTrackInfo) (hinfo : info.best = none) (b : VehicleID)
    (hb : (FindVehicleOnPos vs tile info (FindTrainInWormholeEnum env)).best = some b) :
    ∃ v ∈ vs, v.type = VehicleType.VEH_TRAIN ∧ ¬ v.Crashed ∧ v.first = b := by
  rw [FindVehicleOnPos_wormhole] at hb
  obtain ⟨h1, _, _⟩ := (scanBest_spec _ _ info).1 b hb
  rcases h1 with h1 | ⟨v, hv, hav, hfv⟩
  · rw [hinfo] at h1; exact absurd h1 (by simp)
  · obtain ⟨ht, hc⟩ := acceptInWormhole_sound env v hav
    exact ⟨v, (List.mem_filter.mp hv).1, ht, hc, hfv⟩

theorem platformScan_origin (env : Env) (vs : List Vehicle) (diff : TileIndexDiff) :
    ∀ (fuel : Nat) (tile : TileIndex) (info r : FindTrainOnTrackInfo), info.best = none →
      platformScan env vs diff fuel tile info = some r → ∀ b, r.best = some b →
      ∃ v ∈ vs, v.type = VehicleType.VEH_TRAIN ∧ ¬ v.Crashed ∧ v.first = b := by
  intro fuel
  induction fuel with
  | zero => intro tile info r _ h; simp [platformScan] at h
  | succ n ih =>
    intro tile info r hinfo h b hb
    simp only [platformScan] at h
    split_ifs at h with hc hfound
    · have hr : FindVehicleOnPos vs tile info (FindTrainOnTrackEnum env) = r :=
        Option.some.inj h
      rw [← hr] at hb
      exact scan_track_origin env vs tile info hinfo b hb
    · have hnone : (FindVehicleOnPos vs tile info (FindTrainOnTrackEnum env)).best = none := by
        simpa using hfound
      have hpos : (FindVehicleOnPos vs tile info (FindTrainOnTrackEnum env)).pos = info.pos := by
        rw [FindVehicleOnPos_track]; exact scanBest_pos _ _ _
      exact ih _ _ r hnone h b hb
    · have hr : info = r := Option.some.inj h
      rw [← hr, hinfo] at hb
      exact absurd hb (by simp)

theorem FindTrainOnPathEnd_origin (env : Env) (w : World) (vs : List Vehicle) (fuel : Nat)
    (pos : PFPos) (r : FindTrainOnTrackInfo) (b : VehicleID)
    (h : FindTrainOnPathEnd env w vs fuel { pos := pos, best := none } = some r)
    (hb : r.best = some b) :
    ∃ v ∈ vs, v.type = VehicleType.VEH_TRAIN ∧ ¬ v.Crashed ∧ v.first = b := by
  simp only [FindTrainOnPathEnd] at h
  split_ifs at h with hw hfound hfound hst
  · rw [← Option.some.inj h] at hb
    exact scan_wormhole_origin env vs _ _ rfl b hb
  · have hnone : (FindVehicleOnPos vs pos.wormhole { pos := pos, best := none }
        (FindTrainInWormholeEnum env)).best = none := by simpa using hfound
    rw [← Option.some.inj h] at hb
    exact scan_wormhole_origin env vs _ _ hnone b hb
  · rw [← Option.some.inj h] at hb
    exact scan_track_origin env vs _ _ rfl b hb
  · have hnone : (FindVehicleOnPos vs pos.tile { pos := pos, best := none }
        (FindTrainOnTrackEnum env)).best = none := by simpa using hfound
    exact platformScan_origin env vs _ fuel _ _ r hnone h b hb
  · have hnone : (FindVehicleOnPos vs pos.tile { pos := pos, best := none }
        (FindTrainOnTrackEnum env)).best = none := by simpa using hfound
    rw [← Option.some.inj h, hnone] at hb
    exact absurd hb (by simp)

theorem GetTrainForReservation_origin (env : Env) (w : World) (vs : List Vehicle) (fuel : Nat)
    (tile : TileIndex) (track : Track) (b : VehicleID)
    (h : GetTrainForReservation env w vs fuel tile track = some (some b)) :
    ∃ v ∈ vs, v.type = VehicleType.VEH_TRAIN ∧ ¬ v.Crashed ∧ v.first = b := by
  have probe : ∀ td, reservationProbe env w vs fuel tile
      (env.compatible_railtypes tile track) td = some (some b) →
      ∃ v ∈ vs, v.type = VehicleType.VEH_TRAIN ∧ ¬ v.Crashed ∧ v.first = b := by
    intro td hp
    unfold reservationProbe at hp
    split_ifs at hp
    · simp at hp
    · cases hfr : FollowReservation env w fuel (env.GetTileOwner tile)
          (env.compatible_railtypes tile track) (PFPos.onTile tile td) true with
      | none => simp [hfr] at hp
      | some p =>
        simp only [hfr] at hp
        cases hft : FindTrainOnPathEnd env w vs fuel { pos := p, best := none } with
        | none => simp [hft] at hp
        | some r =>
          simp only [hft] at hp
          exact FindTrainOnPathEnd_origin env w vs fuel p r b hft (Option.some.inj hp)
  unfold GetTrainForReservation at h
  cases h1 : reservationProbe env w vs fuel tile (env.compatible_railtypes tile track)
      (env.TrackToTrackdir track) with
  | none => simp [h1] at h
  | some r1 =>
    cases r1 with
    | some v1 =>
      simp only [h1] at h
      have hv : v1 = b := by simpa using h
      subst hv
      exact probe _ h1
    | none =>
      simp only [h1] at h
      cases h2 : reservationProbe env w vs fuel tile (env.compatible_railtypes tile track)
          (env.ReverseTrackdir (env.TrackToTrackdir track)) with
      | none => simp [h2] at h
      | some r2 =>
        cases r2 with
        | some v2 =>
          simp only [h2] at h
          have hv : v2 = b := by simpa using h
          subst hv
          exact probe _ h2
        | none => simp [h2] at h

theorem scan_track_idle (env : Env) (vs : List Vehicle) (tile : TileIndex)
    (info : FindTrainOnTrackInfo)
    (hcr : ∀ v ∈ vs, v.tile = tile → v.Crashed) :
    FindVehicleOnPos vs tile info (FindTrainOnTrackEnum env) = info := by
  rw [FindVehicleOnPos_track]
  apply scanBest_idle
  intro v hv
  have hv2 := List.mem_filter.mp hv
  exact acceptOnTrack_crashed env _ v (hcr v hv2.1 (by simpa using hv2.2))

theorem scan_wormhole_idle (env : Env) (vs : List Vehicle) (tile : TileIndex)
    (info : FindTrainOnTrackInfo)
    (hcr : ∀ v ∈ vs, v.tile = tile → v.Crashed) :
    FindVehicleOnPos vs tile info (FindTrainInWormholeEnum env) = info := by
  rw [FindVehicleOnPos_wormhole]
  apply scanBest_idle
  intro v hv
  have hv2 := List.mem_filter.mp hv
  exact acceptInWormhole_crashed env v (hcr v hv2.1 (by simpa using hv2.2))

theorem platformScan_idle (env : Env) (vs : List Vehicle) (diff : TileIndexDiff) (pos : PFPos)
    (hcr : ∀ v ∈ vs, env.IsCompatibleTrainStationTile v.tile pos.tile = true → v.Crashed) :
    ∀ (n fuel : Nat) (tile : TileIndex),
      env.IsCompatibleTrainStationTile (tileAhead diff n tile) pos.tile = false →
      n + 1 ≤ fuel →
      platformScan env vs diff fuel tile { pos := pos, best := none } =
        some { pos := pos, best := none } := by
  intro n
  induction n with
  | zero =>
    intro fuel tile hend hfuel
    obtain ⟨f, rfl⟩ : ∃ f, fuel = f + 1 := ⟨fuel - 1, by omega⟩
    have hend2 : env.IsCompatibleTrainStationTile tile pos.tile = false := hend
    simp [platformScan, hend2]
  | succ n ih =>
    intro fuel tile hend hfuel
    obtain ⟨f, rfl⟩ : ∃ f, fuel = f + 1 := ⟨fuel - 1, by omega⟩
    cases hc : env.IsCompatibleTrainStationTile tile pos.tile
    · simp [platformScan, hc]
    · have hidle := scan_track_idle env vs tile { pos := pos, best := none }
        (fun v hv hvt => hcr v hv (by rw [hvt]; exact hc))
      simp only [platformScan, hc, if_true, hidle]
      simp only [bne_self_eq_false, Bool.false_eq_true, if_false]
      exact ih f (TILE_ADD tile diff)
        (by simpa [tileAhead, Function.iterate_succ_apply] using hend) (by omega)

/-- C10, as stated, fails, in each of its two parts. First: a wagon with identity
7 that is not crashed stands on the end tile 7, and the front of its chain, the
vehicle with identity 3, carries the crashed status; the vehicle recorded as
best is vehicle 3. Second: the only vehicle on the end tile 10 of a platform is
crashed, a train that is not crashed stands on the cell 11 of the same platform,
and that train is found. -/
theorem FindTrainOnPathEnd_crashed_counterexample :
    (FindTrainOnPathEnd baseEnv (worldOf sampleMap) [train 3 100 0 3 0x80, train 7 7 0 3 0] 0
        { pos := PFPos.onTile 7 0, best := none } =
          some { pos := PFPos.onTile 7 0, best := some 3 } ∧
      ∃ f ∈ [train 3 100 0 3 0x80, train 7 7 0 3 0], f.index = 3 ∧ f.Crashed) ∧
    ((∀ v ∈ [train 4 10 0 4 0x80, train 5 11 0 5 0], v.tile = 10 → v.Crashed) ∧
      FindTrainOnPathEnd platformEnv (worldOf platformMap)
        [train 4 10 0 4 0x80, train 5 11 0 5 0] 3
        { pos := PFPos.onTile 10 0, best := none } =
          some { pos := PFPos.onTile 10 0, best := some 5 }) := by
  decide

/-- C10, amended. The vehicle recorded as best by `FindTrainOnPathEnd`, and the
one returned by `GetTrainForReservation`, is always the front of a train vehicle
of the registry that does not carry the crashed status, so it is not crashed
itself wherever the crashed status is shared by a whole consist. And if every
vehicle on a tile that is scanned for the position (its tile and the compatible
platform cells, or both ends of its wormhole) is crashed, and the platform
behind a station position ends, then `FindTrainOnPathEnd` returns and finds no
vehicle. -/
theorem FindTrainOnPathEnd_skips_crashed (env : Env) (w : World) (vs : List Vehicle)
    (fuel : Nat) :
    (∀ pos r b, FindTrainOnPathEnd env w vs fuel { pos := pos, best := none } = some r →
      r.best = some b →
      (∃ v ∈ vs, v.type = VehicleType.VEH_TRAIN ∧ ¬ v.Crashed ∧ v.first = b) ∧
      (CrashedAsConsist vs → ∀ f ∈ vs, f.index = b → ¬ f.Crashed)) ∧
    (∀ tile track b, GetTrainForReservation env w vs fuel tile track = some (some b) →
      (∃ v ∈ vs, v.type = VehicleType.VEH_TRAIN ∧ ¬ v.Crashed ∧ v.first = b) ∧
      (CrashedAsConsist vs → ∀ f ∈ vs, f.index = b → ¬ f.Crashed)) ∧
    (∀ pos, (∀ v ∈ vs, OnScannedTile env pos v → v.Crashed) →
      (pos.InWormhole = false → IsRailStationTile w pos.tile = true →
        ∃ n, n + 1 ≤ fuel ∧ env.IsCompatibleTrainStationTile
          (tileAhead (env.TileOffsByDiagDir (env.TrackdirToExitdir
            (env.ReverseTrackdir pos.td))) (n + 1) pos.tile) pos.tile = false) →
      FindTrainOnPathEnd env w vs fuel { pos := pos, best := none } =
        some { pos := pos, best := none }) := by
  have consist : ∀ b, (∃ v ∈ vs, v.type = VehicleType.VEH_TRAIN ∧ ¬ v.Crashed ∧ v.first = b) →
      CrashedAsConsist vs → ∀ f ∈ vs, f.index = b → ¬ f.Crashed := by
    rintro b ⟨v, hv, _, hc, hfb⟩ huni f hf hfi hfc
    exact hc ((huni v hv f hf (by rw [hfi, hfb])).mp hfc)
  refine ⟨fun pos r b h hb => ?_, fun tile track b h => ?_, fun pos hcr hend => ?_⟩
  · have := FindTrainOnPathEnd_origin env w vs fuel pos r b h hb
    exact ⟨this, consist b this⟩
  · have := GetTrainForReservation_origin env w vs fuel tile track b h
    exact ⟨this, consist b this⟩
  · unfold OnScannedTile at hcr
    cases hw : pos.InWormhole
    · simp only [hw, Bool.false_eq_true, if_false] at hcr
      have hidle := scan_track_idle env vs pos.tile { pos := pos, best := none }
        (fun v hv hvt => hcr v hv (Or.inl hvt))
      simp only [FindTrainOnPathEnd, hw, Bool.false_eq_true, if_false, hidle]
      simp only [bne_self_eq_false, Bool.false_eq_true, if_false]
      cases hst : IsRailStationTile w pos.tile
      · simp
      · obtain ⟨n, hn, hstop⟩ := hend hw hst
        simp only [if_true]
        exact platformScan_idle env vs _ pos (fun v hv hvc => hcr v hv (Or.inr hvc)) n fuel _
          (by simpa [tileAhead, Function.iterate_succ_apply] using hstop) hn
    · simp only [hw, if_true] at hcr
      have h1 := scan_wormhole_idle env vs pos.wormhole { pos := pos, best := none }
        (fun v hv hvt => hcr v hv (Or.inl hvt))
      have h2 := scan_wormhole_idle env vs (env.GetOtherTunnelBridgeEnd pos.wormhole)
        { pos := pos, best := none } (fun v hv hvt => hcr v hv (Or.inr hvt))
      simp only [FindTrainOnPathEnd, hw, if_true, h1, h2]
      simp

/-- Witness of C10, amended: with a crashed train on the end tile 7 and nothing
else on a scanned tile, no vehicle is found. -/
theorem FindTrainOnPathEnd_skips_crashed_witness :
    (∀ v ∈ [train 4 7 0 4 0x80, train 5 20 0 5 0],
      OnScannedTile baseEnv (PFPos.onTile 7 0) v → v.Crashed) ∧
    FindTrainOnPathEnd baseEnv (worldOf sampleMap) [train 4 7 0 4 0x80, train 5 20 0 5 0] 0
      { pos := PFPos.onTile 7 0, best := none } =
        some { pos := PFPos.onTile 7 0, best := none } :=
  ⟨by decide,
    (FindTrainOnPathEnd_skips_crashed baseEnv (worldOf sampleMap)
      [train 4 7 0 4 0x80, train 5 20 0 5 0] 0).2.2 (PFPos.onTile 7 0) (by decide)
      (fun _ h => absurd h (by decide))⟩

/-! ## Reserving and releasing again -/

theorem set_then_clear (res : TrackBits) (t : Track) (h : res &&& TrackToTrackBits t = 0) :
    (res ||| TrackToTrackBits t) ^^^ ((res ||| TrackToTrackBits t) &&& TrackToTrackBits t)
      = res := by
  apply Nat.eq_of_testBit_eq
  intro i
  rw [testBit_clear, Nat.testBit_or, testBit_bit]
  by_cases hi : t = i
  · subst hi
    have hb : res.testBit t = false := by
      rw [← Bool.not_eq_true, ← and_bit_ne_zero_iff]
      exact fun hne => hne h
    simp [hb]
  · simp [hi]

theorem TryReserveRailTrack_tile (env : Env) (w : World) (tile : TileIndex) (t : Track)
    (trig : Bool) (h : (TryReserveRailTrack env w tile t trig).2 = true) :
    ((w.tiles tile).type = TileType.TT_RAILWAY ∧
      (w.tiles tile).res.rail &&& TrackToTrackBits t = 0 ∧
      env.TracksOverlap ((w.tiles tile).res.rail ||| TrackToTrackBits t) = false ∧
      ((TryReserveRailTrack env w tile t trig).1.tiles tile).res =
        { (w.tiles tile).res with rail := (w.tiles tile).res.rail ||| TrackToTrackBits t }) ∨
    ((w.tiles tile).type = TileType.TT_MISC ∧
      (w.tiles tile).subtype = TileSubtype.TT_MISC_CROSSING ∧
      (w.tiles tile).res.crossing = false ∧
      ((TryReserveRailTrack env w tile t trig).1.tiles tile).res =
        { (w.tiles tile).res with crossing := true }) ∨
    ((w.tiles tile).type = TileType.TT_MISC ∧
      (w.tiles tile).subtype = TileSubtype.TT_MISC_TUNNEL ∧
      (w.tiles tile).transport = TransportType.TRANSPORT_RAIL ∧
      (w.tiles tile).res.tunnel_head = false ∧
      ((TryReserveRailTrack env w tile t trig).1.tiles tile).res =
        { (w.tiles tile).res with tunnel_head := true }) ∨
    ((w.tiles tile).type = TileType.TT_MISC ∧
      (w.tiles tile).subtype = TileSubtype.TT_MISC_DEPOT ∧
      (w.tiles tile).rail_depot = true ∧
      (w.tiles tile).res.depot = false ∧
      ((TryReserveRailTrack env w tile t trig).1.tiles tile).res =
        { (w.tiles tile).res with depot := true }) ∨
    ((w.tiles tile).type = TileType.TT_STATION ∧
      (w.tiles tile).station_rail = true ∧
      (w.tiles tile).res.station = false ∧
      ((TryReserveRailTrack env w tile t trig).1.tiles tile).res =
        { (w.tiles tile).res with station := true }) := by
  revert h
  simp only [TryReserveRailTrack, showReservation, GetTileType, GetTileSubtype,
    GetTunnelTransportType, IsRailDepot, IsRailDepotTile, HasStationRail, IsRailStation,
    TryReserveTrack, MarkTileDirtyByTile, HasCrossingReservation, HasTunnelHeadReservation,
    HasDepotReservation, HasStationReservation, GetRailReservationTrackBits,
    SetCrossingReservation, SetTunnelHeadReservation, SetDepotReservation,
    SetRailStationReservation, SetTrackReservation, BarCrossing, TriggerStationRandomisation,
    setRes, TRACK_BIT_NONE]
  cases env.show_track_reservation <;> cases hty : (w.tiles tile).type <;>
    cases hsub : (w.tiles tile).subtype <;> simp [hty, hsub] <;>
    (repeat' split) <;> simp_all [Function.update]

theorem UnreserveRailTrack_tile (env : Env) (w : World) (tile : TileIndex) (t : Track) :
    ((UnreserveRailTrack env w tile t).tiles tile).type = (w.tiles tile).type ∧
    ((UnreserveRailTrack env w tile t).tiles tile).subtype = (w.tiles tile).subtype ∧
    ((UnreserveRailTrack env w tile t).tiles tile).transport = (w.tiles tile).transport ∧
    ((UnreserveRailTrack env w tile t).tiles tile).rail_depot = (w.tiles tile).rail_depot ∧
    ((UnreserveRailTrack env w tile t).tiles tile).station_rail = (w.tiles tile).station_rail ∧
    ((w.tiles tile).type = TileType.TT_RAILWAY →
      ((UnreserveRailTrack env w tile t).tiles tile).res =
        { (w.tiles tile).res with rail := (w.tiles tile).res.rail ^^^
            ((w.tiles tile).res.rail &&& TrackToTrackBits t) }) ∧
    ((w.tiles tile).type = TileType.TT_MISC →
      (w.tiles tile).subtype = TileSubtype.TT_MISC_CROSSING →
      ((UnreserveRailTrack env w tile t).tiles tile).res =
        { (w.tiles tile).res with crossing := false }) ∧
    ((w.tiles tile).type = TileType.TT_MISC →
      (w.tiles tile).subtype = TileSubtype.TT_MISC_TUNNEL →
      (w.tiles tile).transport = TransportType.TRANSPORT_RAIL →
      ((UnreserveRailTrack env w tile t).tiles tile).res =
        { (w.tiles tile).res with tunnel_head := false }) ∧
    ((w.tiles tile).type = TileType.TT_MISC →
      (w.tiles tile).subtype = TileSubtype.TT_MISC_DEPOT →
      (w.tiles tile).rail_depot = true →
      ((UnreserveRailTrack env w tile t).tiles tile).res =
        { (w.tiles tile).res with depot := false }) ∧
    ((w.tiles tile).type = TileType.TT_STATION →
      (w.tiles tile).station_rail = true →
      ((UnreserveRailTrack env w tile t).tiles tile).res =
        { (w.tiles tile).res with station := false }) := by
  simp only [UnreserveRailTrack, showReservation, GetTileType, GetTileSubtype,
    GetTunnelTransportType, IsRailDepot, HasStationRail, UnreserveTrack, UpdateLevelCrossing,
    MarkTileDirtyByTile, GetRailReservationTrackBits, SetCrossingReservation,
    SetTunnelHeadReservation, SetDepotReservation, SetRailStationReservation,
    SetTrackReservation, setRes]
  cases env.show_track_reservation <;> cases hty : (w.tiles tile).type <;>
    cases hsub : (w.tiles tile).subtype <;> simp [hty, hsub] <;>
    (repeat' split) <;> simp_all [Function.update]

theorem TryReserveRailTrack_succeeds (env : Env) (w : World) (tile : TileIndex) (t : Track)
    (trig : Bool)
    (h : ((w.tiles tile).type = TileType.TT_RAILWAY ∧
        (w.tiles tile).res.rail &&& TrackToTrackBits t = 0 ∧
        env.TracksOverlap ((w.tiles tile).res.rail ||| TrackToTrackBits t) = false) ∨
      ((w.tiles tile).type = TileType.TT_MISC ∧
        (w.tiles tile).subtype = TileSubtype.TT_MISC_CROSSING ∧
        (w.tiles tile).res.crossing = false) ∨
      ((w.tiles tile).type = TileType.TT_MISC ∧
        (w.tiles tile).subtype = TileSubtype.TT_MISC_TUNNEL ∧
        (w.tiles tile).transport = TransportType.TRANSPORT_RAIL ∧
        (w.tiles tile).res.tunnel_head = false) ∨
      ((w.tiles tile).type = TileType.TT_MISC ∧
        (w.tiles tile).subtype = TileSubtype.TT_MISC_DEPOT ∧
        (w.tiles tile).rail_depot = true ∧ (w.tiles tile).res.depot = false) ∨
      ((w.tiles tile).type = TileType.TT_STATION ∧
        (w.tiles tile).station_rail = true ∧ (w.tiles tile).res.station = false)) :
    (TryReserveRailTrack env w tile t trig).2 = true := by
  simp only [TryReserveRailTrack, showReservation, GetTileType, GetTileSubtype,
    GetTunnelTransportType, IsRailDepot, IsRailDepotTile, HasStationRail, IsRailStation,
    TryReserveTrack, MarkTileDirtyByTile, HasCrossingReservation, HasTunnelHeadReservation,
    HasDepotReservation, HasStationReservation, GetRailReservationTrackBits, TRACK_BIT_NONE]
  rcases h with ⟨h1, h2, h3⟩ | ⟨h1, h2, h3⟩ | ⟨h1, h2, h3, h4⟩ | ⟨h1, h2, h3, h4⟩ | ⟨h1, h2, h3⟩ <;>
    cases env.show_track_reservation <;> simp [h1, h2, h3] <;> simp_all

theorem TryReserveRailTrack_static (env : Env) (w : World) (tile : TileIndex) (t : Track)
    (trig : Bool) :
    ((TryReserveRailTrack env w tile t trig).1.tiles tile).type = (w.tiles tile).type ∧
    ((TryReserveRailTrack env w tile t trig).1.tiles tile).subtype = (w.tiles tile).subtype ∧
    ((TryReserveRailTrack env w tile t trig).1.tiles tile).transport = (w.tiles tile).transport ∧
    ((TryReserveRailTrack env w tile t trig).1.tiles tile).rail_depot
      = (w.tiles tile).rail_depot ∧
    ((TryReserveRailTrack env w tile t trig).1.tiles tile).station_rail
      = (w.tiles tile).station_rail := by
  simp only [TryReserveRailTrack, showReservation, GetTileType, GetTileSubtype,
    GetTunnelTransportType, IsRailDepot, IsRailDepotTile, HasStationRail, IsRailStation,
    TryReserveTrack, MarkTileDirtyByTile, HasCrossingReservation, HasTunnelHeadReservation,
    HasDepotReservation, HasStationReservation, GetRailReservationTrackBits,
    SetCrossingReservation, SetTunnelHeadReservation, SetDepotReservation,
    SetRailStationReservation, SetTrackReservation, BarCrossing, TriggerStationRandomisation,
    setRes]
  cases env.show_track_reservation <;> cases hty : (w.tiles tile).type <;>
    cases hsub : (w.tiles tile).subtype <;> simp [hty, hsub] <;>
    (repeat' split) <;> simp_all [Function.update]

/-- C18. Reserve/release round trip: whenever `TryReserveRailTrack(tile, t, _)`
returns true, the tile is a plain rail tile, a level crossing, a rail tunnel
head, a rail depot or a rail station cell; a following
`UnreserveRailTrack(tile, t)` restores the reservation bits of every tile to
their values before the `TryReserveRailTrack` call; and a fresh
`TryReserveRailTrack(tile, t, _)` then returns true again. -/
theorem TryReserveRailTrack_roundtrip (env : Env) (w : World) (tile : TileIndex) (t : Track)
    (trig trig2 : Bool) (h : (TryReserveRailTrack env w tile t trig).2 = true) :
    ReservableKind w tile ∧
    (∀ x, ((UnreserveRailTrack env (TryReserveRailTrack env w tile t trig).1 tile t).tiles x).res
      = (w.tiles x).res) ∧
    (TryReserveRailTrack env (UnreserveRailTrack env (TryReserveRailTrack env w tile t trig).1
      tile t) tile t trig2).2 = true := by
  have hS := TryReserveRailTrack_static env w tile t trig
  have hU := UnreserveRailTrack_tile env (TryReserveRailTrack env w tile t trig).1 tile t
  have hT := TryReserveRailTrack_tile env w tile t trig h
  have hO1 := fun x hx => TryReserveRailTrack_tiles_other env w tile t trig x hx
  have hO2 := fun x hx =>
    UnreserveRailTrack_tiles_other env (TryReserveRailTrack env w tile t trig).1 tile t x hx
  have hOk := TryReserveRailTrack_succeeds env
    (UnreserveRailTrack env (TryReserveRailTrack env w tile t trig).1 tile t) tile t trig2
  generalize (TryReserveRailTrack env w tile t trig).1 = w1 at hS hU hT hO1 hO2 hOk ⊢
  generalize UnreserveRailTrack env w1 tile t = w2 at hU hO2 hOk ⊢
  obtain ⟨u1, u2, u3, u4, u5, uR, uC, uT, uD, uS⟩ := hU
  obtain ⟨s1, s2, s3, s4, s5⟩ := hS
  rw [s1] at u1
  rw [s2] at u2
  rw [s3] at u3
  rw [s4] at u4
  rw [s5] at u5
  have key : ReservableKind w tile ∧ (w2.tiles tile).res = (w.tiles tile).res := by
    unfold ReservableKind GetTileType GetTileSubtype GetTunnelTransportType IsRailDepot
      HasStationRail
    rcases hT with ⟨k1, k2, k3, k4⟩ | ⟨k1, k2, k3, k4⟩ | ⟨k1, k2, k3, k4, k5⟩ |
      ⟨k1, k2, k3, k4, k5⟩ | ⟨k1, k2, k3, k4⟩
    · refine ⟨Or.inl k1, ?_⟩
      rw [uR (s1.trans k1), k4]
      simp only [set_then_clear _ _ k2]
    · refine ⟨Or.inr (Or.inl ⟨k1, k2⟩), ?_⟩
      rw [uC (s1.trans k1) (s2.trans k2), k4, ← k3]
    · refine ⟨Or.inr (Or.inr (Or.inl ⟨k1, k2, k3⟩)), ?_⟩
      rw [uT (s1.trans k1) (s2.trans k2) (s3.trans k3), k5, ← k4]
    · refine ⟨Or.inr (Or.inr (Or.inr (Or.inl ⟨k1, k2, k3⟩))), ?_⟩
      rw [uD (s1.trans k1) (s2.trans k2) (s4.trans k3), k5, ← k4]
    · refine ⟨Or.inr (Or.inr (Or.inr (Or.inr ⟨k1, k2⟩))), ?_⟩
      rw [uS (s1.trans k1) (s5.trans k2), k4, ← k3]
  refine ⟨key.1, fun x => ?_, hOk ?_⟩
  · by_cases hx : x = tile
    · subst hx
      exact key.2
    · rw [hO2 x hx, hO1 x hx]
  · rw [u1, u2, u3, u4, u5, key.2]
    rcases hT with ⟨k1, k2, k3, _⟩ | ⟨k1, k2, k3, _⟩ | ⟨k1, k2, k3, k4, _⟩ |
      ⟨k1, k2, k3, k4, _⟩ | ⟨k1, k2, k3, _⟩
    · exact Or.inl ⟨k1, k2, k3⟩
    · exact Or.inr (Or.inl ⟨k1, k2, k3⟩)
    · exact Or.inr (Or.inr (Or.inl ⟨k1, k2, k3, k4⟩))
    · exact Or.inr (Or.inr (Or.inr (Or.inl ⟨k1, k2, k3, k4⟩)))
    · exact Or.inr (Or.inr (Or.inr (Or.inr ⟨k1, k2, k3⟩)))

/-- Witness of C18: reserving track X of the plain rail tile 7 of the sample map
succeeds while track Y is reserved; releasing it again leaves the reservation
bits of every tile as they were, and track X can be reserved once more. -/
theorem TryReserveRailTrack_roundtrip_witness :
    (TryReserveRailTrack baseEnv (SetTrackReservation (worldOf sampleMap) 7 2) 7 0 true).2 = true ∧
    (∀ x, ((UnreserveRailTrack baseEnv (TryReserveRailTrack baseEnv
        (SetTrackReservation (worldOf sampleMap) 7 2) 7 0 true).1 7 0).tiles x).res
      = ((SetTrackReservation (worldOf sampleMap) 7 2).tiles x).res) ∧
    (TryReserveRailTrack baseEnv (UnreserveRailTrack baseEnv (TryReserveRailTrack baseEnv
        (SetTrackReservation (worldOf sampleMap) 7 2) 7 0 true).1 7 0) 7 0 false).2 = true :=
  ⟨by decide,
    (TryReserveRailTrack_roundtrip baseEnv (SetTrackReservation (worldOf sampleMap) 7 2) 7 0
      true false (by decide)).2⟩

/-! ## The walk ends on a reserved position -/

theorem backscan_reserved (w : World) (diff : TileIndexDiff) (n : Nat) (p q : PFPos)
    (hp : p.InWormhole = false) (h : stationBackscan w diff n p = some q) :
    q.InWormhole = false ∧ HasStationReservation w q.tile = true := by
  induction n generalizing p with
  | zero => simp [stationBackscan] at h
  | succ n ih =>
    simp only [stationBackscan] at h
    split_ifs at h with hres
    · cases h
      exact ⟨hp, hres⟩
    · refine ih _ ?_ h
      exact hp

theorem candidate_reserved (env : Env) (w : World) (cur : PFPos) (ft : FollowResult)
    (htab : TrackdirTablesFit env w) (hcur : ReservedEnd env w cur) :
    (∀ r, reservedCandidate env w cur ft = Sum.inl r → ReservedEnd env w r) ∧
    (∀ c, reservedCandidate env w cur ft = Sum.inr c → ReservedEnd env w c) := by
  unfold reservedCandidate
  cases hw : ft.m_new.pos.InWormhole
  · simp only [Bool.false_eq_true, if_false, reservedTrackdirs]
    split_ifs with h0 hst
    · cases hb : stationBackscan w (env.TileOffsByDiagDir ft.m_exitdir)
          ft.m_tiles_skipped.toNat ft.m_new.pos with
      | none =>
        refine ⟨fun r hr => ?_, fun c hc => by cases hc⟩
        cases hr
        exact hcur
      | some q =>
        refine ⟨fun r hr => ?_, fun c hc => by cases hc⟩
        cases hr
        exact Or.inr (backscan_reserved w _ _ _ _ hw hb)
    · refine ⟨fun r hr => ?_, fun c hc => by cases hc⟩
      cases hr
      exact hcur
    · constructor
      · intro r hr
        cases hr
      intro c hc
      cases hc
      have hne : ft.m_new.trackdirs &&&
          env.TrackBitsToTrackdirBits (GetReservedTrackbits w ft.m_new.pos.tile) ≠ 0 := by
        intro h
        apply h0
        simp [h, TRACKDIR_BIT_NONE]
      have hres := htab ft.m_new.pos.tile ft.m_new.trackdirs hne
      left
      simp only [HasReservedPos, PFPos.InWormhole] at hw ⊢
      simp only [hw, Bool.false_eq_true, if_false]
      exact hres
  · simp only [↓reduceIte]
    cases hr : HasReservedPos env w ft.m_new.pos
    · refine ⟨fun r h => ?_, fun c h => by simp at h⟩
      simp only [Bool.not_false, if_true] at h
      cases h
      exact hcur
    · refine ⟨fun r h => by simp at h, fun c h => ?_⟩
      simp only [Bool.not_true, Bool.false_eq_true, if_false] at h
      cases h
      exact Or.inl hr

theorem terminalChecks_cur (env : Env) (w : World) (c s : PFPos) :
    (∀ r, terminalChecks env w c s = LoopStep.stop r → r = c) ∧
    (∀ c2 s2, terminalChecks env w c s = LoopStep.next c2 s2 → c2 = c) := by
  unfold terminalChecks
  split_ifs <;> simp

theorem step_reserved (env : Env) (w : World) (o : Owner) (rts : RailTypes)
    (ignore_oneway : Bool) (cur start : PFPos)
    (htab : TrackdirTablesFit env w) (hcur : ReservedEnd env w cur) :
    (∀ r, FollowReservationStep env w o rts ignore_oneway cur start = LoopStep.stop r →
      ReservedEnd env w r) ∧
    (∀ c s, FollowReservationStep env w o rts ignore_oneway cur start = LoopStep.next c s →
      ReservedEnd env w c) := by
  unfold FollowReservationStep
  cases hf : env.Follow o rts cur with
  | none =>
    refine ⟨fun r h => ?_, fun c s h => by cases h⟩
    cases h
    exact hcur
  | some ft =>
    obtain ⟨hl, hr⟩ := candidate_reserved env w cur ft htab hcur
    dsimp only
    cases hc : reservedCandidate env w cur ft with
    | inl r0 =>
      refine ⟨fun r h => ?_, fun c s h => by cases h⟩
      cases h
      exact hl _ hc
    | inr m =>
      have hm := hr _ hc
      obtain ⟨t1, t2⟩ := terminalChecks_cur env w m m
      obtain ⟨t3, t4⟩ := terminalChecks_cur env w m start
      dsimp only
      split_ifs
      · refine ⟨fun r h => ?_, fun c s h => by cases h⟩
        cases h
        exact hcur
      · exact ⟨fun r h => (t1 r h) ▸ hm, fun c s h => (t2 c s h) ▸ hm⟩
      · refine ⟨fun r h => ?_, fun c s h => by cases h⟩
        cases h
        exact hm
      · exact ⟨fun r h => (t3 r h) ▸ hm, fun c s h => (t4 c s h) ▸ hm⟩

theorem loop_reserved (env : Env) (w : World) (o : Owner) (rts : RailTypes)
    (ignore_oneway : Bool) (htab : TrackdirTablesFit env w) (fuel : Nat) :
    ∀ (cur start r : PFPos), ReservedEnd env w cur →
      FollowReservationLoop env w o rts ignore_oneway fuel cur start = some r →
      ReservedEnd env w r := by
  induction fuel with
  | zero => intro cur start r _ h; simp [FollowReservationLoop] at h
  | succ fuel ih =>
    intro cur start r hcur h
    obtain ⟨hs, hn⟩ := step_reserved env w o rts ignore_oneway cur start htab hcur
    rw [loop_succ] at h
    cases hstep : FollowReservationStep env w o rts ignore_oneway cur start with
    | stop r0 =>
      rw [hstep] at h
      cases h
      exact hs _ hstep
    | next c s =>
      rw [hstep] at h
      exact ih c s r (hn c s hstep) h

theorem lineWorld_bits (tile : TileIndex) : GetReservedTrackbits lineWorld tile < 256 := by
  by_cases h1 : tile = 1
  · subst h1; decide
  by_cases h2 : tile = 2
  · subst h2; decide
  by_cases h3 : tile = 3
  · subst h3; decide
  have h : lineWorld.tiles tile = lineMap tile := by
    simp [lineWorld, SetTrackReservation, setRes, worldOf, Function.update, h1, h2, h3]
  have h0 : GetReservedTrackbits lineWorld tile = 0 := by
    unfold GetReservedTrackbits GetTileType GetTileSubtype GetRailReservationTrackBits
    rw [h]
    unfold lineMap
    split_ifs <;> rfl
  rw [h0]
  decide

theorem baseTables_fit (env : Env) (w : World)
    (hT : env.TrackdirToTrack = baseEnv.TrackdirToTrack)
    (hB : env.TrackBitsToTrackdirBits = baseEnv.TrackBitsToTrackdirBits)
    (hF : env.FindFirstTrackdir = baseEnv.FindFirstTrackdir)
    (hw : ∀ tile, GetReservedTrackbits w tile < 256) : TrackdirTablesFit env w := by
  intro tile trackdirs hne
  unfold HasReservedTrack
  rw [hT, hB, hF] at *
  have hb := hw tile
  generalize GetReservedTrackbits w tile = b at *
  have hlow : ∀ k, 8 ≤ k → b.testBit k = false := fun k hk =>
    Nat.testBit_lt_two_pow (lt_of_lt_of_le hb (Nat.pow_le_pow_right (Nat.succ_pos 1) hk))
  have hbit : ∀ k, (trackdirs &&& baseEnv.TrackBitsToTrackdirBits b).testBit k = true →
      k < 16 ∧ b.testBit (k &&& 7) = true := by
    intro k hk
    have hk2 : (b ||| b <<< 8).testBit k = true := by
      rw [Nat.testBit_and, Bool.and_eq_true] at hk
      exact hk.2
    rw [Nat.testBit_or, Nat.testBit_shiftLeft, Bool.or_eq_true, Bool.and_eq_true,
      decide_eq_true_eq] at hk2
    have hk16 : k < 16 := by
      by_contra hge
      rcases hk2 with h | ⟨_, h⟩
      · rw [hlow k (by omega)] at h; cases h
      · rw [hlow (k - 8) (by omega)] at h; cases h
    refine ⟨hk16, ?_⟩
    have hmod : k &&& 7 = k % 8 := Nat.and_pow_two_sub_one_eq_mod k 3
    rw [hmod]
    rcases hk2 with h | ⟨h8, h⟩
    · have : k < 8 := by
        by_contra hge
        rw [hlow k (by omega)] at h; cases h
      rw [Nat.mod_eq_of_lt this]; exact h
    · have : k % 8 = k - 8 := by omega
      rw [this]; exact h
  obtain ⟨j, hj⟩ := Nat.ne_zero_implies_bit_true hne
  have hfirst : ∃ i, baseEnv.FindFirstTrackdir (trackdirs &&& baseEnv.TrackBitsToTrackdirBits b) = i ∧
      (trackdirs &&& baseEnv.TrackBitsToTrackdirBits b).testBit i = true := by
    show ∃ i, ((List.range 16).find? (fun i =>
        (trackdirs &&& baseEnv.TrackBitsToTrackdirBits b).testBit i)).getD 0xFF = i ∧ _
    cases hfind : (List.range 16).find? (fun i =>
        (trackdirs &&& baseEnv.TrackBitsToTrackdirBits b).testBit i) with
    | none =>
      rw [List.find?_eq_none] at hfind
      exact absurd hj (hfind j (List.mem_range.mpr (hbit j hj).1))
    | some i => exact ⟨i, rfl, List.find?_some hfind⟩
  obtain ⟨i, hi, hti⟩ := hfirst
  rw [hi]
  simp only [bne_iff_ne, TRACK_BIT_NONE]
  exact (and_bit_ne_zero_iff b _).mpr (hbit i hti).2

/-- C19. `FollowReservation` only ever returns a reserved position: let the
track direction tables fit the map (the first of the offered track directions
that lie on a reserved track is a direction of a reserved track). For every
follower, reservation state and start position `pos` with `HasReservedPos(pos)`,
with or without `ignore_oneway`, the position that `FollowReservation` returns is
reserved: a wormhole position whose interior is reserved or a tile position
whose track is among the reserved track bits of the tile (`HasReservedPos`), or
a position on a station cell whose reservation flag is set. -/
theorem FollowReservation_returns_reserved (env : Env) (w : World) (fuel : Nat) (o : Owner)
    (rts : RailTypes) (pos : PFPos) (ignore_oneway : Bool) (r : PFPos)
    (hpos : HasReservedPos env w pos = true) (htab : TrackdirTablesFit env w)
    (hret : FollowReservation env w fuel o rts pos ignore_oneway = some r) :
    ReservedEnd env w r :=
  loop_reserved env w o rts ignore_oneway htab fuel pos PFPos.invalid r (Or.inl hpos) hret

/-- Witness of C19: on the line 1, 2, 3, 4 with the tiles 1, 2 and 3 reserved, the
walk from tile 1 returns the position on tile 3, whose track X is reserved. -/
theorem FollowReservation_returns_reserved_witness :
    HasReservedPos lineEnv lineWorld (PFPos.onTile 1 0) = true ∧
    TrackdirTablesFit lineEnv lineWorld ∧
    FollowReservation lineEnv lineWorld 3 0 1 (PFPos.onTile 1 0) false
      = some (PFPos.onTile 3 0) ∧
    ReservedEnd lineEnv lineWorld (PFPos.onTile 3 0) :=
  ⟨by decide, baseTables_fit lineEnv lineWorld rfl rfl rfl lineWorld_bits, by decide,
    FollowReservation_returns_reserved lineEnv lineWorld 3 0 1 (PFPos.onTile 1 0) false
      (PFPos.onTile 3 0) (by decide) (baseTables_fit lineEnv lineWorld rfl rfl rfl lineWorld_bits)
      (by decide)⟩

/-! ## One-way gating in the owner lookup -/

theorem reservationProbe_eq (env : Env) (w : World) (vs : List Vehicle) (fuel : Nat)
    (tile : TileIndex) (rts : RailTypes) (trackdir : Trackdir) :
    reservationProbe env w vs fuel tile rts trackdir =
      if skipsDirection env tile trackdir then some none
      else pathEndTrain env w vs fuel tile rts trackdir := by
  unfold reservationProbe skipsDirection pathEndTrain
  rfl

/-- C16. One-way gating in the owner lookup: `GetTrainForReservation` skips a
probe direction `d` exactly when the tile has a one-way signal blocking the
reverse of `d` and no PBS signal on `d`. For a skipped direction neither the
reservation is followed nor a vehicle looked up, so the result is what the other
direction alone gives (NULL when both are skipped, or no vehicle is found); and
when no direction is skipped the vehicle of the forward direction is returned
in preference to that of the reverse direction. -/
theorem GetTrainForReservation_oneway_gating (env : Env) (w : World) (vs : List Vehicle)
    (fuel : Nat) (tile : TileIndex) (track : Track) :
    (skipsDirection env tile (env.TrackToTrackdir track) = true →
      skipsDirection env tile (env.ReverseTrackdir (env.TrackToTrackdir track)) = true →
      GetTrainForReservation env w vs fuel tile track = some none) ∧
    (skipsDirection env tile (env.TrackToTrackdir track) = true →
      skipsDirection env tile (env.ReverseTrackdir (env.TrackToTrackdir track)) = false →
      GetTrainForReservation env w vs fuel tile track =
        pathEndTrain env w vs fuel tile (env.compatible_railtypes tile track)
          (env.ReverseTrackdir (env.TrackToTrackdir track))) ∧
    (skipsDirection env tile (env.TrackToTrackdir track) = false →
      skipsDirection env tile (env.ReverseTrackdir (env.TrackToTrackdir track)) = true →
      GetTrainForReservation env w vs fuel tile track =
        pathEndTrain env w vs fuel tile (env.compatible_railtypes tile track)
          (env.TrackToTrackdir track)) ∧
    (skipsDirection env tile (env.TrackToTrackdir track) = false →
      skipsDirection env tile (env.ReverseTrackdir (env.TrackToTrackdir track)) = false →
      GetTrainForReservation env w vs fuel tile track =
        match pathEndTrain env w vs fuel tile (env.compatible_railtypes tile track)
            (env.TrackToTrackdir track) with
        | none => none
        | some (some v) => some (some v)
        | some none =>
          pathEndTrain env w vs fuel tile (env.compatible_railtypes tile track)
            (env.ReverseTrackdir (env.TrackToTrackdir track))) := by
  simp only [GetTrainForReservation, reservationProbe_eq]
  refine ⟨fun h0 h1 => ?_, fun h0 h1 => ?_, fun h0 h1 => ?_, fun h0 h1 => ?_⟩
  · simp [h0, h1]
  · simp only [h0, h1, if_true, Bool.false_eq_true, if_false]
    cases pathEndTrain env w vs fuel tile (env.compatible_railtypes tile track)
        (env.ReverseTrackdir (env.TrackToTrackdir track)) with
    | none => rfl
    | some r => cases r <;> rfl
  · simp only [h0, h1, if_true, Bool.false_eq_true, if_false]
    cases pathEndTrain env w vs fuel tile (env.compatible_railtypes tile track)
        (env.TrackToTrackdir track) with
    | none => rfl
    | some r => cases r <;> rfl
  · simp only [h0, h1, Bool.false_eq_true, if_false]
    cases pathEndTrain env w vs fuel tile (env.compatible_railtypes tile track)
        (env.TrackToTrackdir track) with
    | none => rfl
    | some r =>
      cases r with
      | some v => rfl
      | none =>
        dsimp only
        cases pathEndTrain env w vs fuel tile (env.compatible_railtypes tile track)
            (env.ReverseTrackdir (env.TrackToTrackdir track)) with
        | none => rfl
        | some r2 => cases r2 <;> rfl

/-- Witness of C16: tile 2 of the reserved line 1, 2, 3 has a one-way signal that
blocks the track direction 8, so the forward direction 0 is skipped: the train
returned is train 9 at the reverse end, although train 5 stands at the forward
end. -/
theorem GetTrainForReservation_oneway_gating_witness :
    skipsDirection onewayEnv 2 (onewayEnv.TrackToTrackdir 0) = true ∧
    pathEndTrain onewayEnv lineWorld lineTrains 4 2 (onewayEnv.compatible_railtypes 2 0)
      (onewayEnv.TrackToTrackdir 0) = some (some 5) ∧
    GetTrainForReservation onewayEnv lineWorld lineTrains 4 2 0 = some (some 9) :=
  ⟨by decide, by decide,
    ((GetTrainForReservation_oneway_gating onewayEnv lineWorld lineTrains 4 2 0).2.1
      (by decide) (by decide)).trans (by decide)⟩

/-! ## Analysing a waiting position -/

theorem successorUnsafe_iff (env : Env) (m_new : PFNewPos) :
    successorUnsafe env m_new = true ↔ UnsafeSuccessor env m_new := by
  unfold successorUnsafe UnsafeSuccessor
  cases m_new.IsTrackdirSet <;> cases env.HasSignalAlongPos m_new.pos <;>
    cases env.HasSignalAgainstPos m_new.pos <;>
    cases IsPbsSignal (env.GetSignalType m_new.pos) <;> simp

theorem depotEntrance_iff (env : Env) (w : World) (pos : PFPos) :
    (IsRailDepotTile w pos.tile && pos.td == env.DiagDirToDiagTrackdir
      (ReverseDiagDir (env.GetGroundDepotDirection pos.tile))) = true ↔
    DepotEntrance env w pos := by
  unfold DepotEntrance
  simp

theorem classicSignalAlong_iff (env : Env) (pos : PFPos) :
    (env.HasSignalAlongPos pos && !IsPbsSignal (env.GetSignalType pos)) = true ↔
    ClassicSignalAlong env pos := by
  unfold ClassicSignalAlong
  simp

/-- C11. Depot terminal case: on a position on a rail depot tile whose track
direction points into the depot (the reverse of the direction in which the depot
is left), `CheckWaitingPosition` returns, in every checking mode, for every
vehicle and every successor configuration, BUSY if and only if the depot is
reserved and FREE otherwise; it never returns UNSAFE, and the result is the same
whatever the track follower reports. -/
theorem CheckWaitingPosition_depot (env : Env) (w : World) (v : Vehicle) (pos : PFPos)
    (forbid_90deg : Bool) (cb : PBSCheckingBehaviour)
    (hw : pos.InWormhole = false) (hd : DepotEntrance env w pos) :
    ((CheckWaitingPosition env w v pos forbid_90deg cb).state = PBSPositionState.PBS_BUSY ↔
      HasDepotReservation w pos.tile = true) ∧
    ((CheckWaitingPosition env w v pos forbid_90deg cb).state = PBSPositionState.PBS_FREE ↔
      HasDepotReservation w pos.tile = false) ∧
    (CheckWaitingPosition env w v pos forbid_90deg cb).state ≠ PBSPositionState.PBS_UNSAFE ∧
    ∀ follow2 : Vehicle → Bool → PFPos → Option FollowResult,
      (CheckWaitingPosition { env with FollowVehicle := follow2 } w v pos forbid_90deg cb).state =
        (CheckWaitingPosition env w v pos forbid_90deg cb).state := by
  have hd2 := (depotEntrance_iff env w pos).mpr hd
  simp only [CheckWaitingPosition, waitingOccupancy, hw, hd2, Bool.false_eq_true, if_false,
    if_true]
  cases HasDepotReservation w pos.tile <;> simp

/-- Witness of C11: the entrance of the reserved rail depot 20 of the sample map
is BUSY in the full check. -/
theorem CheckWaitingPosition_depot_witness :
    DepotEntrance baseEnv depotWorld (PFPos.onTile 20 8) ∧
    (CheckWaitingPosition baseEnv depotWorld (train 1 7 0 1 0) (PFPos.onTile 20 8) false
      PBSCheckingBehaviour.PBS_CHECK_FULL).state = PBSPositionState.PBS_BUSY :=
  ⟨by decide,
    (CheckWaitingPosition_depot baseEnv depotWorld (train 1 7 0 1 0) (PFPos.onTile 20 8) false
      PBSCheckingBehaviour.PBS_CHECK_FULL (by decide) (by decide)).1.mpr (by decide)⟩

theorem occupancy_plain (env : Env) (w : World) (pos : PFPos) (cb : PBSCheckingBehaviour)
    (hpos : PlainWaitingPosition env w pos) :
    waitingOccupancy env w pos cb =
      if cb != PBSCheckingBehaviour.PBS_CHECK_SAFE &&
          (if pos.InWormhole then HasReservedPos env w pos
           else env.TrackOverlapsTracks (GetReservedTrackbits w pos.tile)
             (env.TrackdirToTrack pos.td)) then
        if cb != PBSCheckingBehaviour.PBS_CHECK_FULL then Sum.inl PBSPositionState.PBS_BUSY
        else Sum.inr PBSPositionState.PBS_BUSY
      else Sum.inr PBSPositionState.PBS_FREE := by
  unfold waitingOccupancy
  cases hw : pos.InWormhole
  · obtain ⟨h1, h2⟩ := hpos hw
    have h1b : (IsRailDepotTile w pos.tile && pos.td == env.DiagDirToDiagTrackdir
        (ReverseDiagDir (env.GetGroundDepotDirection pos.tile))) = false := by
      rw [← Bool.not_eq_true, depotEntrance_iff]; exact h1
    have h2b : (env.HasSignalAlongPos pos && !IsPbsSignal (env.GetSignalType pos)) = false := by
      rw [← Bool.not_eq_true, classicSignalAlong_iff]; exact h2
    simp only [h1b, h2b, Bool.false_eq_true, if_false]
  · simp

/-- C12. Safety and freedom are orthogonal: for a position that is neither a
depot entrance nor on a classic-signal tile, with no reservation on its own
track, whose successor resolves to one track direction and carries a PBS signal
facing travel: if the successor is not reserved, `CheckWaitingPosition` returns
FREE in SAFE and in FULL mode; if the successor is reserved, FULL mode returns
BUSY while SAFE mode still returns FREE. -/
theorem CheckWaitingPosition_orthogonal (env : Env) (w : World) (v : Vehicle) (pos : PFPos)
    (forbid_90deg : Bool) (ft : FollowResult)
    (hpos : PlainWaitingPosition env w pos) (hfree : OwnTrackFree env w pos)
    (hft : env.FollowVehicle v (!forbid_90deg) pos = some ft)
    (hsingle : ft.m_new.IsTrackdirSet = true)
    (hsig : env.HasSignalAlongPos ft.m_new.pos = true)
    (hpbs : IsPbsSignal (env.GetSignalType ft.m_new.pos) = true) :
    (HasReservedPos env w ft.m_new.pos = false →
      (CheckWaitingPosition env w v pos forbid_90deg PBSCheckingBehaviour.PBS_CHECK_SAFE).state
        = PBSPositionState.PBS_FREE ∧
      (CheckWaitingPosition env w v pos forbid_90deg PBSCheckingBehaviour.PBS_CHECK_FULL).state
        = PBSPositionState.PBS_FREE) ∧
    (HasReservedPos env w ft.m_new.pos = true →
      (CheckWaitingPosition env w v pos forbid_90deg PBSCheckingBehaviour.PBS_CHECK_FULL).state
        = PBSPositionState.PBS_BUSY ∧
      (CheckWaitingPosition env w v pos forbid_90deg PBSCheckingBehaviour.PBS_CHECK_SAFE).state
        = PBSPositionState.PBS_FREE) := by
  have hown : (if pos.InWormhole then HasReservedPos env w pos
      else env.TrackOverlapsTracks (GetReservedTrackbits w pos.tile)
        (env.TrackdirToTrack pos.td)) = false := by
    unfold OwnTrackFree at hfree
    cases hw : pos.InWormhole <;> simp_all
  have hsafe : successorUnsafe env ft.m_new = false := by
    simp [successorUnsafe, hsingle, hsig, hpbs]
  simp only [CheckWaitingPosition, occupancy_plain env w pos _ hpos, hown, waitingLookahead,
    hft, hsafe]
  constructor <;> intro hres <;> simp [hres]

/-- Witness of C12: a train waits on tile 1 of the line and tile 2 carries a PBS
signal facing it. With nothing reserved the position is FREE in SAFE and in FULL
mode; once track X of tile 2 is reserved with `TryReserveRailTrack`, FULL mode
returns BUSY and SAFE mode still returns FREE. -/
theorem CheckWaitingPosition_orthogonal_witness :
    ((CheckWaitingPosition waitEnv (worldOf lineMap) (train 1 1 0 1 0) (PFPos.onTile 1 0) false
        PBSCheckingBehaviour.PBS_CHECK_SAFE).state = PBSPositionState.PBS_FREE ∧
      (CheckWaitingPosition waitEnv (worldOf lineMap) (train 1 1 0 1 0) (PFPos.onTile 1 0) false
        PBSCheckingBehaviour.PBS_CHECK_FULL).state = PBSPositionState.PBS_FREE) ∧
    ((CheckWaitingPosition waitEnv (TryReserveRailTrack waitEnv (worldOf lineMap) 2 0 false).1
        (train 1 1 0 1 0) (PFPos.onTile 1 0) false
        PBSCheckingBehaviour.PBS_CHECK_FULL).state = PBSPositionState.PBS_BUSY ∧
      (CheckWaitingPosition waitEnv (TryReserveRailTrack waitEnv (worldOf lineMap) 2 0 false).1
        (train 1 1 0 1 0) (PFPos.onTile 1 0) false
        PBSCheckingBehaviour.PBS_CHECK_SAFE).state = PBSPositionState.PBS_FREE) :=
  ⟨(CheckWaitingPosition_orthogonal waitEnv (worldOf lineMap) (train 1 1 0 1 0)
      (PFPos.onTile 1 0) false (arriveOn 2 0) (by decide) (by decide) (by decide) (by decide)
      (by decide) (by decide)).1 (by decide),
    (CheckWaitingPosition_orthogonal waitEnv
      (TryReserveRailTrack waitEnv (worldOf lineMap) 2 0 false).1 (train 1 1 0 1 0)
      (PFPos.onTile 1 0) false (arriveOn 2 0) (by decide) (by decide) (by decide) (by decide)
      (by decide) (by decide)).2 (by decide)⟩

/-- C13. `PBS_CHECK_SAFE_FREE` agrees with the full check: for every vehicle,
position and world state, `CheckWaitingPosition` returns `PBS_FREE` in
`PBS_CHECK_SAFE_FREE` mode if and only if it returns `PBS_FREE` in
`PBS_CHECK_FULL` mode. -/
theorem CheckWaitingPosition_safe_free (env : Env) (w : World) (v : Vehicle) (pos : PFPos)
    (forbid_90deg : Bool) :
    (CheckWaitingPosition env w v pos forbid_90deg
        PBSCheckingBehaviour.PBS_CHECK_SAFE_FREE).state = PBSPositionState.PBS_FREE ↔
    (CheckWaitingPosition env w v pos forbid_90deg
        PBSCheckingBehaviour.PBS_CHECK_FULL).state = PBSPositionState.PBS_FREE := by
  simp only [CheckWaitingPosition, waitingOccupancy, waitingLookahead]
  generalize pos.InWormhole = W
  generalize HasReservedPos env w pos = R
  generalize (IsRailDepotTile w pos.tile && pos.td == env.DiagDirToDiagTrackdir
        (ReverseDiagDir (env.GetGroundDepotDirection pos.tile))) = D
  generalize (env.HasSignalAlongPos pos && !IsPbsSignal (env.GetSignalType pos)) = S
  generalize env.TrackOverlapsTracks (GetReservedTrackbits w pos.tile)
          (env.TrackdirToTrack pos.td) = O
  cases hf : env.FollowVehicle v (!forbid_90deg) pos with
  | none => cases W <;> cases R <;> cases D <;> cases S <;> cases O <;> simp
  | some ft =>
    dsimp only
    generalize successorUnsafe env ft.m_new = U
    generalize HasReservedPos env w ft.m_new.pos = N
    cases W <;> cases R <;> cases D <;> cases S <;> cases O <;> cases U <;> cases N <;> simp

theorem unsafe_in_safe_or_full (env : Env) (w : World) (v : Vehicle) (pos : PFPos)
    (forbid_90deg : Bool) (cb : PBSCheckingBehaviour)
    (hcb : cb = PBSCheckingBehaviour.PBS_CHECK_SAFE ∨ cb = PBSCheckingBehaviour.PBS_CHECK_FULL) :
    (CheckWaitingPosition env w v pos forbid_90deg cb).state = PBSPositionState.PBS_UNSAFE ↔
    ((pos.InWormhole ||
        !((IsRailDepotTile w pos.tile && pos.td == env.DiagDirToDiagTrackdir
            (ReverseDiagDir (env.GetGroundDepotDirection pos.tile))) ||
          (env.HasSignalAlongPos pos && !IsPbsSignal (env.GetSignalType pos)))) &&
      (env.FollowVehicle v (!forbid_90deg) pos).any (fun ft => successorUnsafe env ft.m_new))
      = true := by
  simp only [CheckWaitingPosition, waitingOccupancy, waitingLookahead]
  generalize pos.InWormhole = W
  generalize HasReservedPos env w pos = R
  generalize (IsRailDepotTile w pos.tile && pos.td == env.DiagDirToDiagTrackdir
        (ReverseDiagDir (env.GetGroundDepotDirection pos.tile))) = D
  generalize (env.HasSignalAlongPos pos && !IsPbsSignal (env.GetSignalType pos)) = S
  generalize env.TrackOverlapsTracks (GetReservedTrackbits w pos.tile)
          (env.TrackdirToTrack pos.td) = O
  generalize HasDepotReservation w pos.tile = DR
  generalize HasReservedTrack w pos.tile (env.TrackdirToTrack pos.td) = RT
  cases hf : env.FollowVehicle v (!forbid_90deg) pos with
  | none =>
    rcases hcb with rfl | rfl <;>
      cases W <;> cases R <;> cases D <;> cases S <;> cases O <;> cases DR <;> cases RT <;>
      simp
  | some ft =>
    simp only [Option.any_some]
    generalize successorUnsafe env ft.m_new = U
    generalize HasReservedPos env w ft.m_new.pos = N
    rcases hcb with rfl | rfl <;>
      cases W <;> cases R <;> cases D <;> cases S <;> cases O <;> cases U <;> cases N <;>
      cases DR <;> cases RT <;> simp

theorem isRailDepotTile_congr (w w2 : World) (t : TileIndex)
    (h : DifferOnlyInReservation w w2) : IsRailDepotTile w2 t = IsRailDepotTile w t := by
  have ht := h t
  unfold IsRailDepotTile GetTileType GetTileSubtype IsRailDepot
  rw [← ht]

/-- C14. `PBS_CHECK_SAFE` agrees with the full check on safety and ignores
reservations: `CheckWaitingPosition` returns `PBS_UNSAFE` in `PBS_CHECK_SAFE`
mode if and only if it does in `PBS_CHECK_FULL` mode, and whether either mode
returns `PBS_UNSAFE` is the same in any two world states that differ only in
reservation bits. -/
theorem CheckWaitingPosition_safe_agrees (env : Env) (w : World) (v : Vehicle) (pos : PFPos)
    (forbid_90deg : Bool) :
    ((CheckWaitingPosition env w v pos forbid_90deg PBSCheckingBehaviour.PBS_CHECK_SAFE).state
        = PBSPositionState.PBS_UNSAFE ↔
      (CheckWaitingPosition env w v pos forbid_90deg PBSCheckingBehaviour.PBS_CHECK_FULL).state
        = PBSPositionState.PBS_UNSAFE) ∧
    ∀ w2, DifferOnlyInReservation w w2 →
      ((CheckWaitingPosition env w2 v pos forbid_90deg PBSCheckingBehaviour.PBS_CHECK_SAFE).state
          = PBSPositionState.PBS_UNSAFE ↔
        (CheckWaitingPosition env w v pos forbid_90deg PBSCheckingBehaviour.PBS_CHECK_SAFE).state
          = PBSPositionState.PBS_UNSAFE) ∧
      ((CheckWaitingPosition env w2 v pos forbid_90deg PBSCheckingBehaviour.PBS_CHECK_FULL).state
          = PBSPositionState.PBS_UNSAFE ↔
        (CheckWaitingPosition env w v pos forbid_90deg PBSCheckingBehaviour.PBS_CHECK_FULL).state
          = PBSPositionState.PBS_UNSAFE) := by
  refine ⟨?_, fun w2 h => ⟨?_, ?_⟩⟩
  · rw [unsafe_in_safe_or_full env w v pos forbid_90deg _ (Or.inl rfl),
      unsafe_in_safe_or_full env w v pos forbid_90deg _ (Or.inr rfl)]
  · rw [unsafe_in_safe_or_full env w2 v pos forbid_90deg _ (Or.inl rfl),
      unsafe_in_safe_or_full env w v pos forbid_90deg _ (Or.inl rfl),
      isRailDepotTile_congr w w2 pos.tile h]
  · rw [unsafe_in_safe_or_full env w2 v pos forbid_90deg _ (Or.inr rfl),
      unsafe_in_safe_or_full env w v pos forbid_90deg _ (Or.inr rfl),
      isRailDepotTile_congr w w2 pos.tile h]

/-- Witness of C14: with a block signal on tile 2 the position on tile 1 is
UNSAFE in SAFE mode, and it stays so when track X of tile 2 is reserved. -/
theorem CheckWaitingPosition_safe_agrees_witness :
    DifferOnlyInReservation (worldOf lineMap) (SetTrackReservation (worldOf lineMap) 2 1) ∧
    (CheckWaitingPosition blockSignalEnv (worldOf lineMap) (train 1 1 0 1 0) (PFPos.onTile 1 0)
      false PBSCheckingBehaviour.PBS_CHECK_SAFE).state = PBSPositionState.PBS_UNSAFE ∧
    (CheckWaitingPosition blockSignalEnv (SetTrackReservation (worldOf lineMap) 2 1)
      (train 1 1 0 1 0) (PFPos.onTile 1 0) false PBSCheckingBehaviour.PBS_CHECK_SAFE).state
        = PBSPositionState.PBS_UNSAFE :=
  have hdiff : DifferOnlyInReservation (worldOf lineMap)
      (SetTrackReservation (worldOf lineMap) 2 1) := by
    intro t
    unfold SetTrackReservation setRes
    by_cases ht : t = 2
    · subst ht; simp
    · simp [Function.update, ht]
  ⟨hdiff, by decide,
    ((CheckWaitingPosition_safe_agrees blockSignalEnv (worldOf lineMap) (train 1 1 0 1 0)
      (PFPos.onTile 1 0) false).2 _ hdiff).1.mpr (by decide)⟩

/-- C15. `PBS_CHECK_FREE` under its precondition: whenever the position is safe
(`PBS_CHECK_FULL` does not return `PBS_UNSAFE`), `CheckWaitingPosition` returns
in `PBS_CHECK_FREE` mode the state it returns in `PBS_CHECK_FULL` mode, which is
`PBS_FREE` or `PBS_BUSY`. -/
theorem CheckWaitingPosition_free_agrees (env : Env) (w : World) (v : Vehicle) (pos : PFPos)
    (forbid_90deg : Bool)
    (hsafe : (CheckWaitingPosition env w v pos forbid_90deg
      PBSCheckingBehaviour.PBS_CHECK_FULL).state ≠ PBSPositionState.PBS_UNSAFE) :
    (CheckWaitingPosition env w v pos forbid_90deg PBSCheckingBehaviour.PBS_CHECK_FREE).state =
      (CheckWaitingPosition env w v pos forbid_90deg PBSCheckingBehaviour.PBS_CHECK_FULL).state ∧
    ((CheckWaitingPosition env w v pos forbid_90deg PBSCheckingBehaviour.PBS_CHECK_FREE).state
        = PBSPositionState.PBS_FREE ∨
      (CheckWaitingPosition env w v pos forbid_90deg PBSCheckingBehaviour.PBS_CHECK_FREE).state
        = PBSPositionState.PBS_BUSY) := by
  revert hsafe
  simp only [CheckWaitingPosition, waitingOccupancy, waitingLookahead]
  generalize pos.InWormhole = W
  generalize HasReservedPos env w pos = R
  generalize (IsRailDepotTile w pos.tile && pos.td == env.DiagDirToDiagTrackdir
        (ReverseDiagDir (env.GetGroundDepotDirection pos.tile))) = D
  generalize (env.HasSignalAlongPos pos && !IsPbsSignal (env.GetSignalType pos)) = S
  generalize env.TrackOverlapsTracks (GetReservedTrackbits w pos.tile)
          (env.TrackdirToTrack pos.td) = O
  generalize HasDepotReservation w pos.tile = DR
  generalize HasReservedTrack w pos.tile (env.TrackdirToTrack pos.td) = RT
  cases hf : env.FollowVehicle v (!forbid_90deg) pos with
  | none =>
    cases W <;> cases R <;> cases D <;> cases S <;> cases O <;> cases DR <;> cases RT <;> simp
  | some ft =>
    dsimp only
    generalize successorUnsafe env ft.m_new = U
    generalize HasReservedPos env w ft.m_new.pos = N
    generalize IsStationTile w pos.tile = ST
    cases W <;> cases R <;> cases D <;> cases S <;> cases O <;> cases U <;> cases N <;>
      cases DR <;> cases RT <;> cases ST <;> simp

/-- Witness of C15: the position on tile 1 in front of the PBS signal is safe,
and with track X of tile 2 reserved FREE mode returns BUSY as FULL mode does. -/
theorem CheckWaitingPosition_free_agrees_witness :
    (CheckWaitingPosition waitEnv (SetTrackReservation (worldOf lineMap) 2 1)
      (train 1 1 0 1 0) (PFPos.onTile 1 0) false PBSCheckingBehaviour.PBS_CHECK_FULL).state
        = PBSPositionState.PBS_BUSY ∧
    (CheckWaitingPosition waitEnv (SetTrackReservation (worldOf lineMap) 2 1)
      (train 1 1 0 1 0) (PFPos.onTile 1 0) false PBSCheckingBehaviour.PBS_CHECK_FREE).state =
    (CheckWaitingPosition waitEnv (SetTrackReservation (worldOf lineMap) 2 1)
      (train 1 1 0 1 0) (PFPos.onTile 1 0) false PBSCheckingBehaviour.PBS_CHECK_FULL).state :=
  ⟨by decide,
    (CheckWaitingPosition_free_agrees waitEnv (SetTrackReservation (worldOf lineMap) 2 1)
      (train 1 1 0 1 0) (PFPos.onTile 1 0) false (by decide)).1⟩

/-- C17. Characterisation of UNSAFE: for a position that is not a depot entrance
and not on a tile with a non-PBS signal along travel, `CheckWaitingPosition` in
`PBS_CHECK_SAFE` mode returns `PBS_UNSAFE` if and only if a successor exists and
it does not resolve to exactly one track direction, or has a signal along travel
that is not a PBS signal, or has no signal along travel but a signal against
travel whose type is not one-way PBS, or has no signal in either direction;
otherwise it returns `PBS_FREE`, in particular at the end of the track. -/
theorem CheckWaitingPosition_unsafe_iff (env : Env) (w : World) (v : Vehicle) (pos : PFPos)
    (forbid_90deg : Bool) (hpos : PlainWaitingPosition env w pos) :
    ((CheckWaitingPosition env w v pos forbid_90deg PBSCheckingBehaviour.PBS_CHECK_SAFE).state
        = PBSPositionState.PBS_UNSAFE ↔
      ∃ ft, env.FollowVehicle v (!forbid_90deg) pos = some ft ∧ UnsafeSuccessor env ft.m_new) ∧
    ((CheckWaitingPosition env w v pos forbid_90deg PBSCheckingBehaviour.PBS_CHECK_SAFE).state
        ≠ PBSPositionState.PBS_UNSAFE →
      (CheckWaitingPosition env w v pos forbid_90deg PBSCheckingBehaviour.PBS_CHECK_SAFE).state
        = PBSPositionState.PBS_FREE) ∧
    (env.FollowVehicle v (!forbid_90deg) pos = none →
      (CheckWaitingPosition env w v pos forbid_90deg PBSCheckingBehaviour.PBS_CHECK_SAFE).state
        = PBSPositionState.PBS_FREE) := by
  simp only [CheckWaitingPosition, occupancy_plain env w pos _ hpos, waitingLookahead,
    ← successorUnsafe_iff]
  cases hf : env.FollowVehicle v (!forbid_90deg) pos with
  | none => simp
  | some ft =>
    dsimp only
    cases hu : successorUnsafe env ft.m_new <;> simp [hu]

/-- Witness of C17: with a block signal facing travel on tile 2 the position on
tile 1 of the line is UNSAFE in SAFE mode. -/
theorem CheckWaitingPosition_unsafe_iff_witness :
    PlainWaitingPosition blockSignalEnv (worldOf lineMap) (PFPos.onTile 1 0) ∧
    (CheckWaitingPosition blockSignalEnv (worldOf lineMap) (train 1 1 0 1 0) (PFPos.onTile 1 0)
      false PBSCheckingBehaviour.PBS_CHECK_SAFE).state = PBSPositionState.PBS_UNSAFE :=
  ⟨by decide,
    (CheckWaitingPosition_unsafe_iff blockSignalEnv (worldOf lineMap) (train 1 1 0 1 0)
      (PFPos.onTile 1 0) false (by decide)).1.mpr ⟨arriveOn 2 0, by decide, by decide⟩⟩

theorem safe_successor (env : Env) (m_new : PFNewPos)
    (h : successorUnsafe env m_new = false) :
    m_new.IsTrackdirSet = true ∧ HasSignalOnPos env m_new.pos = true ∧
      IsPbsSignal (env.GetSignalType m_new.pos) = true := by
  revert h
  unfold successorUnsafe HasSignalOnPos IsPbsSignal
  cases m_new.IsTrackdirSet <;> cases env.HasSignalAlongPos m_new.pos <;>
    cases env.HasSignalAgainstPos m_new.pos <;> cases env.GetSignalType m_new.pos <;> simp

theorem occupancy_state (env : Env) (w : World) (pos : PFPos) (cb : PBSCheckingBehaviour)
    (state : PBSPositionState) (h : waitingOccupancy env w pos cb = Sum.inr state) :
    state = PBSPositionState.PBS_FREE ∨ cb = PBSCheckingBehaviour.PBS_CHECK_FULL := by
  revert h
  unfold waitingOccupancy
  generalize pos.InWormhole = W
  generalize HasReservedPos env w pos = R
  generalize (IsRailDepotTile w pos.tile && pos.td == env.DiagDirToDiagTrackdir
        (ReverseDiagDir (env.GetGroundDepotDirection pos.tile))) = D
  generalize (env.HasSignalAlongPos pos && !IsPbsSignal (env.GetSignalType pos)) = S
  generalize env.TrackOverlapsTracks (GetReservedTrackbits w pos.tile)
          (env.TrackdirToTrack pos.td) = O
  cases cb <;> cases W <;> cases R <;> cases D <;> cases S <;> cases O <;> simp <;>
    intro h <;> simp [← h]

theorem occupancy_free_mode (env : Env) (w : World) (pos : PFPos) (state : PBSPositionState)
    (h : waitingOccupancy env w pos PBSCheckingBehaviour.PBS_CHECK_FREE = Sum.inr state) :
    state = PBSPositionState.PBS_FREE ∧
      waitingOccupancy env w pos PBSCheckingBehaviour.PBS_CHECK_FULL
        = Sum.inr PBSPositionState.PBS_FREE := by
  revert h
  unfold waitingOccupancy
  generalize pos.InWormhole = W
  generalize HasReservedPos env w pos = R
  generalize (IsRailDepotTile w pos.tile && pos.td == env.DiagDirToDiagTrackdir
        (ReverseDiagDir (env.GetGroundDepotDirection pos.tile))) = D
  generalize (env.HasSignalAlongPos pos && !IsPbsSignal (env.GetSignalType pos)) = S
  generalize env.TrackOverlapsTracks (GetReservedTrackbits w pos.tile)
          (env.TrackdirToTrack pos.td) = O
  cases W <;> cases R <;> cases D <;> cases S <;> cases O <;> simp <;> intro h <;> simp [← h]

theorem lookahead_asserts (env : Env) (w : World) (v : Vehicle) (pos : PFPos)
    (forbid_90deg : Bool) (cb : PBSCheckingBehaviour) (state : PBSPositionState)
    (h : state = PBSPositionState.PBS_FREE ∨ cb = PBSCheckingBehaviour.PBS_CHECK_FULL) :
    ∀ a ∈ (waitingLookahead env w v pos forbid_90deg cb state).asserts,
      a.line = 455 ∨ a.line = 480 → a.holds = true := by
  unfold waitingLookahead
  cases hf : env.FollowVehicle v (!forbid_90deg) pos with
  | none => simp
  | some ft =>
    dsimp only
    generalize successorUnsafe env ft.m_new = U
    generalize IsStationTile w pos.tile = ST
    rcases h with rfl | rfl
    · cases cb <;> cases U <;> cases ST <;> simp
    · cases state <;> cases U <;> simp

theorem lookahead_free_asserts (env : Env) (w : World) (v : Vehicle) (pos : PFPos)
    (forbid_90deg : Bool)
    (hsafe : (waitingLookahead env w v pos forbid_90deg PBSCheckingBehaviour.PBS_CHECK_FULL
      PBSPositionState.PBS_FREE).state ≠ PBSPositionState.PBS_UNSAFE) :
    ∀ a ∈ (waitingLookahead env w v pos forbid_90deg PBSCheckingBehaviour.PBS_CHECK_FREE
        PBSPositionState.PBS_FREE).asserts,
      a.line = 475 ∨ a.line = 476 ∨ a.line = 477 → a.holds = true := by
  revert hsafe
  unfold waitingLookahead
  cases hf : env.FollowVehicle v (!forbid_90deg) pos with
  | none => simp
  | some ft =>
    dsimp only
    cases hu : successorUnsafe env ft.m_new
    · obtain ⟨h1, h2, h3⟩ := safe_successor env ft.m_new hu
      cases IsStationTile w pos.tile <;> simp [h1, h2, h3]
    · simp

/-- C20. Assertion validity in `CheckWaitingPosition`: in every checking mode,
for every vehicle, position and world state, the assertions of line 455,
`(state == PBS_FREE) || (cb == PBS_CHECK_FULL)`, and of line 480,
`state == PBS_FREE`, hold whenever they are evaluated; and whenever the position
is safe (`PBS_CHECK_FULL` does not return `PBS_UNSAFE`) the three assertions of
lines 475-477 on the successor hold whenever `PBS_CHECK_FREE` mode evaluates
them. -/
theorem CheckWaitingPosition_asserts (env : Env) (w : World) (v : Vehicle) (pos : PFPos)
    (forbid_90deg : Bool) :
    (∀ cb, ∀ a ∈ (CheckWaitingPosition env w v pos forbid_90deg cb).asserts,
      a.line = 455 ∨ a.line = 480 → a.holds = true) ∧
    ((CheckWaitingPosition env w v pos forbid_90deg PBSCheckingBehaviour.PBS_CHECK_FULL).state
        ≠ PBSPositionState.PBS_UNSAFE →
      ∀ a ∈ (CheckWaitingPosition env w v pos forbid_90deg
          PBSCheckingBehaviour.PBS_CHECK_FREE).asserts,
        a.line = 475 ∨ a.line = 476 ∨ a.line = 477 → a.holds = true) := by
  constructor
  · intro cb
    unfold CheckWaitingPosition
    cases ho : waitingOccupancy env w pos cb with
    | inl r => simp
    | inr state =>
      exact lookahead_asserts env w v pos forbid_90deg cb state
        (occupancy_state env w pos cb state ho)
  · unfold CheckWaitingPosition
    cases ho : waitingOccupancy env w pos PBSCheckingBehaviour.PBS_CHECK_FREE with
    | inl r => simp
    | inr state =>
      obtain ⟨hst, hfull⟩ := occupancy_free_mode env w pos state ho
      subst hst
      rw [hfull]
      exact lookahead_free_asserts env w v pos forbid_90deg

/-- Witness of C20: in FREE mode on the safe position in front of the PBS signal
all six assertions are evaluated, and the three of lines 475-477 hold. -/
theorem CheckWaitingPosition_asserts_witness :
    ((CheckWaitingPosition waitEnv (worldOf lineMap) (train 1 1 0 1 0) (PFPos.onTile 1 0) false
      PBSCheckingBehaviour.PBS_CHECK_FREE).asserts.map (fun a => a.line)
        = [454, 455, 475, 476, 477, 480]) ∧
    ∀ a ∈ (CheckWaitingPosition waitEnv (worldOf lineMap) (train 1 1 0 1 0) (PFPos.onTile 1 0)
        false PBSCheckingBehaviour.PBS_CHECK_FREE).asserts,
      a.line = 475 ∨ a.line = 476 ∨ a.line = 477 → a.holds = true :=
  ⟨by decide,
    (CheckWaitingPosition_asserts waitEnv (worldOf lineMap) (train 1 1 0 1 0)
      (PFPos.onTile 1 0) false).2 (by decide)⟩
end PBS
